import Mathlib

/-!
# rosgo: wire codec, simple action client, XML-RPC facade, goal-ID generator, subscriber

A shallow embedding of `ros/byte_decoder_le.go`, `ros/simple_action_client.go`,
`ros/master.go`, `ros/goal_id_gen.go` and `ros/subscriber.go`, followed by the
properties proved about them.

Conventions of the embedding.

* A Go function returning `(value, error)` is a Lean function returning the
  pair `(value, Option Error)`; `none` is the `nil` error.  A function that can
  also panic returns an `Outcome`.
* A function reading from a `*bytes.Reader` takes the reader and returns the
  reader it leaves behind as the last component of its result.
* Go's `int` is the 64-bit machine integer: arithmetic on it is wrapped with
  `wrap64`.  A `uint8` is a `Byte`; the wider unsigned values are natural
  numbers and the signed values are integers.
* A slice is a list; a slice-typed result is an `Option (List _)`, `none`
  being the `nil` slice.  A Go `string` read off the wire is its byte
  sequence.
* Methods with a pointer receiver take the receiver's state and return the
  state they leave behind.
* A Go map is the list of its key/value pairs; the order in which `range`
  visits a map is a parameter.  A buffered channel of `struct{}` is the number
  of tokens it holds, and goroutines take turns at their channel operations.
* A user callback held as `interface{}` is known by what it is (no function,
  a nil function, a function) and by its parameter types; a call through
  `reflect` either reaches the function, and is recorded, or panics, and that
  is recorded instead.

`wrap64` and `maxAlloc` hold 64-bit and 48-bit constants and are irreducible:
proofs unfold them by name, and closed evaluations run under
`with_unfolding_all`.
-/

namespace Ros

/-! ## Errors, bytes, readers -/

/-- Error values built with `errors.New`, `errors.Wrap` and `fmt.Errorf`. -/
inductive Error where
  | new (msg : String)
  | wrap (cause : Error) (msg : String)
deriving DecidableEq, Repr

/-- One octet. -/
abbrev Byte := Fin 256

/-- A `*bytes.Reader`, represented by the bytes it has not yet delivered. -/
abbrev Reader := List Byte

/-- Embeds `buf.Len()`: the number of unread bytes. -/
def Reader.Len (buf : Reader) : Int := (buf.length : Int)

/-- What `buf.Read(p)` hands back: the bytes copied to the front of `p`
(`n` is their number), whether the error is non-nil (`io.EOF`), and the
reader afterwards. -/
structure ReadResult where
  data : List Byte
  eof : Bool
  rest : Reader
deriving DecidableEq, Repr

/-- Embeds `buf.Read(p)` with `len(p) = n`.  As in the Go library: an exhausted
reader answers `(0, io.EOF)`; otherwise `min n (buf.Len())` bytes are copied
and consumed, with a nil error. -/
def Reader.Read (buf : Reader) (n : Nat) : ReadResult :=
  if buf.length = 0 then ⟨[], true, buf⟩
  else ⟨buf.take n, false, buf.drop n⟩

/-- Two's-complement wrap of an integer into the range of Go's 64-bit `int`. -/
@[irreducible]
def wrap64 (x : Int) : Int := (x + 2 ^ 63) % 2 ^ 64 - 2 ^ 63

/-- Conversion of an unsigned `bits`-bit value to the signed type of the same
width (`int8(raw)`, `int16(raw)`, ...). -/
def toSigned (bits : Nat) (raw : Nat) : Int :=
  if raw < 2 ^ (bits - 1) then (raw : Int) else (raw : Int) - 2 ^ bits

/-- Index into a byte array, `arr[i]`. -/
def byteAt (arr : List Byte) (i : Nat) : Nat := (arr.getD i 0).val

/-- Embeds `binary.LittleEndian.Uint16`. -/
def LittleEndian.Uint16 (b : List Byte) : Nat :=
  byteAt b 0 ||| (byteAt b 1 <<< 8)

/-- Embeds `binary.LittleEndian.Uint32`. -/
def LittleEndian.Uint32 (b : List Byte) : Nat :=
  byteAt b 0 ||| (byteAt b 1 <<< 8) ||| (byteAt b 2 <<< 16) ||| (byteAt b 3 <<< 24)

/-- Embeds `binary.LittleEndian.Uint64`. -/
def LittleEndian.Uint64 (b : List Byte) : Nat :=
  byteAt b 0 ||| (byteAt b 1 <<< 8) ||| (byteAt b 2 <<< 16) ||| (byteAt b 3 <<< 24) |||
    (byteAt b 4 <<< 32) ||| (byteAt b 5 <<< 40) ||| (byteAt b 6 <<< 48) ||| (byteAt b 7 <<< 56)

/-! ## Scalar decoders -/

/-- Embeds `LEByteDecoder.DecodeUint8`. -/
def DecodeUint8 (buf : Reader) : (Byte × Option Error) × Reader :=
  let r := buf.Read 1
  if r.data.length ≠ 1 ∨ r.eof then
    ((0, some (.new "Could not read 1 byte from buffer")), r.rest)
  else ((r.data.getD 0 0, none), r.rest)

/-- Embeds `LEByteDecoder.DecodeBool`. -/
def DecodeBool (buf : Reader) : (Bool × Option Error) × Reader :=
  let ((raw, err), buf1) := DecodeUint8 buf
  ((raw != 0, err), buf1)

/-- Embeds `LEByteDecoder.DecodeInt8`. -/
def DecodeInt8 (buf : Reader) : (Int × Option Error) × Reader :=
  let ((raw, err), buf1) := DecodeUint8 buf
  ((toSigned 8 raw.val, err), buf1)

/-- Embeds `LEByteDecoder.DecodeUint16`. -/
def DecodeUint16 (buf : Reader) : (Nat × Option Error) × Reader :=
  let r := buf.Read 2
  if r.data.length ≠ 2 ∨ r.eof then
    ((0, some (.new "Could not read 2 bytes from buffer")), r.rest)
  else ((LittleEndian.Uint16 r.data, none), r.rest)

/-- Embeds `LEByteDecoder.DecodeInt16`. -/
def DecodeInt16 (buf : Reader) : (Int × Option Error) × Reader :=
  let ((raw, err), buf1) := DecodeUint16 buf
  ((toSigned 16 raw, err), buf1)

/-- Embeds `LEByteDecoder.DecodeUint32`. -/
def DecodeUint32 (buf : Reader) : (Nat × Option Error) × Reader :=
  let r := buf.Read 4
  if r.data.length ≠ 4 ∨ r.eof then
    ((0, some (.new "Could not read 4 bytes from buffer")), r.rest)
  else ((LittleEndian.Uint32 r.data, none), r.rest)

/-- Embeds `LEByteDecoder.DecodeInt32`. -/
def DecodeInt32 (buf : Reader) : (Int × Option Error) × Reader :=
  let ((raw, err), buf1) := DecodeUint32 buf
  ((toSigned 32 raw, err), buf1)

/-- Embeds `LEByteDecoder.DecodeUint64`. -/
def DecodeUint64 (buf : Reader) : (Nat × Option Error) × Reader :=
  let r := buf.Read 8
  if r.data.length ≠ 8 ∨ r.eof then
    ((0, some (.new "Could not read 8 bytes from buffer")), r.rest)
  else ((LittleEndian.Uint64 r.data, none), r.rest)

/-- Embeds `LEByteDecoder.DecodeInt64`. -/
def DecodeInt64 (buf : Reader) : (Int × Option Error) × Reader :=
  let ((raw, err), buf1) := DecodeUint64 buf
  ((toSigned 64 raw, err), buf1)

/-! ## Array decoders -/

/-- How a call ends: it returns its `(value, error)` pair, or it panics. -/
inductive Outcome (α : Type) where
  | returned (val : α) (err : Option Error)
  | panicked
deriving DecidableEq, Repr

/-- Embeds `CheckSize`. -/
def CheckSize (buf : Reader) (size : Int) : Option Error :=
  if size < 0 then some (.new "unexpected negative size")
  else if buf.Len < size then some (.new "buffer size too small")
  else none

/-- The largest allocation, in bytes, that the Go runtime grants on a 64-bit
platform (`maxAlloc`, 48 address bits). -/
@[irreducible]
def maxAlloc : Nat := 2 ^ 48

/-- Embeds `make([]T, size)` for an element type of `elemSize` bytes with zero value
`zero`.  The runtime panics (`makeslice: len out of range`) when `size` is
negative or `size * elemSize` bytes exceed `maxAlloc`; `none` is that panic.
Otherwise the slice holds `size` zero values. -/
def makeSlice {α : Type} (elemSize : Nat) (zero : α) (size : Int) : Option (List α) :=
  if size < 0 ∨ (maxAlloc : Int) < size * (elemSize : Int) then none
  else some (List.replicate size.toNat zero)

/-- The loop `for i := 0; i < size; i++ { ... }` of the array decoders, with
`n` iterations left and `i` the current index.  `body` is one pass of the loop
body on the reader: it reports the value it assigned to `slice[i]`, if it
assigned one, and the error that makes the decoder return `slice, err` at once;
a panic inside the body ends the call. -/
def decodeLoop {α : Type} (body : Reader → Outcome (Option α) × Reader) :
    Nat → Nat → List α → Reader → Outcome (List α) × Reader
  | 0, _, slice, buf => (.returned slice none, buf)
  | n + 1, i, slice, buf =>
    match body buf with
    | (.panicked, buf1) => (.panicked, buf1)
    | (.returned w (some e), buf1) =>
      (.returned (match w with | some v => slice.set i v | none => slice) (some e), buf1)
    | (.returned w none, buf1) =>
      decodeLoop body n (i + 1) (match w with | some v => slice.set i v | none => slice) buf1

/-- The frame shared by the array decoders: `CheckSize(buf, checked)` with the
error wrapped in `what`, then `make([]T, size)`, then the element loop. -/
def decodeArray {α : Type} (what : String) (elemSize : Nat) (zero : α) (checked : Int)
    (body : Reader → Outcome (Option α) × Reader) (buf : Reader) (size : Int) :
    Outcome (Option (List α)) × Reader :=
  match CheckSize buf checked with
  | some err => (.returned none (some (.wrap err what)), buf)
  | none =>
    match makeSlice elemSize zero size with
    | none => (.panicked, buf)
    | some slice =>
      match decodeLoop body size.toNat 0 slice buf with
      | (.panicked, buf1) => (.panicked, buf1)
      | (.returned s err, buf1) => (.returned (some s) err, buf1)

/-- The loop body of the fixed-width decoders: read `w` bytes into `arr`; a
short read is the error `msg` (nothing assigned), a full one assigns
`conv arr` to `slice[i]`. -/
def readElem {α : Type} (w : Nat) (msg : String) (conv : List Byte → α) (buf : Reader) :
    Outcome (Option α) × Reader :=
  let r := buf.Read w
  if r.data.length ≠ w ∨ r.eof then (.returned none (some (.new msg)), r.rest)
  else (.returned (some (conv r.data)) none, r.rest)

/-- Embeds `JsonFloat32`: the field `F` is held as its IEEE-754 bit pattern. -/
structure JsonFloat32 where
  F : Nat
deriving DecidableEq, Repr

/-- Embeds `JsonFloat64`: the field `F` is held as its IEEE-754 bit pattern. -/
structure JsonFloat64 where
  F : Nat
deriving DecidableEq, Repr

/-- Embeds `math.Float32frombits`, on bit patterns. -/
def Float32frombits (b : Nat) : Nat := b

/-- Embeds `math.Float64frombits`, on bit patterns. -/
def Float64frombits (b : Nat) : Nat := b

/-- Embeds `Time`: seconds and nanoseconds, both `uint32`. -/
structure Time where
  Sec : Nat
  NSec : Nat
deriving DecidableEq, Repr

/-- Embeds `Duration`: seconds and nanoseconds, both `uint32`. -/
structure Duration where
  Sec : Nat
  NSec : Nat
deriving DecidableEq, Repr

/-- Embeds `LEByteDecoder.DecodeBoolArray`. -/
def DecodeBoolArray (buf : Reader) (size : Int) : Outcome (Option (List Bool)) × Reader :=
  decodeArray "decoding bool array" 1 false size
    (readElem 1 "Could not read 1 byte from buffer" (fun arr => arr.getD 0 0 != 0)) buf size

/-- Embeds `LEByteDecoder.DecodeInt8Array`. -/
def DecodeInt8Array (buf : Reader) (size : Int) : Outcome (Option (List Int)) × Reader :=
  decodeArray "decoding i8 array" 1 0 size
    (readElem 1 "Could not read 1 byte from buffer" (fun arr => toSigned 8 (byteAt arr 0))) buf size

/-- Embeds `LEByteDecoder.DecodeUint8Array`: one `Read` into the whole slice. -/
def DecodeUint8Array (buf : Reader) (size : Int) : Outcome (Option (List Byte)) × Reader :=
  match CheckSize buf size with
  | some err => (.returned none (some (.wrap err "decoding u8 array")), buf)
  | none =>
    match makeSlice 1 (0 : Byte) size with
    | none => (.panicked, buf)
    | some slice =>
      if size = 0 then (.returned (some slice) none, buf)
      else
        let r := buf.Read slice.length
        let slice1 := r.data ++ slice.drop r.data.length
        if (r.data.length : Int) ≠ size ∨ r.eof then
          (.returned (some slice1) (some (.new "Did not read entire uint8 buffer")), r.rest)
        else (.returned (some slice1) none, r.rest)

/-- Embeds `LEByteDecoder.DecodeInt16Array`. -/
def DecodeInt16Array (buf : Reader) (size : Int) : Outcome (Option (List Int)) × Reader :=
  decodeArray "decoding i16 array" 2 0 (wrap64 (size * 2))
    (readElem 2 "Could not read 2 bytes from buffer"
      (fun arr => toSigned 16 (LittleEndian.Uint16 arr))) buf size

/-- Embeds `LEByteDecoder.DecodeUint16Array`. -/
def DecodeUint16Array (buf : Reader) (size : Int) : Outcome (Option (List Nat)) × Reader :=
  decodeArray "decoding u16 array" 2 0 (wrap64 (size * 2))
    (readElem 2 "Could not read 2 bytes from buffer" LittleEndian.Uint16) buf size

/-- Embeds `LEByteDecoder.DecodeInt32Array`. -/
def DecodeInt32Array (buf : Reader) (size : Int) : Outcome (Option (List Int)) × Reader :=
  decodeArray "decoding i32 array" 4 0 (wrap64 (size * 4))
    (readElem 4 "Could not read 4 bytes from buffer"
      (fun arr => toSigned 32 (LittleEndian.Uint32 arr))) buf size

/-- Embeds `LEByteDecoder.DecodeUint32Array`. -/
def DecodeUint32Array (buf : Reader) (size : Int) : Outcome (Option (List Nat)) × Reader :=
  decodeArray "decoding u32 array" 4 0 (wrap64 (size * 4))
    (readElem 4 "Could not read 4 bytes from buffer" LittleEndian.Uint32) buf size

/-- Embeds `LEByteDecoder.DecodeFloat32Array`. -/
def DecodeFloat32Array (buf : Reader) (size : Int) :
    Outcome (Option (List JsonFloat32)) × Reader :=
  decodeArray "decoding f32 array" 4 ⟨0⟩ (wrap64 (size * 4))
    (readElem 4 "Could not read 4 bytes from buffer"
      (fun arr => (⟨Float32frombits (LittleEndian.Uint32 arr)⟩ : JsonFloat32))) buf size

/-- Embeds `LEByteDecoder.DecodeInt64Array`. -/
def DecodeInt64Array (buf : Reader) (size : Int) : Outcome (Option (List Int)) × Reader :=
  decodeArray "decoding i64 array" 8 0 (wrap64 (size * 8))
    (readElem 8 "Could not read 8 bytes from buffer"
      (fun arr => toSigned 64 (LittleEndian.Uint64 arr))) buf size

/-- Embeds `LEByteDecoder.DecodeUint64Array`. -/
def DecodeUint64Array (buf : Reader) (size : Int) : Outcome (Option (List Nat)) × Reader :=
  decodeArray "decoding u64 array" 8 0 (wrap64 (size * 8))
    (readElem 8 "Could not read 8 bytes from buffer" LittleEndian.Uint64) buf size

/-- Embeds `LEByteDecoder.DecodeFloat64Array`. -/
def DecodeFloat64Array (buf : Reader) (size : Int) :
    Outcome (Option (List JsonFloat64)) × Reader :=
  decodeArray "decoding f64 array" 8 ⟨0⟩ (wrap64 (size * 8))
    (readElem 8 "Could not read 8 bytes from buffer"
      (fun arr => (⟨Float64frombits (LittleEndian.Uint64 arr)⟩ : JsonFloat64))) buf size

/-- One pass of the loop body of `DecodeStringArray`: a `u32` length, then that
many bytes through `DecodeUint8Array`; either failure is wrapped and nothing
is assigned.  The conversion `int(strSize)` of a `uint32` to the 64-bit `int`
keeps the value. -/
def stringElem (buf : Reader) : Outcome (Option (List Byte)) × Reader :=
  match DecodeUint32 buf with
  | ((_, some err), buf1) => (.returned none (some (.wrap err "decoding string array")), buf1)
  | ((strSize, none), buf1) =>
    match DecodeUint8Array buf1 (strSize : Int) with
    | (.panicked, buf2) => (.panicked, buf2)
    | (.returned _ (some err), buf2) =>
      (.returned none (some (.wrap err "decoding string array")), buf2)
    | (.returned value none, buf2) => (.returned (some (value.getD [])) none, buf2)

/-- Embeds `LEByteDecoder.DecodeStringArray`; a Go `string` is its byte sequence, a
string header takes 16 bytes. -/
def DecodeStringArray (buf : Reader) (size : Int) :
    Outcome (Option (List (List Byte))) × Reader :=
  decodeArray "decoding string array" 16 [] (wrap64 (size * 4)) stringElem buf size

/-- One pass of the loop body of `DecodeTimeArray` and `DecodeDurationArray`:
`Sec` then `NSec` through `DecodeUint32`.  `Sec` is assigned before its error
is looked at, so a failure on `NSec` leaves an element whose `Sec` is set. -/
def secNSecElem {α : Type} (what : String) (mk : Nat → Nat → α) (buf : Reader) :
    Outcome (Option α) × Reader :=
  match DecodeUint32 buf with
  | ((sec, some err), buf1) => (.returned (some (mk sec 0)) (some (.wrap err what)), buf1)
  | ((sec, none), buf1) =>
    match DecodeUint32 buf1 with
    | ((nsec, some err), buf2) => (.returned (some (mk sec nsec)) (some (.wrap err what)), buf2)
    | ((nsec, none), buf2) => (.returned (some (mk sec nsec)) none, buf2)

/-- Embeds `LEByteDecoder.DecodeTimeArray`. -/
def DecodeTimeArray (buf : Reader) (size : Int) : Outcome (Option (List Time)) × Reader :=
  decodeArray "decoding time array" 8 ⟨0, 0⟩ (wrap64 (size * 8))
    (secNSecElem "decoding time array" Time.mk) buf size

/-- Embeds `LEByteDecoder.DecodeDurationArray`. -/
def DecodeDurationArray (buf : Reader) (size : Int) :
    Outcome (Option (List Duration)) × Reader :=
  decodeArray "decoding duration array" 8 ⟨0, 0⟩ (wrap64 (size * 8))
    (secNSecElem "decoding duration array" Duration.mk) buf size

/-- Embeds `LEByteDecoder.DecodeMessageArray`.  `DynamicMessage.Deserialize` lies
outside the decoder: `deserialize msgType buf` stands for building a
`DynamicMessage` of type `msgType` and calling `Deserialize(buf)` on it,
giving the message, the error and the reader afterwards.  A `Message` is an
interface value (16 bytes), `none` being the nil interface. -/
def DecodeMessageArray {T M : Type} (deserialize : T → Reader → (M × Option Error) × Reader)
    (buf : Reader) (size : Int) (msgType : T) : Outcome (Option (List (Option M))) × Reader :=
  decodeArray "decoding message array" 16 none size
    (fun b =>
      match deserialize msgType b with
      | ((_, some err), b1) => (.returned none (some (.wrap err "decoding message array")), b1)
      | ((msg, none), b1) => (.returned (some (some msg)) none, b1)) buf size

/-- Embeds `LEByteDecoder.DecodeString`; a Go `string` is its byte sequence, and the
conversion `int(strSize)` of a `uint32` to the 64-bit `int` keeps the value. -/
def DecodeString (buf : Reader) : Outcome (List Byte) × Reader :=
  match DecodeUint32 buf with
  | ((_, some err), buf1) => (.returned [] (some (.wrap err "decoding string")), buf1)
  | ((strSize, none), buf1) =>
    match DecodeUint8Array buf1 (strSize : Int) with
    | (.panicked, buf2) => (.panicked, buf2)
    | (.returned _ (some err), buf2) => (.returned [] (some (.wrap err "decoding string")), buf2)
    | (.returned value none, buf2) => (.returned (value.getD []) none, buf2)

/-- Embeds `LEByteDecoder.DecodeFloat32`. -/
def DecodeFloat32 (buf : Reader) : (JsonFloat32 × Option Error) × Reader :=
  let ((raw, err), buf1) := DecodeUint32 buf
  ((⟨Float32frombits raw⟩, err), buf1)

/-- Embeds `LEByteDecoder.DecodeFloat64`. -/
def DecodeFloat64 (buf : Reader) : (JsonFloat64 × Option Error) × Reader :=
  let ((raw, err), buf1) := DecodeUint64 buf
  ((⟨Float64frombits raw⟩, err), buf1)

/-- Embeds `LEByteDecoder.DecodeTime`. -/
def DecodeTime (buf : Reader) : (Time × Option Error) × Reader :=
  match DecodeUint32 buf with
  | ((_, some err), buf1) => ((⟨0, 0⟩, some (.wrap err "decoding time")), buf1)
  | ((sec, none), buf1) =>
    match DecodeUint32 buf1 with
    | ((_, some err), buf2) => ((⟨0, 0⟩, some (.wrap err "decoding time")), buf2)
    | ((nsec, none), buf2) => ((⟨sec, nsec⟩, none), buf2)

/-- Embeds `LEByteDecoder.DecodeDuration`. -/
def DecodeDuration (buf : Reader) : (Duration × Option Error) × Reader :=
  match DecodeUint32 buf with
  | ((_, some err), buf1) => ((⟨0, 0⟩, some (.wrap err "decoding duration")), buf1)
  | ((sec, none), buf1) =>
    match DecodeUint32 buf1 with
    | ((_, some err), buf2) => ((⟨0, 0⟩, some (.wrap err "decoding duration")), buf2)
    | ((nsec, none), buf2) => ((⟨sec, nsec⟩, none), buf2)


/-- An array decoder rejected its input: it returned the nil slice together
with a non-nil error. -/
def Outcome.rejected {α : Type} : Outcome (Option (List α)) → Bool
  | .returned none (some _) => true
  | _ => false

/-! ## Wire encodings named by the specification -/

/-- The `w`-byte little-endian encoding of the unsigned value `v`. -/
def leBytes : Nat → Nat → List Byte
  | 0, _ => []
  | w + 1, v => Fin.ofNat (v % 256) :: leBytes w (v / 256)

/-- The `w`-byte little-endian two's-complement encoding of the integer `v`. -/
def leBytesSigned (w : Nat) (v : Int) : List Byte :=
  leBytes w (v % 2 ^ (8 * w)).toNat

/-- The one-byte encoding of a boolean: `false` is `0x00`, `true` is `0x01`. -/
def boolByte (b : Bool) : List Byte := [if b then 1 else 0]

/-! ## Repeated scalar decoding -/

/-- A scalar decoder that returns a `(value, error)` pair, seen as a call
that returned. -/
def returning {α : Type} (dec : Reader → (α × Option Error) × Reader) (buf : Reader) :
    Outcome α × Reader :=
  (.returned (dec buf).1.1 (dec buf).1.2, (dec buf).2)

/-- The `n` successive calls of a scalar decoder on one reader that the
array decoders are compared with: the values decoded, in order, and the reader
afterwards when each of the `n` calls returns a nil error; `none` as soon as
one call fails. -/
def scalarCalls {α : Type} (dec : Reader → Outcome α × Reader) :
    Nat → Reader → Option (List α × Reader)
  | 0, buf => some ([], buf)
  | n + 1, buf =>
    match dec buf with
    | (.returned v none, buf1) =>
      match scalarCalls dec n buf1 with
      | some (vs, buf2) => some (v :: vs, buf2)
      | none => none
    | _ => none


/-- The loop body of an array decoder and a scalar decoder agree: one pass of
the body succeeds on a reader exactly when the scalar call does, it then
assigns the value the call returns and leaves the same reader; and a
successful call takes at least `w` bytes. -/
def elementAgrees {α : Type} (w : Nat) (body : Reader → Outcome (Option α) × Reader)
    (dec : Reader → Outcome α × Reader) : Prop :=
  (∀ buf s r, body buf = (.returned s none, r) ↔
    ∃ v, s = some v ∧ dec buf = (.returned v none, r)) ∧
  (∀ buf v r, dec buf = (.returned v none, r) → r.length + w ≤ buf.length)

/-- A scalar decoder of width `w`: on `w` bytes or more it succeeds and takes
exactly `w`. -/
def takesExactly {α : Type} (w : Nat) (dec : Reader → Outcome α × Reader) : Prop :=
  ∀ buf : Reader, w ≤ buf.length → ∃ v, dec buf = (.returned v none, buf.drop w)


/-! ## Simple action client (`ros/simple_action_client.go`) -/

/-- Embeds `SimpleStatePending`. -/
def SimpleStatePending : Nat := 0

/-- Embeds `SimpleStateActive`. -/
def SimpleStateActive : Nat := 1

/-- Embeds `SimpleStateDone`. -/
def SimpleStateDone : Nat := 2

/-- Modelled from the spec: the `CommState` type is declared outside the files
at hand.  Its values are the stages of the goal-handle lifecycle the
specification lists (waiting for goal ack, pending, active, waiting for
result, waiting for cancel ack, done) and the two further constants the
handler names, `Recalling` and `Preempting`. -/
inductive CommState where
  | WaitingForGoalAck
  | Pending
  | Active
  | WaitingForResult
  | WaitingForCancelAck
  | Recalling
  | Preempting
  | Done
deriving DecidableEq, Repr

/-- A `Message` value; the action client only passes it on. -/
structure Message where
  id : Nat
deriving DecidableEq, Repr

/-- A `ClientGoalHandler` as the simple client consults it: the `(value,
error)` answers of `GetCommState`, `GetGoalStatus` and `GetResult`.  The
result is an interface value: `none` is the nil `Message`. -/
structure ClientGoalHandler where
  GetCommState : CommState × Option Error
  GetGoalStatus : Nat × Option Error
  GetResult : Option Message × Option Error
deriving DecidableEq, Repr

/-- The types that decide whether `reflect` lets a value through to a
parameter: `uint8`, the type of a goal status; a type to which the messages at
hand are assignable (their own type, or an interface they implement such as
`Message`); `MessageEvent`; the empty interface, to which every value is
assignable; and any other type, known by its name, to which none of the
values passed to callbacks is assignable. -/
inductive GoType where
  | uint8
  | message
  | messageEvent
  | emptyInterface
  | other (name : String)
deriving DecidableEq, Repr

/-- What a non-nil `interface{}` registered as a callback holds: a value whose
type is no function type, a nil function, or a function. -/
inductive FuncKind where
  | notFunc
  | nilFunc
  | func
deriving DecidableEq, Repr

/-- A user callback stored as `interface{}`: a non-nil value known by a name,
by what it is, and, for a value of function type, by the types its arguments
must be assignable to, one for each parameter it declares (for the last
parameter of a variadic function, the element type). -/
structure Callback where
  name : String
  kind : FuncKind
  params : List GoType
deriving DecidableEq, Repr

/-- Embeds `fun.Type().NumIn()` for a callback of function type: the number of
parameters declared.  On a value that is no function `NumIn` panics. -/
def Callback.numIn (fn : Callback) : Nat := fn.params.length

/-- A `reflect.Value` handed to a callback: a goal status, a message, or the
zero `Value` that `reflect.ValueOf` gives for a nil interface. -/
inductive Arg where
  | status (s : Nat)
  | message (m : Message)
  | zero
deriving DecidableEq, Repr

/-- Embeds `reflect.ValueOf` on a `Message`. -/
def ValueOf (m : Option Message) : Arg :=
  match m with
  | some m => .message m
  | none => .zero

/-- Whether `Call` lets the argument through to a parameter of type `t`: the
zero `Value` never, a status to `uint8`, a message to a type messages are
assignable to, and both to the empty interface. -/
def Arg.fits (a : Arg) (t : GoType) : Bool :=
  match a, t with
  | .zero, _ => false
  | _, .emptyInterface => true
  | .status _, .uint8 => true
  | .message _, .message => true
  | _, _ => false

/-- Whether `fun.Call(ins)`, with as many arguments as parameters, reaches the
function: `Call` panics on a nil function and on an argument that is not
assignable to its parameter. -/
def Callback.accepts {α : Type} (fits : α → GoType → Bool) (fn : Callback) (ins : List α) :
    Bool :=
  fn.kind == .func && (ins.zip fn.params).all (fun p => fits p.1 p.2)

/-- One invocation `fun.Call(args)` of a user callback: the callback kind it
was looked up under, the callback, and the arguments passed. -/
structure Call where
  cbType : String
  callback : Callback
  args : List Arg
deriving DecidableEq, Repr

/-- Capacity of `doneChan`, `make(chan struct{}, 10)`. -/
def doneChanCap : Nat := 10

/-- The `simpleActionClient`.  `doneChan` is the number of signals the
buffered channel holds; `calls` records, oldest first, the user callbacks
invoked so far; `panicked` records that a call made through `reflect` has
panicked: the method goes no further (no `recover` stands between it and the
call), the other fields being what it had set by then.  A nil callback or goal handle is
`none`.  The wrapped action client and the logger carry no state the simple
client reads back. -/
structure simpleActionClient where
  simpleState : Nat
  gh : Option ClientGoalHandler
  doneCb : Option Callback
  activeCb : Option Callback
  feedbackCb : Option Callback
  doneChan : Nat
  calls : List Call
  panicked : Bool := false
deriving DecidableEq, Repr

/-- Embeds `newSimpleActionClient`, on success of `newDefaultActionClient`. -/
def newSimpleActionClient : simpleActionClient :=
  { simpleState := SimpleStateDone, gh := none, doneCb := none, activeCb := none,
    feedbackCb := none, doneChan := 0, calls := [], panicked := false }

/-- Embeds `simpleActionClient.setSimpleState`. -/
def setSimpleState (sc : simpleActionClient) (state : Nat) : simpleActionClient :=
  { sc with simpleState := state }

/-- Embeds `simpleActionClient.StopTrackingGoal`. -/
def StopTrackingGoal (sc : simpleActionClient) : simpleActionClient :=
  { sc with gh := none }

/-- Embeds `simpleActionClient.sendDone`: a non-blocking send; a full channel drops
the signal. -/
def sendDone (sc : simpleActionClient) : simpleActionClient :=
  if sc.doneChan < doneChanCap then { sc with doneChan := sc.doneChan + 1 } else sc

/-- Embeds `simpleActionClient.runCallback`.  `fun.Type().NumIn()` panics on a
callback that is no function; `fun.Call` panics, without calling, on a nil
function and on an argument its parameter does not accept.  What the user
function does when called is outside the client; the call is recorded in
`calls`. -/
def runCallback (sc : simpleActionClient) (cbType : String) (args : List Arg) :
    simpleActionClient :=
  let callback : Option Callback :=
    if cbType = "active" then sc.activeCb
    else if cbType = "feedback" then sc.feedbackCb
    else if cbType = "done" then sc.doneCb
    else none
  match callback with
  | none => sc
  | some fn =>
    if fn.kind = .notFunc then { sc with panicked := true }
    else
      let numArgsNeeded := fn.numIn
      if numArgsNeeded > args.length then sc
      else if fn.accepts Arg.fits (args.take numArgsNeeded) then
        { sc with calls := sc.calls ++ [⟨cbType, fn, args.take numArgsNeeded⟩] }
      else { sc with panicked := true }

/-- The `switch commState` of `transitionHandler`: the client after the
state updates, with the `callbackType` and `args` the switch leaves behind. -/
def transitionSwitch (sc : simpleActionClient) (gh : ClientGoalHandler) (commState : CommState) :
    simpleActionClient × String × List Arg :=
  match commState with
  | .Active =>
    if sc.simpleState = SimpleStatePending then
      (setSimpleState sc SimpleStateActive, "active", [])
    else (sc, "", [])
  | .Recalling => (sc, "", [])
  | .Preempting =>
    if sc.simpleState = SimpleStatePending then
      (setSimpleState sc SimpleStateActive, "active", [])
    else (sc, "", [])
  | .Done =>
    if sc.simpleState = SimpleStatePending ∨ sc.simpleState = SimpleStateActive then
      let sc1 := sendDone (setSimpleState sc SimpleStateDone)
      if sc1.doneCb = none then (sc1, "", [])
      else
        match gh.GetGoalStatus with
        | (_, some _) => (sc1, "", [])
        | (status, none) =>
          match gh.GetResult with
          | (_, some _) => (sc1, "", [])
          | (result, none) => (sc1, "done", [.status status, ValueOf result])
    else (sc, "", [])
  | _ => (sc, "", [])

/-- Embeds `simpleActionClient.transitionHandler`. -/
def transitionHandler (sc : simpleActionClient) (gh : ClientGoalHandler) : simpleActionClient :=
  match gh.GetCommState with
  | (_, some _) => sc
  | (commState, none) =>
    let (sc1, callbackType, args) := transitionSwitch sc gh commState
    if callbackType.length > 0 then runCallback sc1 callbackType args else sc1

/-- Embeds `simpleActionClient.SendGoal`.  `acSendGoal` is the `(goal handle, error)`
pair that the wrapped client's `SendGoal` returns. -/
def SendGoal (sc : simpleActionClient) (doneCb activeCb feedbackCb : Option Callback)
    (acSendGoal : ClientGoalHandler × Option Error) : Option Error × simpleActionClient :=
  let sc1 := StopTrackingGoal sc
  let sc2 := { sc1 with doneCb := doneCb, activeCb := activeCb, feedbackCb := feedbackCb }
  let sc3 := setSimpleState sc2 SimpleStatePending
  match acSendGoal with
  | (_, some err) => (some err, sc3)
  | (gh, none) => (none, { sc3 with gh := some gh })

/-- Embeds `simpleActionClient.GetState`; a goal status is a `uint8`. -/
def GetState (sc : simpleActionClient) : Nat × Option Error :=
  match sc.gh with
  | none => (9, some (.new "called get state when no goal running"))
  | some gh =>
    match gh.GetGoalStatus with
    | (_, some err) => (9, some err)
    | (status, none) =>
      if status = 7 then (0, none)
      else if status = 6 then (1, none)
      else (status, none)

/-- Embeds `simpleActionClient.CancelGoal`; `ghCancel` is the error that
`gh.Cancel()` returns. -/
def CancelGoal (sc : simpleActionClient) (ghCancel : Option Error) : Option Error :=
  match sc.gh with
  | none => none
  | some _ => ghCancel

/-- Modelled from the spec: `Duration.IsZero` is declared outside the files at
hand; the zero timeout of the specification ("zero means forever") is the
duration whose two fields are zero. -/
def Duration.IsZero (d : Duration) : Bool := d.Sec == 0 && d.NSec == 0

/-- One pass of the wait loop of `WaitForResult`, as the rest of the program
shapes it: the notifications that the wrapped client delivers for the tracked
goal while the `select` waits, and whether the deadline has passed when the
pass ends (`waitStart.Cmp(Now()) <= 0`). -/
structure WaitPass where
  arrivals : List ClientGoalHandler
  expired : Bool
deriving DecidableEq, Repr

/-- A notification for the tracked goal.  The goal handle is one shared
object: the tracked handle now gives the answers `gh`, and the wrapped client
calls `transitionHandler(gh)`. -/
def notify (sc : simpleActionClient) (gh : ClientGoalHandler) : simpleActionClient :=
  transitionHandler { sc with gh := sc.gh.map (fun _ => gh) } gh

/-- The loop `LOOP` of `WaitForResult`, one `WaitPass` per pass.  A pass takes
a signal from `doneChan` when one is there and leaves the loop; otherwise the
100 ms timer fires and the loop is left when the timeout is not zero and the
deadline has passed.  The result is `none` when the passes run out with the
loop still waiting. -/
def waitLoop (timeout : Duration) :
    simpleActionClient → List WaitPass → Option (simpleActionClient × List WaitPass)
  | _, [] => none
  | sc, p :: ps =>
    let sc1 := p.arrivals.foldl notify sc
    if sc1.doneChan > 0 then some ({ sc1 with doneChan := sc1.doneChan - 1 }, ps)
    else if !timeout.IsZero && p.expired then some (sc1, ps)
    else waitLoop timeout sc1 ps

/-- Embeds `simpleActionClient.WaitForResult`: the value returned, the client
afterwards and the passes not used; `none` while the call has not returned. -/
def WaitForResult (sc : simpleActionClient) (timeout : Duration) (passes : List WaitPass) :
    Option (Bool × simpleActionClient × List WaitPass) :=
  match sc.gh with
  | none => some (false, sc, passes)
  | some _ =>
    match waitLoop timeout sc passes with
    | none => none
    | some (sc1, rest) => some (sc1.simpleState == SimpleStateDone, sc1, rest)

/-- Embeds `simpleActionClient.SendGoalAndWait`: the `(state, error)` pair
returned and the client at return; `none` while the call has not returned.
`acSendGoal` is what the wrapped client's `SendGoal` returns and `ghCancel`
what `gh.Cancel()` returns. -/
def SendGoalAndWait (sc : simpleActionClient) (acSendGoal : ClientGoalHandler × Option Error)
    (executeTimeout preeptTimeout : Duration) (ghCancel : Option Error)
    (passes : List WaitPass) : Option ((Nat × Option Error) × simpleActionClient) :=
  let sc1 := (SendGoal sc none none none acSendGoal).2
  match WaitForResult sc1 executeTimeout passes with
  | none => none
  | some (true, sc2, _) => some (GetState sc2, sc2)
  | some (false, sc2, rest) =>
    let _ := CancelGoal sc2 ghCancel
    match WaitForResult sc2 preeptTimeout rest with
    | none => none
    | some (_, sc3, _) => some (GetState sc3, sc3)


/-! ## XML-RPC facade (`ros/master.go`) -/

/-- A dynamically typed value (`interface{}`) as the XML-RPC layer produces
it, by dynamic type: the nil interface, `bool`, `int32`, `int64`, `float64`
(held as its bit pattern), `string`, `[]interface{}`, or a value of some
other type, known by the name of that type. -/
inductive XmlValue where
  | nil
  | bool (b : Bool)
  | int32 (n : Int)
  | int64 (n : Int)
  | float64 (bits : Nat)
  | string (s : String)
  | array (xs : List XmlValue)
  | other (typeName : String)

/-- Modelled from the spec: the constant `APIStatusSuccess` is declared
outside the files at hand; the status codes are `1` = success, `0` = failure,
`-1` = error. -/
def APIStatusSuccess : Int := 1

/-- An `*xmlrpc.XMLClient`: what `client.Call(calleeURI, method, args...)`
returns, as a `(result, error)` pair. -/
abbrev XMLClient := String → String → List XmlValue → XmlValue × Option Error

/-- Embeds `callRosAPI`. -/
def callRosAPI (client : XMLClient) (calleeURI : String) (method : String)
    (args : List XmlValue) : XmlValue × Option Error :=
  match client calleeURI method args with
  | (_, some err) => (.nil, some err)
  | (result, none) =>
    match result with
    | .array xs =>
      if xs.length ≠ 3 then
        (.nil, some (.new ("Malformed ROS API result. Length must be 3 but "
          ++ toString xs.length)))
      else
        match xs.getD 0 .nil with
        | .int32 code =>
          match xs.getD 1 .nil with
          | .string message =>
            let value := xs.getD 2 .nil
            if code ≠ APIStatusSuccess then
              (.nil, some (.new ("ROS Master API call failed with code " ++ toString code
                ++ ": " ++ message)))
            else (value, none)
          | _ => (.nil, some (.new "message is not string"))
        | _ => (.nil, some (.new "status code is not int"))
    | _ => (.nil, some (.new "malformed ROS API result"))

/-- Embeds `buildRosAPIResult`. -/
def buildRosAPIResult (code : Int) (message : String) (value : XmlValue) : XmlValue :=
  .array [.int32 code, .string message, value]

/-! ## Goal-ID generator (`ros/goal_id_gen.go`) -/

/-- The `goalIDGenerator`; `goals` is a Go `int`.  The mutex serialises the
calls and has no state of its own here. -/
structure goalIDGenerator where
  goals : Int
  nodeName : String
deriving DecidableEq, Repr

/-- Embeds `newGoalIDGenerator`. -/
def newGoalIDGenerator (nodeName : String) : goalIDGenerator :=
  { goals := 0, nodeName := nodeName }

/-- Embeds `goalIDGenerator.generateID`; `timeNow` is what `Now()` returns during the
call.  The format `"%s-%d-%d-%d"` joins the node name and the decimal
renderings of the counter, the seconds and the nanoseconds with `-`. -/
def generateID (g : goalIDGenerator) (timeNow : Time) : String × goalIDGenerator :=
  let g1 := { g with goals := wrap64 (g.goals + 1) }
  (g1.nodeName ++ "-" ++ toString g1.goals ++ "-" ++ toString timeNow.Sec ++ "-"
    ++ toString timeNow.NSec, g1)

/-- The generator after its first `k` calls of `generateID`, the `i`-th call
(counting from 1) reading the clock value `clock i`. -/
def generatorAfter (nodeName : String) (clock : Nat → Time) : Nat → goalIDGenerator
  | 0 => newGoalIDGenerator nodeName
  | k + 1 => (generateID (generatorAfter nodeName clock k) (clock (k + 1))).2

/-- The string returned by the `n`-th call of `generateID` (`n >= 1`) on a
generator created for `nodeName`. -/
def nthID (nodeName : String) (clock : Nat → Time) (n : Nat) : String :=
  (generateID (generatorAfter nodeName clock (n - 1)) (clock n)).1

/-! ## Subscriber (`ros/subscriber.go`) -/

/-- A Go `map[string]V`, held as its key/value pairs.  The first pair with a
key is its binding. -/
abbrev GoMap (V : Type) := List (String × V)

/-- The lookup `m[k]` with its presence flag: `none` when `k` is no key. -/
def mapGet {V : Type} (m : GoMap V) (k : String) : Option V := m.lookup k

/-- The assignment `m[k] = v`. -/
def mapSet {V : Type} (m : GoMap V) (k : String) (v : V) : GoMap V :=
  if (m.lookup k).isSome then m.map (fun e => if e.1 = k then (k, v) else e)
  else m ++ [(k, v)]

/-- The statement `delete(m, k)`. -/
def mapDelete {V : Type} (m : GoMap V) (k : String) : GoMap V :=
  m.filter (fun e => e.1 ≠ k)

/-- The keys of the map; `for k := range m` visits them in an order the
language leaves open. -/
def mapKeys {V : Type} (m : GoMap V) : List String := m.map Prod.fst

/-- Embeds `setDifference`.  `order` is the order in which a `range` over a
map with the given keys visits them. -/
def setDifference (order : List String → List String) (lhs rhs : List String) :
    List String :=
  let left : GoMap Bool := lhs.foldl (fun m item => mapSet m item true) []
  let right : GoMap Bool := rhs.foldl (fun m item => mapSet m item true) []
  let left1 := (order (mapKeys right)).foldl (fun m k => mapDelete m k) left
  order (mapKeys left1)

/-- Embeds `MessageEvent`; the receipt time is held as a number. -/
structure MessageEvent where
  PublisherName : String
  ReceiptTime : Nat
  ConnectionHeader : List (String × String)
deriving DecidableEq, Repr

/-- Embeds `messageEvent`. -/
structure messageEvent where
  bytes : List Byte
  event : MessageEvent
deriving DecidableEq, Repr

/-- A `MessageType` as the subscriber uses it: `Deserialize payload` stands
for `m := msgType.NewMessage()` followed by
`m.Deserialize(bytes.NewReader(payload))`, giving the message as it is
afterwards and the error. -/
structure MessageType where
  Deserialize : List Byte → Message × Option Error

/-- A `reflect.Value` handed to a subscriber callback: the message or the
message event. -/
inductive SubArg where
  | message (m : Message)
  | event (e : MessageEvent)
deriving DecidableEq, Repr

/-- Whether `Call` lets the argument through to a parameter of type `t`: the
message to a type messages are assignable to, the event to `MessageEvent`, and
both to the empty interface. -/
def SubArg.fits (a : SubArg) (t : GoType) : Bool :=
  match a, t with
  | _, .emptyInterface => true
  | .message _, .message => true
  | .event _, .messageEvent => true
  | _, _ => false

/-- One invocation `fun.Call(args)` of a subscriber callback. -/
structure SubCall where
  callback : Callback
  args : List SubArg
deriving DecidableEq, Repr

/-- The quit channel of one child subscription, `make(chan struct{}, 10)`,
known by the URI of the child it belongs to.  It receives one signal in its
life, so a send on it finds room. -/
structure QuitChan where
  uri : String
deriving DecidableEq, Repr

/-- Embeds `defaultSubscriber`, without its channels: the events they carry
are the arguments of the steps below. -/
structure defaultSubscriber where
  topic : String
  msgType : MessageType
  pubList : List String
  callbacks : List Callback
  connections : GoMap QuitChan
  uri2pub : GoMap String

/-- Embeds `newDefaultSubscriber`. -/
def newDefaultSubscriber (topic : String) (msgType : MessageType) (callback : Callback) :
    defaultSubscriber :=
  { topic := topic, msgType := msgType, pubList := [], callbacks := [callback],
    connections := [], uri2pub := [] }

/-- What a run of the dispatch job has done: the calls it made, oldest first,
and whether it ended in a panic. -/
structure JobResult where
  calls : List SubCall
  panicked : Bool
deriving DecidableEq, Repr

/-- The loop `for _, callback := range callbacks` of the dispatch job, with
the calls made so far.  `fun.Type().NumIn()` panics on a callback that is no
function; `fun.Call` panics, without calling, on a nil function and on an
argument its parameter does not accept; a panic ends the job. -/
def dispatchLoop (args : List SubArg) : List Callback → List SubCall → JobResult
  | [], calls => ⟨calls, false⟩
  | callback :: rest, calls =>
    if callback.kind = .notFunc then ⟨calls, true⟩
    else
      let numArgsNeeded := callback.numIn
      if numArgsNeeded ≤ 2 then
        if callback.accepts SubArg.fits (args.take numArgsNeeded) then
          dispatchLoop args rest (calls ++ [⟨callback, args.take numArgsNeeded⟩])
        else ⟨calls, true⟩
      else dispatchLoop args rest calls

/-- The job that the `msgChan` case of `start` queues for a received message,
given as what it does when it runs.  `callbacks` is the copy of the callback
list taken when the message arrived.  The error of `Deserialize` is logged and
nothing else is done with it. -/
def dispatchJob (msgType : MessageType) (callbacks : List Callback) (msgEvent : messageEvent) :
    JobResult :=
  let (m, _) := msgType.Deserialize msgEvent.bytes
  let args := [SubArg.message m, SubArg.event msgEvent.event]
  dispatchLoop args callbacks []

/-- The `msgChan` case of `start`: the job built from the subscriber's
callbacks, or `none` when the job channel did not take it within 3 s
(`enqueued = false`). -/
def onMessage (sub : defaultSubscriber) (msgEvent : messageEvent) (enqueued : Bool) :
    Option JobResult :=
  if enqueued then some (dispatchJob sub.msgType sub.callbacks msgEvent) else none

/-- The `addCallbackChan` case of `start`. -/
def onAddCallback (sub : defaultSubscriber) (callback : Callback) : defaultSubscriber :=
  { sub with callbacks := sub.callbacks ++ [callback] }

/-- What the subscriber does to the outside in a step: a quit signal sent on
the connection of `pub`, a `requestTopic` call to `pub`, a child subscription
started for `pub` at `uri`. -/
inductive SubAction where
  | quit (pub : String)
  | requestTopic (pub : String)
  | startConn (pub uri : String)
deriving DecidableEq, Repr

/-- How a step of the subscriber loop ends: it runs to its end, it blocks for
ever on a send to a nil channel, or it panics. -/
inductive StepEnd where
  | completed
  | blocked
  | panicked
deriving DecidableEq, Repr

/-- The subscriber after a step, what the step did, and how it ended. -/
structure StepResult where
  sub : defaultSubscriber
  actions : List SubAction
  ending : StepEnd

/-- The loop over `deadPubs` in the `pubListChan` case of `start`.  A
publisher without an entry in `connections` yields the nil channel, and the
send on it never returns. -/
def tearDown : defaultSubscriber → List String → StepResult
  | sub, [] => ⟨sub, [], .completed⟩
  | sub, pub :: rest =>
    match mapGet sub.connections pub with
    | none => ⟨sub, [], .blocked⟩
    | some _ =>
      let r := tearDown { sub with connections := mapDelete sub.connections pub } rest
      ⟨r.sub, SubAction.quit pub :: r.actions, r.ending⟩

/-- What the loop over `newPubs` makes of the answer of `callRosAPI` to
`requestTopic`: the call failed; the answer names another protocol; it names
TCPROS with an address and a port; or one of the unchecked accesses
(`result.([]interface{})`, `protocolParams[0].(string)`,
`protocolParams[1].(string)`, `protocolParams[2].(int32)`) panics. -/
inductive Reply where
  | failed
  | other (name : String)
  | tcpros (uri : String)
  | malformed
deriving DecidableEq, Repr

/-- The reading of the answer to `requestTopic` in the loop over `newPubs`. -/
def readReply (reply : XmlValue × Option Error) : Reply :=
  match reply with
  | (_, some _) => .failed
  | (result, none) =>
    match result with
    | .array protocolParams =>
      match protocolParams with
      | .string name :: rest =>
        if name = "TCPROS" then
          match rest with
          | .string addr :: .int32 port :: _ => .tcpros (addr ++ ":" ++ toString port)
          | _ => .malformed
        else .other name
      | _ => .malformed
    | _ => .malformed

/-- The call `callRosAPI(pub, "requestTopic", nodeID, sub.topic, protocols)`,
through the XML-RPC client of the node. -/
def requestTopic (client : XMLClient) (nodeID topic pub : String) : XmlValue × Option Error :=
  callRosAPI client pub "requestTopic"
    [.string nodeID, .string topic, .array [.array [.string "TCPROS"]]]

/-- The loop over `newPubs` in the `pubListChan` case of `start`. -/
def connect (client : XMLClient) (nodeID : String) :
    defaultSubscriber → List String → StepResult
  | sub, [] => ⟨sub, [], .completed⟩
  | sub, pub :: rest =>
    match readReply (requestTopic client nodeID sub.topic pub) with
    | .malformed => ⟨sub, [.requestTopic pub], .panicked⟩
    | .tcpros uri =>
      let r := connect client nodeID
        { sub with connections := mapSet sub.connections pub ⟨uri⟩,
                   uri2pub := mapSet sub.uri2pub uri pub } rest
      ⟨r.sub, .requestTopic pub :: .startConn pub uri :: r.actions, r.ending⟩
    | _ =>
      let r := connect client nodeID sub rest
      ⟨r.sub, .requestTopic pub :: r.actions, r.ending⟩

/-- The `pubListChan` case of `start`: a new publisher list arrives. -/
def onPubList (order : List String → List String) (client : XMLClient) (nodeID : String)
    (sub : defaultSubscriber) (list : List String) : StepResult :=
  let deadPubs := setDifference order sub.pubList list
  let newPubs := setDifference order list sub.pubList
  let r1 := tearDown { sub with pubList := list } deadPubs
  match r1.ending with
  | .completed =>
    let r2 := connect client nodeID r1.sub newPubs
    ⟨r2.sub, r1.actions ++ r2.actions, r2.ending⟩
  | _ => r1

/-- The `disconnectedChan` case of `start`: the child at `pubURI` reports that
its connection is gone.  A URI that is no key of `uri2pub` yields the empty
string. -/
def onDisconnected (sub : defaultSubscriber) (pubURI : String) : defaultSubscriber :=
  { sub with
    connections := mapDelete sub.connections ((mapGet sub.uri2pub pubURI).getD "")
    uri2pub := mapDelete sub.uri2pub pubURI }


/-- Capacity of `shutdownChan`, `make(chan struct{}, 10)`. -/
def shutdownChanCap : Nat := 10

/-- Where the loop of `start` stands with respect to shutdown: it is running
(waiting at its `select`, or inside the body of another case), it has taken a
request from `shutdownChan` and is inside the body of the shutdown case, or it
has returned. -/
inductive LoopPhase where
  | running
  | closing
  | exited
deriving DecidableEq, Repr

/-- The two goroutines that use `shutdownChan`: the loop of `start`, and a
caller that makes `calls` calls of `Shutdown` one after the other.
`shutdownChan` is the number of tokens in the buffer of the channel; `ops` is
the number of channel operations of `Shutdown` the caller has completed, two
for each call; `acks` is the number of acknowledgments the loop has sent. -/
structure ShutdownState where
  shutdownChan : Nat
  loop : LoopPhase
  calls : Nat
  ops : Nat
  acks : Nat
deriving DecidableEq, Repr

/-- The number of calls of `Shutdown` that have returned. -/
def ShutdownState.returned (st : ShutdownState) : Nat := st.ops / 2

/-- Embeds `defaultSubscriber.Shutdown`, one channel operation at a time: the send
`sub.shutdownChan <- struct{}{}`, then the receive `<-sub.shutdownChan`.  An
operation that cannot proceed (the buffer is full, or empty) leaves the state
as it is: the caller stays blocked in it. -/
def Shutdown (st : ShutdownState) : ShutdownState :=
  if st.ops < 2 * st.calls then
    if st.ops % 2 = 0 then
      if st.shutdownChan < shutdownChanCap then
        { st with shutdownChan := st.shutdownChan + 1, ops := st.ops + 1 }
      else st
    else
      if 0 < st.shutdownChan then
        { st with shutdownChan := st.shutdownChan - 1, ops := st.ops + 1 }
      else st
  else st

/-- The `shutdownChan` case of `start`, one channel operation at a time: the
receive of the `select`, open to a running loop when the buffer holds a token;
then, after the connections are signalled and closed and the subscriber is
unregistered, the send of the acknowledgment, after which `start` returns.  A
loop that is inside the body of another case is a running loop that is not
given its turn. -/
def shutdownCase (st : ShutdownState) : ShutdownState :=
  match st.loop with
  | .running =>
    if 0 < st.shutdownChan then
      { st with shutdownChan := st.shutdownChan - 1, loop := .closing }
    else st
  | .closing =>
    if st.shutdownChan < shutdownChanCap then
      { st with shutdownChan := st.shutdownChan + 1, loop := .exited, acks := st.acks + 1 }
    else st
  | .exited => st

/-- Which goroutine performs its next channel operation. -/
inductive Turn where
  | caller
  | loop
deriving DecidableEq, Repr

/-- The state after the goroutines have taken their turns in the given
order. -/
def interleave (st : ShutdownState) (turns : List Turn) : ShutdownState :=
  turns.foldl (fun s t => match t with | .caller => Shutdown s | .loop => shutdownCase s) st


/-- The states the two goroutines can be in: between two calls of `Shutdown`
the buffer is empty and the loop is not inside the shutdown case; between the
send and the receive of a call either the token is in the buffer, or the loop
has taken it and has not yet acknowledged. -/
def ShutdownState.consistent (st : ShutdownState) : Prop :=
  (st.ops % 2 = 0 ∧ st.shutdownChan = 0 ∧ st.loop ≠ .closing) ∨
  (st.ops % 2 = 1 ∧
    ((st.shutdownChan = 1 ∧ st.loop ≠ .closing) ∨ (st.shutdownChan = 0 ∧ st.loop = .closing)))


/-- The callback kinds that may have fired for the current goal when the client
is in simple state `s`: none in Pending; at most `active` in Active; and in
Done at most `active` followed by at most `done`. -/
def traceOk (s : Nat) (kinds : List String) : Prop :=
  (s = SimpleStatePending ∧ kinds = []) ∨
  (s = SimpleStateActive ∧ (kinds = [] ∨ kinds = ["active"])) ∨
  (s = SimpleStateDone ∧
    (kinds = [] ∨ kinds = ["active"] ∨ kinds = ["done"] ∨ kinds = ["active", "done"]))

/-! # Properties -/

/-! ## Lemmas on readers and little-endian values -/

theorem or_shiftLeft_eq_add {a k : Nat} (b : Nat) (ha : a < 2 ^ k) :
    a ||| (b <<< k) = a + b * 2 ^ k := by
  rw [Nat.shiftLeft_eq, Nat.or_comm, Nat.mul_comm b, ← Nat.mul_add_lt_is_or ha, Nat.add_comm]

theorem Read_append (enc rest : List Byte) (h : enc ≠ []) :
    Reader.Read (enc ++ rest) enc.length = ⟨enc, false, rest⟩ := by
  cases enc with
  | nil => exact absurd rfl h
  | cons b bs => simp [Reader.Read]

theorem leBytes_length (w v : Nat) : (leBytes w v).length = w := by
  induction w generalizing v with
  | zero => rfl
  | succ w ih => simp [leBytes, ih]

theorem Read_leBytes (w v : Nat) (rest : List Byte) (hw : w ≠ 0) :
    Reader.Read (leBytes w v ++ rest) w = ⟨leBytes w v, false, rest⟩ := by
  have h := Read_append (leBytes w v) rest (by
    intro hnil
    have := leBytes_length w v
    rw [hnil] at this
    exact hw this.symm)
  rwa [leBytes_length] at h

theorem byteAt_cons_zero (b : Byte) (bs : List Byte) : byteAt (b :: bs) 0 = b.val := rfl

theorem byteAt_cons_succ (b : Byte) (bs : List Byte) (i : Nat) :
    byteAt (b :: bs) (i + 1) = byteAt bs i := rfl

theorem val_ofNat_mod (v : Nat) : (Fin.ofNat (v % 256) : Byte).val = v % 256 := by
  simp [Fin.ofNat]

theorem leBytes_one (v : Byte) : leBytes 1 v.val = [v] := by
  have h : (Fin.ofNat (v.val % 256) : Byte) = v := by
    apply Fin.ext
    rw [val_ofNat_mod]
    exact Nat.mod_eq_of_lt v.isLt
  simp [leBytes, h]

theorem Uint16_leBytes (v : Nat) (hv : v < 2 ^ 16) : LittleEndian.Uint16 (leBytes 2 v) = v := by
  simp only [LittleEndian.Uint16, leBytes, byteAt_cons_zero, byteAt_cons_succ, val_ofNat_mod]
  rw [or_shiftLeft_eq_add _ (by omega)]
  omega

theorem Uint32_leBytes (v : Nat) (hv : v < 2 ^ 32) : LittleEndian.Uint32 (leBytes 4 v) = v := by
  simp only [LittleEndian.Uint32, leBytes, byteAt_cons_zero, byteAt_cons_succ, val_ofNat_mod]
  rw [or_shiftLeft_eq_add (k := 8) _ (by omega), or_shiftLeft_eq_add (k := 16) _ (by omega),
    or_shiftLeft_eq_add (k := 24) _ (by omega)]
  omega

theorem Uint64_leBytes (v : Nat) (hv : v < 2 ^ 64) : LittleEndian.Uint64 (leBytes 8 v) = v := by
  simp only [LittleEndian.Uint64, leBytes, byteAt_cons_zero, byteAt_cons_succ, val_ofNat_mod]
  rw [or_shiftLeft_eq_add (k := 8) _ (by omega), or_shiftLeft_eq_add (k := 16) _ (by omega),
    or_shiftLeft_eq_add (k := 24) _ (by omega), or_shiftLeft_eq_add (k := 32) _ (by omega),
    or_shiftLeft_eq_add (k := 40) _ (by omega), or_shiftLeft_eq_add (k := 48) _ (by omega),
    or_shiftLeft_eq_add (k := 56) _ (by omega)]
  omega

theorem DecodeUint8_cons (v : Byte) (rest : Reader) :
    DecodeUint8 (v :: rest) = ((v, none), rest) := by
  simp [DecodeUint8, Reader.Read]

theorem DecodeUint8_leBytes (v : Byte) (rest : Reader) :
    DecodeUint8 (leBytes 1 v.val ++ rest) = ((v, none), rest) := by
  rw [leBytes_one]
  exact DecodeUint8_cons v rest

theorem DecodeUint16_leBytes (v : Nat) (hv : v < 2 ^ 16) (rest : Reader) :
    DecodeUint16 (leBytes 2 v ++ rest) = ((v, none), rest) := by
  simp [DecodeUint16, Read_leBytes, leBytes_length, Uint16_leBytes v hv]

theorem DecodeUint32_leBytes (v : Nat) (hv : v < 2 ^ 32) (rest : Reader) :
    DecodeUint32 (leBytes 4 v ++ rest) = ((v, none), rest) := by
  simp [DecodeUint32, Read_leBytes, leBytes_length, Uint32_leBytes v hv]

theorem DecodeUint64_leBytes (v : Nat) (hv : v < 2 ^ 64) (rest : Reader) :
    DecodeUint64 (leBytes 8 v ++ rest) = ((v, none), rest) := by
  simp [DecodeUint64, Read_leBytes, leBytes_length, Uint64_leBytes v hv]

/-- Reading back a two's-complement residue: for `v` in the signed `bits`-bit
range, converting `v mod 2^bits` to the signed type gives `v`. -/
theorem toSigned_emod (bits : Nat) (hb : 0 < bits) (v : Int)
    (hlo : -(2 ^ (bits - 1) : Int) ≤ v) (hhi : v < 2 ^ (bits - 1)) :
    toSigned bits (v % 2 ^ bits).toNat = v := by
  obtain ⟨k, rfl⟩ : ∃ k, bits = k + 1 := ⟨bits - 1, by omega⟩
  simp only [Nat.add_sub_cancel] at hlo hhi
  have hp : (2 : Int) ^ (k + 1) = 2 * 2 ^ k := by rw [pow_succ]; ring
  have hk : (0 : Int) < 2 ^ k := by positivity
  have hnn : 0 ≤ v % 2 ^ (k + 1) := Int.emod_nonneg _ (by positivity)
  unfold toSigned
  simp only [Nat.add_sub_cancel]
  have hcast : ((v % 2 ^ (k + 1)).toNat : Int) = v % 2 ^ (k + 1) := Int.toNat_of_nonneg hnn
  have hlt : ((v % 2 ^ (k + 1)).toNat < 2 ^ k) ↔ (v % 2 ^ (k + 1) < 2 ^ k) := by
    rw [← hcast]
    constructor
    · intro h; exact_mod_cast h
    · intro h; exact_mod_cast h
  by_cases hv : 0 ≤ v
  · have hmod : v % 2 ^ (k + 1) = v := Int.emod_eq_of_lt hv (by rw [hp]; omega)
    rw [if_pos (hlt.mpr (by rw [hmod]; exact hhi)), hcast, hmod]
  · have hmod : v % 2 ^ (k + 1) = v + 2 ^ (k + 1) := by
      rw [← Int.add_emod_self]
      exact Int.emod_eq_of_lt (by rw [hp]; omega) (by omega)
    rw [if_neg (by rw [hlt, hmod, hp]; omega), hcast, hmod]
    omega

/-- The unsigned residue of a `w`-byte two's-complement encoding is below `2^(8w)`. -/
theorem emod_toNat_lt (bits : Nat) (v : Int) : (v % 2 ^ bits).toNat < 2 ^ bits := by
  have hpos : (0 : Int) < 2 ^ bits := by positivity
  have h1 := Int.emod_lt_of_pos v hpos
  have h0 := Int.emod_nonneg v (ne_of_gt hpos)
  have : ((v % 2 ^ bits).toNat : Int) < ((2 ^ bits : Nat) : Int) := by
    rw [Int.toNat_of_nonneg h0]; exact_mod_cast h1
  exact_mod_cast this

theorem DecodeSigned_aux (bits : Nat) (hb : 0 < bits) (v : Int)
    (hlo : -(2 ^ (bits - 1) : Int) ≤ v) (hhi : v < 2 ^ (bits - 1)) :
    (v % 2 ^ bits).toNat < 2 ^ bits ∧ toSigned bits (v % 2 ^ bits).toNat = v :=
  ⟨emod_toNat_lt bits v, toSigned_emod bits hb v hlo hhi⟩

/-! ## C1: round trip of the fixed-width primitives -/

/-- C1. Round trip for fixed-width primitives: for every value of bool, u8, i8,
u16, i16, u32, i32, u64, i64 and every trailing byte sequence `rest`, the
matching scalar decoder applied to the little-endian encoding of the value
(bool as one byte 0x00 / 0x01, signed values in two's complement) followed by
`rest` returns the value with a nil error and leaves the reader at `rest`. -/
theorem scalar_round_trip (rest : Reader) :
    (∀ b : Bool, DecodeBool (boolByte b ++ rest) = ((b, none), rest)) ∧
    (∀ v : Byte, DecodeUint8 (leBytes 1 v.val ++ rest) = ((v, none), rest)) ∧
    (∀ v : Int, -2 ^ 7 ≤ v → v < 2 ^ 7 →
      DecodeInt8 (leBytesSigned 1 v ++ rest) = ((v, none), rest)) ∧
    (∀ v : Nat, v < 2 ^ 16 → DecodeUint16 (leBytes 2 v ++ rest) = ((v, none), rest)) ∧
    (∀ v : Int, -2 ^ 15 ≤ v → v < 2 ^ 15 →
      DecodeInt16 (leBytesSigned 2 v ++ rest) = ((v, none), rest)) ∧
    (∀ v : Nat, v < 2 ^ 32 → DecodeUint32 (leBytes 4 v ++ rest) = ((v, none), rest)) ∧
    (∀ v : Int, -2 ^ 31 ≤ v → v < 2 ^ 31 →
      DecodeInt32 (leBytesSigned 4 v ++ rest) = ((v, none), rest)) ∧
    (∀ v : Nat, v < 2 ^ 64 → DecodeUint64 (leBytes 8 v ++ rest) = ((v, none), rest)) ∧
    (∀ v : Int, -2 ^ 63 ≤ v → v < 2 ^ 63 →
      DecodeInt64 (leBytesSigned 8 v ++ rest) = ((v, none), rest)) := by
  refine ⟨?_, fun v => DecodeUint8_leBytes v rest, ?_,
    fun v h => DecodeUint16_leBytes v h rest, ?_,
    fun v h => DecodeUint32_leBytes v h rest, ?_,
    fun v h => DecodeUint64_leBytes v h rest, ?_⟩
  · intro b
    cases b <;> rfl
  · intro v hlo hhi
    obtain ⟨h1, h2⟩ := DecodeSigned_aux 8 (by decide) v (by simpa using hlo) (by simpa using hhi)
    have h3 := DecodeUint8_leBytes ⟨(v % 2 ^ 8).toNat, h1⟩ rest
    simp only [DecodeInt8, leBytesSigned, Nat.mul_one, h3, h2]
  · intro v hlo hhi
    obtain ⟨h1, h2⟩ := DecodeSigned_aux 16 (by decide) v (by simpa using hlo) (by simpa using hhi)
    simp only [DecodeInt16, leBytesSigned, Nat.reduceMul, DecodeUint16_leBytes _ h1, h2]
  · intro v hlo hhi
    obtain ⟨h1, h2⟩ := DecodeSigned_aux 32 (by decide) v (by simpa using hlo) (by simpa using hhi)
    simp only [DecodeInt32, leBytesSigned, Nat.reduceMul, DecodeUint32_leBytes _ h1, h2]
  · intro v hlo hhi
    obtain ⟨h1, h2⟩ := DecodeSigned_aux 64 (by decide) v (by simpa using hlo) (by simpa using hhi)
    simp only [DecodeInt64, leBytesSigned, Nat.reduceMul, DecodeUint64_leBytes _ h1, h2]

/-- Witness for C1: the round trip at `true`, `0xAB`, `-2`, `0x1234`,
`-300`, `0xDEADBEEF`, `-70000`, `2^64 - 1` and `-2^63`, before the byte `9`. -/
theorem scalar_round_trip_witness :
    DecodeBool (boolByte true ++ [9]) = ((true, none), [9]) ∧
    DecodeUint8 (leBytes 1 (0xAB : Byte).val ++ [9]) = ((0xAB, none), [9]) ∧
    DecodeInt8 (leBytesSigned 1 (-2) ++ [9]) = ((-2, none), [9]) ∧
    DecodeUint16 (leBytes 2 0x1234 ++ [9]) = ((0x1234, none), [9]) ∧
    DecodeInt16 (leBytesSigned 2 (-300) ++ [9]) = ((-300, none), [9]) ∧
    DecodeUint32 (leBytes 4 0xDEADBEEF ++ [9]) = ((0xDEADBEEF, none), [9]) ∧
    DecodeInt32 (leBytesSigned 4 (-70000) ++ [9]) = ((-70000, none), [9]) ∧
    DecodeUint64 (leBytes 8 (2 ^ 64 - 1) ++ [9]) = ((2 ^ 64 - 1, none), [9]) ∧
    DecodeInt64 (leBytesSigned 8 (-2 ^ 63) ++ [9]) = ((-2 ^ 63, none), [9]) :=
  ⟨(scalar_round_trip [9]).1 true,
   (scalar_round_trip [9]).2.1 0xAB,
   (scalar_round_trip [9]).2.2.1 (-2) (by decide) (by decide),
   (scalar_round_trip [9]).2.2.2.1 0x1234 (by decide),
   (scalar_round_trip [9]).2.2.2.2.1 (-300) (by decide) (by decide),
   (scalar_round_trip [9]).2.2.2.2.2.1 0xDEADBEEF (by decide),
   (scalar_round_trip [9]).2.2.2.2.2.2.1 (-70000) (by decide) (by decide),
   (scalar_round_trip [9]).2.2.2.2.2.2.2.1 (2 ^ 64 - 1) (by decide),
   (scalar_round_trip [9]).2.2.2.2.2.2.2.2 (-2 ^ 63) (by decide) (by decide)⟩

/-! ## C2: round trip of strings -/

theorem wrap64_of_range (x : Int) (hlo : -2 ^ 63 ≤ x) (hhi : x < 2 ^ 63) : wrap64 x = x := by
  unfold wrap64
  have h : (x + 2 ^ 63) % 2 ^ 64 = x + 2 ^ 63 := Int.emod_eq_of_lt (by omega) (by omega)
  omega

theorem CheckSize_ok (buf : Reader) (size : Int) (h0 : 0 ≤ size) (h1 : size ≤ buf.length) :
    CheckSize buf size = none := by
  unfold CheckSize Reader.Len
  rw [if_neg (by omega), if_neg (by omega)]

theorem makeSlice_ok {α : Type} (elemSize : Nat) (zero : α) (n : Nat)
    (h : n * elemSize ≤ maxAlloc) :
    makeSlice elemSize zero (n : Int) = some (List.replicate n zero) := by
  unfold makeSlice
  have h2 : ¬ ((n : Int) < 0 ∨ (maxAlloc : Int) < (n : Int) * (elemSize : Int)) := by
    have : ((n * elemSize : Nat) : Int) ≤ (maxAlloc : Int) := by exact_mod_cast h
    push_cast at this
    omega
  rw [if_neg h2]
  simp

/-- The decoder `DecodeUint8Array` on a buffer that starts with the `n` announced bytes. -/
theorem DecodeUint8Array_exact (s rest : List Byte) (h : s.length ≤ maxAlloc) :
    DecodeUint8Array (s ++ rest) (s.length : Int) = (.returned (some s) none, rest) := by
  unfold DecodeUint8Array
  rw [CheckSize_ok _ _ (by omega) (by simp), makeSlice_ok 1 0 s.length (by omega)]
  cases s with
  | nil => simp
  | cons b bs =>
    have hne : ((List.length (b :: bs) : Nat) : Int) ≠ 0 := by simp; omega
    have hr := Read_append (b :: bs) rest (by simp)
    simp only [] at hr ⊢
    rw [if_neg hne]
    simp only [List.length_replicate, hr]
    simp

theorem DecodeString_of (buf buf1 buf2 : Reader) (n : Nat) (value : Option (List Byte))
    (h1 : DecodeUint32 buf = ((n, none), buf1))
    (h2 : DecodeUint8Array buf1 (n : Int) = (.returned value none, buf2)) :
    DecodeString buf = (.returned (value.getD []) none, buf2) := by
  simp only [DecodeString, h1, h2]

/-- C2. Round trip for strings: for every byte sequence `s` shorter than 2^32
(any bytes, the empty sequence included) and every trailing byte sequence
`rest`, `DecodeString` applied to the 4-byte little-endian length of `s`, then
`s`, then `rest`, returns exactly `s` with a nil error and leaves the reader
at `rest`. -/
theorem string_round_trip (s rest : List Byte) (hs : s.length < 2 ^ 32) :
    DecodeString (leBytes 4 s.length ++ s ++ rest) = (.returned s none, rest) := by
  have h2 : s.length ≤ maxAlloc := by unfold maxAlloc; omega
  refine DecodeString_of _ (s ++ rest) rest s.length (some s) ?_ ?_
  · rw [List.append_assoc]
    exact DecodeUint32_leBytes _ hs _
  · exact DecodeUint8Array_exact s rest h2

/-- Witness for C2: the two-byte string `0xFF 0x00` (not valid UTF-8) before
the trailing byte `7`. -/
theorem string_round_trip_witness :
    DecodeString (leBytes 4 2 ++ [0xFF, 0x00] ++ [7]) = (.returned [0xFF, 0x00] none, [7]) :=
  string_round_trip [0xFF, 0x00] [7] (by decide)

/-! ## C3, C4: the size pre-check of the array decoders -/

theorem CheckSize_negative (buf : Reader) (size : Int) (h : size < 0) :
    CheckSize buf size = some (.new "unexpected negative size") := by
  unfold CheckSize
  rw [if_pos h]

theorem CheckSize_short (buf : Reader) (size : Int) (h0 : 0 ≤ size) (h : (buf.length : Int) < size) :
    CheckSize buf size = some (.new "buffer size too small") := by
  unfold CheckSize Reader.Len
  rw [if_neg (by omega), if_pos h]

theorem decodeArray_rejects {α : Type} (what : String) (elemSize : Nat) (zero : α)
    (checked : Int) (body : Reader → Outcome (Option α) × Reader) (buf : Reader) (size : Int)
    (e : Error) (h : CheckSize buf checked = some e) :
    decodeArray what elemSize zero checked body buf size
      = (.returned none (some (.wrap e what)), buf) := by
  simp only [decodeArray, h]

theorem decodeArray_rejected {α : Type} (what : String) (elemSize : Nat) (zero : α)
    (checked : Int) (body : Reader → Outcome (Option α) × Reader) (buf : Reader) (size : Int)
    (h : (CheckSize buf checked).isSome = true) :
    (decodeArray what elemSize zero checked body buf size).1.rejected = true ∧
    (decodeArray what elemSize zero checked body buf size).2 = buf := by
  obtain ⟨e, he⟩ := Option.isSome_iff_exists.mp h
  rw [decodeArray_rejects what elemSize zero checked body buf size e he]
  exact ⟨rfl, rfl⟩

theorem DecodeUint8Array_rejected (buf : Reader) (size : Int)
    (h : (CheckSize buf size).isSome = true) :
    (DecodeUint8Array buf size).1.rejected = true ∧ (DecodeUint8Array buf size).2 = buf := by
  obtain ⟨e, he⟩ := Option.isSome_iff_exists.mp h
  have hd : DecodeUint8Array buf size = (.returned none (some (.wrap e "decoding u8 array")), buf) := by
    simp only [DecodeUint8Array, he]
  rw [hd]
  exact ⟨rfl, rfl⟩

/-- The pre-check fails on a short buffer as long as the product `size * w`
formed for it stays within the 64-bit `int`. -/
theorem CheckSize_wrap_short (buf : Reader) (size w : Int) (h0 : 0 ≤ size * w)
    (hr : size * w < 2 ^ 63) (h : (buf.length : Int) < size * w) :
    (CheckSize buf (wrap64 (size * w))).isSome = true := by
  rw [wrap64_of_range _ (by omega) hr, CheckSize_short buf _ h0 h]
  rfl

/-- The pre-check fails on a negative size as long as the product `size * w`
formed for it stays within the 64-bit `int`. -/
theorem CheckSize_wrap_negative (buf : Reader) (size w : Int) (hneg : size * w < 0)
    (hr : -2 ^ 63 ≤ size * w) :
    (CheckSize buf (wrap64 (size * w))).isSome = true := by
  rw [wrap64_of_range _ hr (by omega), CheckSize_negative buf _ hneg]
  rfl

/-- Short-buffer rejection within the range of `int`: for every size `>= 0`
and every buffer with fewer than `size * w` bytes left, where `size * w` does
not exceed the largest `int`, each of the fourteen width-checked array
decoders returns the nil slice with an error and leaves the buffer untouched.  (For
the one-byte decoders no product is formed and the bound is vacuous.) -/
theorem short_buffer_rejected_in_range (buf : Reader) (size : Int) (h0 : 0 ≤ size) :
    ((buf.length : Int) < size →
      ((DecodeBoolArray buf size).1.rejected = true ∧ (DecodeBoolArray buf size).2 = buf) ∧
      ((DecodeInt8Array buf size).1.rejected = true ∧ (DecodeInt8Array buf size).2 = buf) ∧
      ((DecodeUint8Array buf size).1.rejected = true ∧ (DecodeUint8Array buf size).2 = buf)) ∧
    (size * 2 < 2 ^ 63 → (buf.length : Int) < size * 2 →
      ((DecodeInt16Array buf size).1.rejected = true ∧ (DecodeInt16Array buf size).2 = buf) ∧
      ((DecodeUint16Array buf size).1.rejected = true ∧ (DecodeUint16Array buf size).2 = buf)) ∧
    (size * 4 < 2 ^ 63 → (buf.length : Int) < size * 4 →
      ((DecodeInt32Array buf size).1.rejected = true ∧ (DecodeInt32Array buf size).2 = buf) ∧
      ((DecodeUint32Array buf size).1.rejected = true ∧ (DecodeUint32Array buf size).2 = buf) ∧
      ((DecodeFloat32Array buf size).1.rejected = true ∧
        (DecodeFloat32Array buf size).2 = buf) ∧
      ((DecodeStringArray buf size).1.rejected = true ∧
        (DecodeStringArray buf size).2 = buf)) ∧
    (size * 8 < 2 ^ 63 → (buf.length : Int) < size * 8 →
      ((DecodeInt64Array buf size).1.rejected = true ∧ (DecodeInt64Array buf size).2 = buf) ∧
      ((DecodeUint64Array buf size).1.rejected = true ∧ (DecodeUint64Array buf size).2 = buf) ∧
      ((DecodeFloat64Array buf size).1.rejected = true ∧
        (DecodeFloat64Array buf size).2 = buf) ∧
      ((DecodeTimeArray buf size).1.rejected = true ∧ (DecodeTimeArray buf size).2 = buf) ∧
      ((DecodeDurationArray buf size).1.rejected = true ∧
        (DecodeDurationArray buf size).2 = buf)) := by
  refine ⟨fun h => ?_, fun hr h => ?_, fun hr h => ?_, fun hr h => ?_⟩
  · have hc : (CheckSize buf size).isSome = true := by rw [CheckSize_short buf _ h0 h]; rfl
    exact ⟨decodeArray_rejected _ _ _ _ _ _ _ hc, decodeArray_rejected _ _ _ _ _ _ _ hc,
      DecodeUint8Array_rejected _ _ hc⟩
  · have hc := CheckSize_wrap_short buf size 2 (by omega) hr h
    exact ⟨decodeArray_rejected _ _ _ _ _ _ _ hc, decodeArray_rejected _ _ _ _ _ _ _ hc⟩
  · have hc := CheckSize_wrap_short buf size 4 (by omega) hr h
    exact ⟨decodeArray_rejected _ _ _ _ _ _ _ hc, decodeArray_rejected _ _ _ _ _ _ _ hc,
      decodeArray_rejected _ _ _ _ _ _ _ hc, decodeArray_rejected _ _ _ _ _ _ _ hc⟩
  · have hc := CheckSize_wrap_short buf size 8 (by omega) hr h
    exact ⟨decodeArray_rejected _ _ _ _ _ _ _ hc, decodeArray_rejected _ _ _ _ _ _ _ hc,
      decodeArray_rejected _ _ _ _ _ _ _ hc, decodeArray_rejected _ _ _ _ _ _ _ hc,
      decodeArray_rejected _ _ _ _ _ _ _ hc⟩

/-- Negative-size rejection within the range of `int`: for every buffer and
every size `< 0` whose product `size * w` does not fall below the smallest
`int`, each of the fifteen array decoders returns the nil slice with an error
and leaves the buffer untouched.  (The one-byte decoders and the message-array
decoder form no product.) -/
theorem negative_size_rejected_in_range {T M : Type}
    (deserialize : T → Reader → (M × Option Error) × Reader) (msgType : T)
    (buf : Reader) (size : Int) (hneg : size < 0) :
    (((DecodeBoolArray buf size).1.rejected = true ∧ (DecodeBoolArray buf size).2 = buf) ∧
      ((DecodeInt8Array buf size).1.rejected = true ∧ (DecodeInt8Array buf size).2 = buf) ∧
      ((DecodeUint8Array buf size).1.rejected = true ∧ (DecodeUint8Array buf size).2 = buf) ∧
      ((DecodeMessageArray deserialize buf size msgType).1.rejected = true ∧
        (DecodeMessageArray deserialize buf size msgType).2 = buf)) ∧
    (-2 ^ 63 ≤ size * 2 →
      ((DecodeInt16Array buf size).1.rejected = true ∧ (DecodeInt16Array buf size).2 = buf) ∧
      ((DecodeUint16Array buf size).1.rejected = true ∧ (DecodeUint16Array buf size).2 = buf)) ∧
    (-2 ^ 63 ≤ size * 4 →
      ((DecodeInt32Array buf size).1.rejected = true ∧ (DecodeInt32Array buf size).2 = buf) ∧
      ((DecodeUint32Array buf size).1.rejected = true ∧ (DecodeUint32Array buf size).2 = buf) ∧
      ((DecodeFloat32Array buf size).1.rejected = true ∧
        (DecodeFloat32Array buf size).2 = buf) ∧
      ((DecodeStringArray buf size).1.rejected = true ∧
        (DecodeStringArray buf size).2 = buf)) ∧
    (-2 ^ 63 ≤ size * 8 →
      ((DecodeInt64Array buf size).1.rejected = true ∧ (DecodeInt64Array buf size).2 = buf) ∧
      ((DecodeUint64Array buf size).1.rejected = true ∧ (DecodeUint64Array buf size).2 = buf) ∧
      ((DecodeFloat64Array buf size).1.rejected = true ∧
        (DecodeFloat64Array buf size).2 = buf) ∧
      ((DecodeTimeArray buf size).1.rejected = true ∧ (DecodeTimeArray buf size).2 = buf) ∧
      ((DecodeDurationArray buf size).1.rejected = true ∧
        (DecodeDurationArray buf size).2 = buf)) := by
  refine ⟨?_, fun hr => ?_, fun hr => ?_, fun hr => ?_⟩
  · have hc : (CheckSize buf size).isSome = true := by rw [CheckSize_negative buf _ hneg]; rfl
    exact ⟨decodeArray_rejected _ _ _ _ _ _ _ hc, decodeArray_rejected _ _ _ _ _ _ _ hc,
      DecodeUint8Array_rejected _ _ hc, decodeArray_rejected _ _ _ _ _ _ _ hc⟩
  · have hc := CheckSize_wrap_negative buf size 2 (by omega) hr
    exact ⟨decodeArray_rejected _ _ _ _ _ _ _ hc, decodeArray_rejected _ _ _ _ _ _ _ hc⟩
  · have hc := CheckSize_wrap_negative buf size 4 (by omega) hr
    exact ⟨decodeArray_rejected _ _ _ _ _ _ _ hc, decodeArray_rejected _ _ _ _ _ _ _ hc,
      decodeArray_rejected _ _ _ _ _ _ _ hc, decodeArray_rejected _ _ _ _ _ _ _ hc⟩
  · have hc := CheckSize_wrap_negative buf size 8 (by omega) hr
    exact ⟨decodeArray_rejected _ _ _ _ _ _ _ hc, decodeArray_rejected _ _ _ _ _ _ _ hc,
      decodeArray_rejected _ _ _ _ _ _ _ hc, decodeArray_rejected _ _ _ _ _ _ _ hc,
      decodeArray_rejected _ _ _ _ _ _ _ hc⟩

/-- C3, the defect. Short-buffer rejection says that a decoder given a size
`>= 0` and a buffer with fewer than `size * w` bytes returns an error and a
nil slice.  `DecodeUint32Array` on the empty buffer with `size = 2^62` does
not: `size * 4` wraps to `0`, `CheckSize` passes, and `make([]uint32, 2^62)`
panics. -/
theorem short_buffer_overflow_panics :
    (0 : Int) ≤ 2 ^ 62 ∧ (([] : Reader).length : Int) < 2 ^ 62 * 4 ∧
    wrap64 (2 ^ 62 * 4) = 0 ∧
    DecodeUint32Array [] (2 ^ 62) = (.panicked, []) ∧
    (DecodeUint32Array [] (2 ^ 62)).1.rejected = false := by
  with_unfolding_all decide

/-- C4, the defect. Negative-size rejection says that a decoder given a size
`< 0` returns an error and a nil slice without allocating.
`DecodeInt64Array` on the empty buffer with `size = -2^61` does not:
`size * 8` wraps to `0`, `CheckSize` passes, and `make([]int64, -2^61)`
panics. -/
theorem negative_size_overflow_panics :
    (-2 ^ 61 : Int) < 0 ∧ wrap64 (-2 ^ 61 * 8) = 0 ∧
    DecodeInt64Array [] (-2 ^ 61) = (.panicked, []) ∧
    (DecodeInt64Array [] (-2 ^ 61)).1.rejected = false := by
  with_unfolding_all decide

/-! ## C5 - C8: the transition handler of the simple action client -/

/-- What `runCallback` does with the callback registered under its kind: it
panics on a value that is no function; it returns without calling when the
function declares more parameters than there are arguments; otherwise it calls
the function with the leading arguments when `reflect` lets them through, and
panics without calling when it does not. -/
theorem runCallback_registered (sc : simpleActionClient) (cbType : String) (cb : Callback)
    (args : List Arg)
    (hreg : (cbType = "active" ∧ sc.activeCb = some cb) ∨
      (cbType = "feedback" ∧ sc.feedbackCb = some cb) ∨
      (cbType = "done" ∧ sc.doneCb = some cb)) :
    runCallback sc cbType args =
      if cb.kind = .notFunc then { sc with panicked := true }
      else if cb.numIn > args.length then sc
      else if cb.accepts Arg.fits (args.take cb.numIn) then
        { sc with calls := sc.calls ++ [⟨cbType, cb, args.take cb.numIn⟩] }
      else { sc with panicked := true } := by
  have h1 : ¬ ("feedback" = "active") := by decide
  have h2 : ¬ ("done" = "active") := by decide
  have h3 : ¬ ("done" = "feedback") := by decide
  rcases hreg with ⟨hk, hcb⟩ | ⟨hk, hcb⟩ | ⟨hk, hcb⟩ <;> subst hk
  · simp only [runCallback, if_true, hcb]
  · simp only [runCallback, h1, if_false, if_true, hcb]
  · simp only [runCallback, h2, h3, if_false, if_true, hcb]

theorem runCallback_active_unregistered (sc : simpleActionClient) (args : List Arg)
    (h : sc.activeCb = none) : runCallback sc "active" args = sc := by
  simp only [runCallback, if_true, h]

/-- The handler on an `Active` or `Preempting` notification in state Pending. -/
theorem transitionHandler_activate (sc : simpleActionClient) (gh : ClientGoalHandler)
    (hc : gh.GetCommState = (.Active, none) ∨ gh.GetCommState = (.Preempting, none))
    (hs : sc.simpleState = SimpleStatePending) :
    transitionHandler sc gh = runCallback (setSimpleState sc SimpleStateActive) "active" [] := by
  have hl : "active".length > 0 := by decide
  rcases hc with hc | hc <;>
    simp only [transitionHandler, hc, transitionSwitch, hs, if_true, hl]

theorem runCallback_simpleState (sc : simpleActionClient) (t : String) (args : List Arg) :
    (runCallback sc t args).simpleState = sc.simpleState := by
  unfold runCallback
  simp only []
  split
  · rfl
  · split
    · rfl
    · split
      · rfl
      · split <;> rfl

/-- C5, as amended. For every goal handle whose communication state is Active
or Preempting, when the simple state is Pending, `transitionHandler` sets the
simple state to Active, whether or not an active callback is registered; it
fires the registered active callback exactly once, with no arguments, when
that callback is a non-nil function that declares no parameters; it does not
invoke a registered active callback that declares one or more parameters; and
it panics in `reflect`, invoking nothing, when the registered callback is no
function or is a nil function without parameters. -/
theorem pending_to_active (sc : simpleActionClient) (gh : ClientGoalHandler)
    (hc : gh.GetCommState = (.Active, none) ∨ gh.GetCommState = (.Preempting, none))
    (hs : sc.simpleState = SimpleStatePending) :
    (transitionHandler sc gh).simpleState = SimpleStateActive ∧
    (sc.activeCb = none →
      transitionHandler sc gh = { sc with simpleState := SimpleStateActive }) ∧
    (∀ cb, sc.activeCb = some cb →
      (cb.kind = .func → cb.numIn = 0 →
        transitionHandler sc gh =
          { sc with simpleState := SimpleStateActive,
                    calls := sc.calls ++ [⟨"active", cb, []⟩] }) ∧
      (cb.kind ≠ .notFunc → cb.numIn ≠ 0 →
        transitionHandler sc gh = { sc with simpleState := SimpleStateActive }) ∧
      (cb.kind = .notFunc ∨ (cb.kind = .nilFunc ∧ cb.numIn = 0) →
        transitionHandler sc gh =
          { sc with simpleState := SimpleStateActive, panicked := true })) := by
  have hact := transitionHandler_activate sc gh hc hs
  refine ⟨?_, fun hnone => ?_, fun cb hcb => ⟨fun hk h0 => ?_, fun hk h0 => ?_, fun hk => ?_⟩⟩
  · rw [hact, runCallback_simpleState]
    rfl
  · rw [hact, runCallback_active_unregistered _ _ (by simpa [setSimpleState] using hnone)]
    rfl
  · rw [hact, runCallback_registered _ "active" cb [] (Or.inl ⟨rfl, by simpa [setSimpleState] using hcb⟩)]
    simp [hk, h0, Callback.accepts, setSimpleState]
  · have hpos : cb.numIn > 0 := Nat.pos_of_ne_zero h0
    rw [hact, runCallback_registered _ "active" cb [] (Or.inl ⟨rfl, by simpa [setSimpleState] using hcb⟩)]
    simp [hk, hpos, setSimpleState]
  · rw [hact, runCallback_registered _ "active" cb [] (Or.inl ⟨rfl, by simpa [setSimpleState] using hcb⟩)]
    rcases hk with hk | ⟨hk, h0⟩
    · simp [hk, setSimpleState]
    · simp [hk, h0, Callback.accepts, setSimpleState]

/-- Witness for C5 as amended: a client that sent a goal with a parameterless
active callback receives an `Active` notification. -/
theorem pending_to_active_witness :
    transitionHandler
        (SendGoal newSimpleActionClient none (some ⟨"onActive", .func, []⟩) none
          (⟨(.WaitingForGoalAck, none), (0, none), (some ⟨0⟩, none)⟩, none)).2
        ⟨(.Active, none), (1, none), (some ⟨0⟩, none)⟩ =
      { simpleState := SimpleStateActive,
        gh := some ⟨(.WaitingForGoalAck, none), (0, none), (some ⟨0⟩, none)⟩,
        doneCb := none, activeCb := some ⟨"onActive", .func, []⟩, feedbackCb := none,
        doneChan := 0, calls := [⟨"active", ⟨"onActive", .func, []⟩, []⟩] } :=
  ((pending_to_active _ ⟨(.Active, none), (1, none), (some ⟨0⟩, none)⟩
    (Or.inl rfl) rfl).2.2 ⟨"onActive", .func, []⟩ rfl).1 rfl rfl

/-- C5 as stated fails, for a client in state Pending with an active callback
registered that receives an `Active` notification: (1) a callback declaring
one parameter is not invoked, the client moving to Active; (2) a registered
value that is no function makes `NumIn` panic, and (3) a nil function makes
`Call` panic: the client has moved to Active and nothing is invoked. -/
theorem pending_to_active_unary_callback_not_fired :
    ((SendGoal newSimpleActionClient none (some ⟨"onActive", .func, [.emptyInterface]⟩) none
        (⟨(.WaitingForGoalAck, none), (0, none), (some ⟨0⟩, none)⟩, none)).2.simpleState
      = SimpleStatePending ∧
    (SendGoal newSimpleActionClient none (some ⟨"onActive", .func, [.emptyInterface]⟩) none
        (⟨(.WaitingForGoalAck, none), (0, none), (some ⟨0⟩, none)⟩, none)).2.activeCb
      = some ⟨"onActive", .func, [.emptyInterface]⟩ ∧
    (transitionHandler
        (SendGoal newSimpleActionClient none (some ⟨"onActive", .func, [.emptyInterface]⟩) none
          (⟨(.WaitingForGoalAck, none), (0, none), (some ⟨0⟩, none)⟩, none)).2
        ⟨(.Active, none), (1, none), (some ⟨0⟩, none)⟩).simpleState = SimpleStateActive ∧
    (transitionHandler
        (SendGoal newSimpleActionClient none (some ⟨"onActive", .func, [.emptyInterface]⟩) none
          (⟨(.WaitingForGoalAck, none), (0, none), (some ⟨0⟩, none)⟩, none)).2
        ⟨(.Active, none), (1, none), (some ⟨0⟩, none)⟩).calls = []) ∧
    ((transitionHandler
        (SendGoal newSimpleActionClient none (some ⟨"onActive", .notFunc, []⟩) none
          (⟨(.WaitingForGoalAck, none), (0, none), (some ⟨0⟩, none)⟩, none)).2
        ⟨(.Active, none), (1, none), (some ⟨0⟩, none)⟩).simpleState = SimpleStateActive ∧
    (transitionHandler
        (SendGoal newSimpleActionClient none (some ⟨"onActive", .notFunc, []⟩) none
          (⟨(.WaitingForGoalAck, none), (0, none), (some ⟨0⟩, none)⟩, none)).2
        ⟨(.Active, none), (1, none), (some ⟨0⟩, none)⟩).calls = [] ∧
    (transitionHandler
        (SendGoal newSimpleActionClient none (some ⟨"onActive", .notFunc, []⟩) none
          (⟨(.WaitingForGoalAck, none), (0, none), (some ⟨0⟩, none)⟩, none)).2
        ⟨(.Active, none), (1, none), (some ⟨0⟩, none)⟩).panicked = true) ∧
    ((transitionHandler
        (SendGoal newSimpleActionClient none (some ⟨"onActive", .nilFunc, []⟩) none
          (⟨(.WaitingForGoalAck, none), (0, none), (some ⟨0⟩, none)⟩, none)).2
        ⟨(.Active, none), (1, none), (some ⟨0⟩, none)⟩).calls = [] ∧
    (transitionHandler
        (SendGoal newSimpleActionClient none (some ⟨"onActive", .nilFunc, []⟩) none
          (⟨(.WaitingForGoalAck, none), (0, none), (some ⟨0⟩, none)⟩, none)).2
        ⟨(.Active, none), (1, none), (some ⟨0⟩, none)⟩).panicked = true) := by
  decide

theorem runCallback_doneChan (sc : simpleActionClient) (t : String) (args : List Arg) :
    (runCallback sc t args).doneChan = sc.doneChan := by
  unfold runCallback
  simp only []
  split
  · rfl
  · split
    · rfl
    · split
      · rfl
      · split <;> rfl

/-- The handler on a `Done` notification in state Pending or Active, with a
done callback registered: the state is set and the signal sent first; the
callback is run when status and result are had without error. -/
theorem transitionHandler_finish (sc : simpleActionClient) (gh : ClientGoalHandler)
    (cb : Callback)
    (hc : gh.GetCommState = (.Done, none))
    (hs : sc.simpleState = SimpleStatePending ∨ sc.simpleState = SimpleStateActive)
    (hcb : sc.doneCb = some cb) :
    transitionHandler sc gh =
      match gh.GetGoalStatus, gh.GetResult with
      | (status, none), (result, none) =>
        runCallback (sendDone (setSimpleState sc SimpleStateDone)) "done"
          [.status status, ValueOf result]
      | _, _ => sendDone (setSimpleState sc SimpleStateDone) := by
  have hl : "done".length > 0 := by decide
  have hl0 : ¬ ("".length > 0) := by decide
  have hd : (sendDone (setSimpleState sc SimpleStateDone)).doneCb ≠ none := by
    unfold sendDone setSimpleState
    split <;> simp [hcb]
  rcases hst : gh.GetGoalStatus with ⟨status, e1⟩
  rcases hres : gh.GetResult with ⟨result, e2⟩
  cases e1 with
  | some e =>
    simp only [transitionHandler, hc, transitionSwitch, hs, if_true, hst, if_neg hd, hl0,
      if_false]
  | none =>
    cases e2 with
    | some e =>
      simp only [transitionHandler, hc, transitionSwitch, hs, if_true, hst, hres, if_neg hd,
        hl0, if_false]
    | none =>
      simp only [transitionHandler, hc, transitionSwitch, hs, if_true, hst, hres, if_neg hd,
        hl]

/-- The handler on a `Done` notification in state Pending or Active, with no
done callback registered: the state is set and the signal sent, and that is
all. -/
theorem transitionHandler_finish_unregistered (sc : simpleActionClient)
    (gh : ClientGoalHandler)
    (hc : gh.GetCommState = (.Done, none))
    (hs : sc.simpleState = SimpleStatePending ∨ sc.simpleState = SimpleStateActive)
    (hcb : sc.doneCb = none) :
    transitionHandler sc gh = sendDone (setSimpleState sc SimpleStateDone) := by
  have hl0 : ¬ ("".length > 0) := by decide
  have hd : (sendDone (setSimpleState sc SimpleStateDone)).doneCb = none := by
    unfold sendDone setSimpleState
    split <;> simp [hcb]
  simp only [transitionHandler, hc, transitionSwitch, hs, if_true, hd, hl0, if_false]

theorem sendDone_eq (sc : simpleActionClient) :
    sendDone (setSimpleState sc SimpleStateDone) =
      { sc with simpleState := SimpleStateDone,
                doneChan := if sc.doneChan < doneChanCap then sc.doneChan + 1
                  else sc.doneChan } := by
  unfold sendDone setSimpleState
  by_cases h : sc.doneChan < doneChanCap <;> simp [h]

/-- C6, as amended. For every goal handle whose communication state is Done,
when the simple state is Pending or Active, `transitionHandler` sets the
simple state to Done and pushes one done signal unless the done channel
already holds its 10 signals, in which case it pushes none; it does both
whether or not a done callback is registered and whether or not the goal
handle gives its status and result.  It invokes no callback when no done
callback is registered or the goal handle fails to give its status or its
result.  When a done callback is registered and the goal handle gives both,
with `d` the number of parameters the callback declares: the handler fires
the callback once with the first `d` of the arguments (status, result) when
`d <= 2` and the callback is a non-nil function whose parameters accept those
arguments; it does not invoke it when `d > 2`; and it panics in `reflect`,
invoking nothing, when the callback is no function, or when `d <= 2` and the
callback is a nil function or one of its parameters does not accept its
argument, a nil result included. -/
theorem done_transition (sc : simpleActionClient) (gh : ClientGoalHandler)
    (hc : gh.GetCommState = (.Done, none))
    (hs : sc.simpleState = SimpleStatePending ∨ sc.simpleState = SimpleStateActive) :
    (transitionHandler sc gh).simpleState = SimpleStateDone ∧
    (transitionHandler sc gh).doneChan =
      (if sc.doneChan < doneChanCap then sc.doneChan + 1 else sc.doneChan) ∧
    (sc.doneCb = none ∨ gh.GetGoalStatus.2 ≠ none ∨ gh.GetResult.2 ≠ none →
      transitionHandler sc gh =
        { sc with simpleState := SimpleStateDone,
                  doneChan := if sc.doneChan < doneChanCap then sc.doneChan + 1
                    else sc.doneChan }) ∧
    (∀ cb status result, sc.doneCb = some cb →
      gh.GetGoalStatus = (status, none) → gh.GetResult = (result, none) →
      (cb.numIn ≤ 2 →
        cb.accepts Arg.fits ([Arg.status status, ValueOf result].take cb.numIn) = true →
        transitionHandler sc gh =
          { sc with simpleState := SimpleStateDone,
                    doneChan := if sc.doneChan < doneChanCap then sc.doneChan + 1
                      else sc.doneChan,
                    calls := sc.calls ++
                      [⟨"done", cb, [Arg.status status, ValueOf result].take cb.numIn⟩] }) ∧
      (cb.kind ≠ .notFunc → 2 < cb.numIn →
        transitionHandler sc gh =
          { sc with simpleState := SimpleStateDone,
                    doneChan := if sc.doneChan < doneChanCap then sc.doneChan + 1
                      else sc.doneChan }) ∧
      (cb.kind = .notFunc ∨
          (cb.numIn ≤ 2 ∧
            cb.accepts Arg.fits ([Arg.status status, ValueOf result].take cb.numIn) = false) →
        transitionHandler sc gh =
          { sc with simpleState := SimpleStateDone,
                    doneChan := if sc.doneChan < doneChanCap then sc.doneChan + 1
                      else sc.doneChan,
                    panicked := true })) := by
  have hsd := sendDone_eq sc
  have hstate : (transitionHandler sc gh).simpleState = SimpleStateDone ∧
      (transitionHandler sc gh).doneChan =
        (if sc.doneChan < doneChanCap then sc.doneChan + 1 else sc.doneChan) := by
    by_cases hnone : sc.doneCb = none
    · rw [transitionHandler_finish_unregistered sc gh hc hs hnone, hsd]
      exact ⟨rfl, rfl⟩
    · obtain ⟨cb, hcb⟩ := Option.ne_none_iff_exists'.1 hnone
      rw [transitionHandler_finish sc gh cb hc hs hcb]
      split
      · rw [runCallback_simpleState, runCallback_doneChan, hsd]
        exact ⟨rfl, rfl⟩
      · rw [hsd]
        exact ⟨rfl, rfl⟩
  refine ⟨hstate.1, hstate.2, fun herr => ?_, fun cb status result hcb hst hres => ?_⟩
  · by_cases hnone : sc.doneCb = none
    · rw [transitionHandler_finish_unregistered sc gh hc hs hnone, hsd]
    · obtain ⟨cb, hcb⟩ := Option.ne_none_iff_exists'.1 hnone
      rw [transitionHandler_finish sc gh cb hc hs hcb, ← hsd]
      rcases h1 : gh.GetGoalStatus with ⟨status, e1⟩
      rcases h2 : gh.GetResult with ⟨result, e2⟩
      rw [h1, h2] at herr
      cases e1 with
      | some e => rfl
      | none =>
        cases e2 with
        | some e => rfl
        | none => simp [hnone] at herr
  · have hreg : ("done" = "active" ∧ (sendDone (setSimpleState sc SimpleStateDone)).activeCb
          = some cb) ∨
        ("done" = "feedback" ∧ (sendDone (setSimpleState sc SimpleStateDone)).feedbackCb
          = some cb) ∨
        ("done" = "done" ∧ (sendDone (setSimpleState sc SimpleStateDone)).doneCb = some cb) := by
      refine Or.inr (Or.inr ⟨rfl, ?_⟩)
      rw [hsd]; exact hcb
    have hrun : transitionHandler sc gh =
        runCallback (sendDone (setSimpleState sc SimpleStateDone)) "done"
          [.status status, ValueOf result] := by
      rw [transitionHandler_finish sc gh cb hc hs hcb, hst, hres]
    rw [hrun, runCallback_registered _ "done" cb _ hreg, hsd]
    have hlen : [Arg.status status, ValueOf result].length = 2 := rfl
    refine ⟨fun hle hacc => ?_, fun hk hgt => ?_, fun hbad => ?_⟩
    · have hkind : cb.kind = .func := by
        simp only [Callback.accepts, Bool.and_eq_true, beq_iff_eq] at hacc
        exact hacc.1
      have hnk : ¬ cb.kind = .notFunc := by rw [hkind]; decide
      have hng : ¬ cb.numIn > 2 := by omega
      simp only [hnk, hlen, hng, hacc, if_false, if_true]
    · have hg : cb.numIn > 2 := hgt
      simp only [hk, hlen, hg, if_false, if_true]
    · rcases hbad with hk | ⟨hle, hacc⟩
      · simp only [hk, if_true]
      · by_cases hk : cb.kind = .notFunc
        · simp only [hk, if_true]
        · have hng : ¬ cb.numIn > 2 := by omega
          simp only [hk, hlen, hng, hacc, if_false, Bool.false_eq_true]

/-- Witness for C6 as amended: a client that sent a goal with a two-parameter
done callback receives `Done` with status 3 and result 7. -/
theorem done_transition_witness :
    transitionHandler
        (SendGoal newSimpleActionClient (some ⟨"onDone", .func, [.uint8, .message]⟩) none none
          (⟨(.WaitingForGoalAck, none), (0, none), (some ⟨0⟩, none)⟩, none)).2
        ⟨(.Done, none), (3, none), (some ⟨7⟩, none)⟩ =
      { simpleState := SimpleStateDone,
        gh := some ⟨(.WaitingForGoalAck, none), (0, none), (some ⟨0⟩, none)⟩,
        doneCb := some ⟨"onDone", .func, [.uint8, .message]⟩, activeCb := none,
        feedbackCb := none, doneChan := 1,
        calls := [⟨"done", ⟨"onDone", .func, [.uint8, .message]⟩,
          [.status 3, .message ⟨7⟩]⟩] } :=
  ((done_transition _ ⟨(.Done, none), (3, none), (some ⟨7⟩, none)⟩
    rfl (Or.inl rfl)).2.2.2 ⟨"onDone", .func, [.uint8, .message]⟩ 3 (some ⟨7⟩) rfl rfl rfl).1
    (by decide) (by decide)

/-- C6 as stated fails, in state Pending with a done callback registered and
a `Done` notification: (1) a done callback declaring three parameters is not
invoked; (2) a done callback declaring one parameter receives the status
only; (3) when the goal handle fails to give its result, no callback is
invoked, the state being Done and the signal sent; (4) after ten goals have
completed with nobody waiting, the done channel is full and the eleventh
completion pushes no signal; (5) a done callback whose one parameter is a
`string` makes `Call` panic on the `uint8` status, (6) so does a nil result
passed to a two-parameter callback, (7) a registered value that is no
function makes `NumIn` panic, and (8) a nil function makes `Call` panic: in
these four the callback is not invoked. -/
theorem done_transition_not_as_stated :
    (transitionHandler
        (SendGoal newSimpleActionClient
          (some ⟨"onDone", .func, [.uint8, .message, .emptyInterface]⟩) none none
          (⟨(.WaitingForGoalAck, none), (0, none), (some ⟨0⟩, none)⟩, none)).2
        ⟨(.Done, none), (3, none), (some ⟨7⟩, none)⟩).calls = [] ∧
    (transitionHandler
        (SendGoal newSimpleActionClient (some ⟨"onDone", .func, [.uint8]⟩) none none
          (⟨(.WaitingForGoalAck, none), (0, none), (some ⟨0⟩, none)⟩, none)).2
        ⟨(.Done, none), (3, none), (some ⟨7⟩, none)⟩).calls
      = [⟨"done", ⟨"onDone", .func, [.uint8]⟩, [.status 3]⟩] ∧
    ((transitionHandler
        (SendGoal newSimpleActionClient (some ⟨"onDone", .func, [.uint8, .message]⟩) none none
          (⟨(.WaitingForGoalAck, none), (0, none), (some ⟨0⟩, none)⟩, none)).2
        ⟨(.Done, none), (3, none), (none, some (.new "no result"))⟩).calls = [] ∧
      (transitionHandler
        (SendGoal newSimpleActionClient (some ⟨"onDone", .func, [.uint8, .message]⟩) none none
          (⟨(.WaitingForGoalAck, none), (0, none), (some ⟨0⟩, none)⟩, none)).2
        ⟨(.Done, none), (3, none), (none, some (.new "no result"))⟩).simpleState
        = SimpleStateDone ∧
      (transitionHandler
        (SendGoal newSimpleActionClient (some ⟨"onDone", .func, [.uint8, .message]⟩) none none
          (⟨(.WaitingForGoalAck, none), (0, none), (some ⟨0⟩, none)⟩, none)).2
        ⟨(.Done, none), (3, none), (none, some (.new "no result"))⟩).doneChan = 1) ∧
    (((List.range 10).foldl
        (fun sc _ =>
          transitionHandler
            (SendGoal sc (some ⟨"onDone", .func, [.uint8, .message]⟩) none none
              (⟨(.WaitingForGoalAck, none), (0, none), (some ⟨0⟩, none)⟩, none)).2
            ⟨(.Done, none), (3, none), (some ⟨7⟩, none)⟩)
        newSimpleActionClient).doneChan = 10 ∧
      ((List.range 11).foldl
        (fun sc _ =>
          transitionHandler
            (SendGoal sc (some ⟨"onDone", .func, [.uint8, .message]⟩) none none
              (⟨(.WaitingForGoalAck, none), (0, none), (some ⟨0⟩, none)⟩, none)).2
            ⟨(.Done, none), (3, none), (some ⟨7⟩, none)⟩)
        newSimpleActionClient).doneChan = 10) ∧
    ((transitionHandler
        (SendGoal newSimpleActionClient (some ⟨"onDone", .func, [.other "string"]⟩) none none
          (⟨(.WaitingForGoalAck, none), (0, none), (some ⟨0⟩, none)⟩, none)).2
        ⟨(.Done, none), (3, none), (some ⟨7⟩, none)⟩).calls = [] ∧
      (transitionHandler
        (SendGoal newSimpleActionClient (some ⟨"onDone", .func, [.other "string"]⟩) none none
          (⟨(.WaitingForGoalAck, none), (0, none), (some ⟨0⟩, none)⟩, none)).2
        ⟨(.Done, none), (3, none), (some ⟨7⟩, none)⟩).panicked = true) ∧
    ((transitionHandler
        (SendGoal newSimpleActionClient (some ⟨"onDone", .func, [.uint8, .message]⟩) none none
          (⟨(.WaitingForGoalAck, none), (0, none), (some ⟨0⟩, none)⟩, none)).2
        ⟨(.Done, none), (3, none), (none, none)⟩).calls = [] ∧
      (transitionHandler
        (SendGoal newSimpleActionClient (some ⟨"onDone", .func, [.uint8, .message]⟩) none none
          (⟨(.WaitingForGoalAck, none), (0, none), (some ⟨0⟩, none)⟩, none)).2
        ⟨(.Done, none), (3, none), (none, none)⟩).panicked = true) ∧
    ((transitionHandler
        (SendGoal newSimpleActionClient (some ⟨"onDone", .notFunc, []⟩) none none
          (⟨(.WaitingForGoalAck, none), (0, none), (some ⟨0⟩, none)⟩, none)).2
        ⟨(.Done, none), (3, none), (some ⟨7⟩, none)⟩).calls = [] ∧
      (transitionHandler
        (SendGoal newSimpleActionClient (some ⟨"onDone", .notFunc, []⟩) none none
          (⟨(.WaitingForGoalAck, none), (0, none), (some ⟨0⟩, none)⟩, none)).2
        ⟨(.Done, none), (3, none), (some ⟨7⟩, none)⟩).panicked = true) ∧
    ((transitionHandler
        (SendGoal newSimpleActionClient (some ⟨"onDone", .nilFunc, [.uint8, .message]⟩) none
          none (⟨(.WaitingForGoalAck, none), (0, none), (some ⟨0⟩, none)⟩, none)).2
        ⟨(.Done, none), (3, none), (some ⟨7⟩, none)⟩).calls = [] ∧
      (transitionHandler
        (SendGoal newSimpleActionClient (some ⟨"onDone", .nilFunc, [.uint8, .message]⟩) none
          none (⟨(.WaitingForGoalAck, none), (0, none), (some ⟨0⟩, none)⟩, none)).2
        ⟨(.Done, none), (3, none), (some ⟨7⟩, none)⟩).panicked = true) := by
  decide

/-- C7. Illegal or irrelevant transitions are ignored: for every pair
(communication state, simple state) other than (Active, Pending),
(Preempting, Pending), (Done, Pending) and (Done, Active),
`transitionHandler` leaves the client as it was: the simple state is
unchanged, no done signal is pushed and no callback is fired. -/
theorem illegal_transition_ignored (sc : simpleActionClient) (gh : ClientGoalHandler)
    (cs : CommState) (hc : gh.GetCommState = (cs, none))
    (h : (cs, sc.simpleState) ∉
      [(CommState.Active, SimpleStatePending), (CommState.Preempting, SimpleStatePending),
       (CommState.Done, SimpleStatePending), (CommState.Done, SimpleStateActive)]) :
    transitionHandler sc gh = sc := by
  simp only [List.mem_cons, Prod.mk.injEq, List.mem_singleton, not_or, not_and,
    List.mem_nil_iff, or_false] at h
  obtain ⟨h1, h2, h3, h4⟩ := h
  have hl : ¬ ("".length > 0) := by decide
  cases cs <;> simp only [transitionHandler, hc, transitionSwitch, hl, if_false]
  · have : ¬ sc.simpleState = SimpleStatePending := h1 rfl
    simp [this]
  · have : ¬ sc.simpleState = SimpleStatePending := h2 rfl
    simp [this]
  · have : ¬ (sc.simpleState = SimpleStatePending ∨ sc.simpleState = SimpleStateActive) := by
      rintro (h | h)
      · exact h3 rfl h
      · exact h4 rfl h
    simp [this]

/-- Witness for C7: an `Active` notification in state Active changes nothing. -/
theorem illegal_transition_ignored_witness :
    transitionHandler
        { newSimpleActionClient with simpleState := SimpleStateActive,
                                     activeCb := some ⟨"onActive", .func, []⟩ }
        ⟨(.Active, none), (1, none), (some ⟨0⟩, none)⟩ =
      { newSimpleActionClient with simpleState := SimpleStateActive,
                                   activeCb := some ⟨"onActive", .func, []⟩ } :=
  illegal_transition_ignored _ ⟨(.Active, none), (1, none), (some ⟨0⟩, none)⟩ .Active rfl
    (by decide)

theorem runCallback_calls (sc : simpleActionClient) (t : String) (args : List Arg) :
    (runCallback sc t args).calls = sc.calls ∨
    ∃ fn a, (runCallback sc t args).calls = sc.calls ++ [⟨t, fn, a⟩] := by
  unfold runCallback
  simp only []
  split
  · exact Or.inl rfl
  · split
    · exact Or.inl rfl
    · split
      · exact Or.inl rfl
      · split
        · exact Or.inr ⟨_, _, rfl⟩
        · exact Or.inl rfl

/-- What the `switch` can leave behind: no callback and the old state, or no
callback and the move to Done, or the `active` callback with the move from
Pending to Active, or the `done` callback with the move to Done. -/
theorem transitionSwitch_cases (sc : simpleActionClient) (gh : ClientGoalHandler)
    (cs : CommState) :
    (transitionSwitch sc gh cs).1.calls = sc.calls ∧
    (((transitionSwitch sc gh cs).2.1 = "" ∧
        ((transitionSwitch sc gh cs).1.simpleState = sc.simpleState ∨
          ((sc.simpleState = SimpleStatePending ∨ sc.simpleState = SimpleStateActive) ∧
            (transitionSwitch sc gh cs).1.simpleState = SimpleStateDone))) ∨
      ((transitionSwitch sc gh cs).2.1 = "active" ∧ sc.simpleState = SimpleStatePending ∧
        (transitionSwitch sc gh cs).1.simpleState = SimpleStateActive) ∨
      ((transitionSwitch sc gh cs).2.1 = "done" ∧
        (sc.simpleState = SimpleStatePending ∨ sc.simpleState = SimpleStateActive) ∧
        (transitionSwitch sc gh cs).1.simpleState = SimpleStateDone)) := by
  have hsd : ∀ c : simpleActionClient, (sendDone c).calls = c.calls ∧
      (sendDone c).simpleState = c.simpleState := by
    intro c; unfold sendDone; split <;> exact ⟨rfl, rfl⟩
  cases cs <;> simp only [transitionSwitch]
  case Active | Preempting =>
    split
    · rename_i h; exact ⟨rfl, Or.inr (Or.inl ⟨rfl, h, rfl⟩)⟩
    · exact ⟨rfl, Or.inl ⟨rfl, Or.inl rfl⟩⟩
  case Done =>
    split
    · rename_i h
      have h1 := (hsd (setSimpleState sc SimpleStateDone)).1
      have h2 := (hsd (setSimpleState sc SimpleStateDone)).2
      have h1' : (sendDone (setSimpleState sc SimpleStateDone)).calls = sc.calls := h1
      have h2' : (sendDone (setSimpleState sc SimpleStateDone)).simpleState = SimpleStateDone :=
        h2
      split
      · exact ⟨h1', Or.inl ⟨rfl, Or.inr ⟨h, h2'⟩⟩⟩
      · split
        · exact ⟨h1', Or.inl ⟨rfl, Or.inr ⟨h, h2'⟩⟩⟩
        · split
          · exact ⟨h1', Or.inl ⟨rfl, Or.inr ⟨h, h2'⟩⟩⟩
          · exact ⟨h1', Or.inr (Or.inr ⟨rfl, h, h2'⟩)⟩
    · exact ⟨rfl, Or.inl ⟨rfl, Or.inl rfl⟩⟩
  all_goals simp

/-- One notification: the client is left alone, or moves from Pending to
Active firing at most the `active` callback, or moves from Pending or Active
to Done firing at most the `done` callback. -/
theorem transitionHandler_cases (sc : simpleActionClient) (gh : ClientGoalHandler) :
    ((transitionHandler sc gh).simpleState = sc.simpleState ∧
      (transitionHandler sc gh).calls = sc.calls) ∨
    (sc.simpleState = SimpleStatePending ∧
      (transitionHandler sc gh).simpleState = SimpleStateActive ∧
      ((transitionHandler sc gh).calls = sc.calls ∨
        ∃ fn a, (transitionHandler sc gh).calls = sc.calls ++ [⟨"active", fn, a⟩])) ∨
    ((sc.simpleState = SimpleStatePending ∨ sc.simpleState = SimpleStateActive) ∧
      (transitionHandler sc gh).simpleState = SimpleStateDone ∧
      ((transitionHandler sc gh).calls = sc.calls ∨
        ∃ fn a, (transitionHandler sc gh).calls = sc.calls ++ [⟨"done", fn, a⟩])) := by
  unfold transitionHandler
  split
  · exact Or.inl ⟨rfl, rfl⟩
  · rename_i cs _
    obtain ⟨hcalls, hsw⟩ := transitionSwitch_cases sc gh cs
    generalize transitionSwitch sc gh cs = r at hcalls hsw
    obtain ⟨sc1, t, args⟩ := r
    simp only [] at hcalls hsw ⊢
    have hne : ¬ ("".length > 0) := by decide
    rcases hsw with ⟨ht, hst⟩ | ⟨ht, hp, hst⟩ | ⟨ht, hp, hst⟩
    · subst ht
      rw [if_neg hne]
      rcases hst with hst | ⟨hp, hst⟩
      · exact Or.inl ⟨hst, hcalls⟩
      · exact Or.inr (Or.inr ⟨hp, hst, Or.inl hcalls⟩)
    · subst ht
      rw [if_pos (by decide)]
      refine Or.inr (Or.inl ⟨hp, by rw [runCallback_simpleState]; exact hst, ?_⟩)
      rcases runCallback_calls sc1 "active" args with h | ⟨fn, a, h⟩
      · exact Or.inl (h.trans hcalls)
      · exact Or.inr ⟨fn, a, by rw [h, hcalls]⟩
    · subst ht
      rw [if_pos (by decide)]
      refine Or.inr (Or.inr ⟨hp, by rw [runCallback_simpleState]; exact hst, ?_⟩)
      rcases runCallback_calls sc1 "done" args with h | ⟨fn, a, h⟩
      · exact Or.inl (h.trans hcalls)
      · exact Or.inr ⟨fn, a, by rw [h, hcalls]⟩

theorem traceOk_step (base fired : List Call) (sc : simpleActionClient)
    (gh : ClientGoalHandler) (hcalls : sc.calls = base ++ fired)
    (hok : traceOk sc.simpleState (fired.map Call.cbType)) :
    ∃ fired1, (transitionHandler sc gh).calls = base ++ fired1 ∧
      traceOk (transitionHandler sc gh).simpleState (fired1.map Call.cbType) := by
  have hPA : SimpleStatePending ≠ SimpleStateActive := by decide
  have hPD : SimpleStatePending ≠ SimpleStateDone := by decide
  have hAD : SimpleStateActive ≠ SimpleStateDone := by decide
  rcases transitionHandler_cases sc gh with ⟨hs, hc⟩ | ⟨hp, hs, hc⟩ | ⟨hp, hs, hc⟩
  · exact ⟨fired, by rw [hc, hcalls], by rw [hs]; exact hok⟩
  · have hk : fired.map Call.cbType = [] := by
      rcases hok with ⟨_, h⟩ | ⟨h, _⟩ | ⟨h, _⟩
      · exact h
      · exact absurd (hp.symm.trans h) hPA
      · exact absurd (hp.symm.trans h) hPD
    rcases hc with hc | ⟨fn, a, hc⟩
    · exact ⟨fired, by rw [hc, hcalls], by rw [hs]; exact Or.inr (Or.inl ⟨rfl, Or.inl hk⟩)⟩
    · refine ⟨fired ++ [⟨"active", fn, a⟩], by rw [hc, hcalls, List.append_assoc], ?_⟩
      rw [hs, List.map_append, hk]
      exact Or.inr (Or.inl ⟨rfl, Or.inr rfl⟩)
  · have hk : fired.map Call.cbType = [] ∨ fired.map Call.cbType = ["active"] := by
      rcases hok with ⟨_, h⟩ | ⟨_, h⟩ | ⟨h, _⟩
      · exact Or.inl h
      · exact h
      · rcases hp with hp | hp
        · exact absurd (hp.symm.trans h) hPD
        · exact absurd (hp.symm.trans h) hAD
    rcases hc with hc | ⟨fn, a, hc⟩
    · refine ⟨fired, by rw [hc, hcalls], ?_⟩
      rw [hs]
      rcases hk with hk | hk
      · exact Or.inr (Or.inr ⟨rfl, Or.inl hk⟩)
      · exact Or.inr (Or.inr ⟨rfl, Or.inr (Or.inl hk)⟩)
    · refine ⟨fired ++ [⟨"done", fn, a⟩], by rw [hc, hcalls, List.append_assoc], ?_⟩
      rw [hs, List.map_append]
      rcases hk with hk | hk
      · rw [hk]; exact Or.inr (Or.inr ⟨rfl, Or.inr (Or.inr (Or.inl rfl))⟩)
      · rw [hk]; exact Or.inr (Or.inr ⟨rfl, Or.inr (Or.inr (Or.inr rfl))⟩)

theorem traceOk_foldl (base : List Call) (ghs : List ClientGoalHandler) :
    ∀ (sc : simpleActionClient) (fired : List Call), sc.calls = base ++ fired →
      traceOk sc.simpleState (fired.map Call.cbType) →
      ∃ fired1, (ghs.foldl transitionHandler sc).calls = base ++ fired1 ∧
        traceOk (ghs.foldl transitionHandler sc).simpleState (fired1.map Call.cbType) := by
  induction ghs with
  | nil => intro sc fired hc hok; exact ⟨fired, hc, hok⟩
  | cons gh ghs ih =>
    intro sc fired hc hok
    obtain ⟨fired1, hc1, hok1⟩ := traceOk_step base fired sc gh hc hok
    exact ih (transitionHandler sc gh) fired1 hc1 hok1

/-- C8. Callback trace of one goal: after a single `SendGoal` (from any
client state, with any callbacks, whether or not the wrapped client accepted
the goal), for every finite sequence of notifications delivered to
`transitionHandler`, the callbacks fired since that `SendGoal` are, by kind,
one of `[]`, `[active]`, `[done]`, `[active, done]`: each fires at most once
and `active` never fires after `done`. -/
theorem callback_trace_of_one_goal (sc0 : simpleActionClient)
    (doneCb activeCb feedbackCb : Option Callback)
    (acSendGoal : ClientGoalHandler × Option Error) (ghs : List ClientGoalHandler) :
    ∃ fired,
      (ghs.foldl transitionHandler
        (SendGoal sc0 doneCb activeCb feedbackCb acSendGoal).2).calls = sc0.calls ++ fired ∧
      fired.map Call.cbType ∈ [[], ["active"], ["done"], ["active", "done"]] := by
  have hinit : (SendGoal sc0 doneCb activeCb feedbackCb acSendGoal).2.calls = sc0.calls ++ [] ∧
      (SendGoal sc0 doneCb activeCb feedbackCb acSendGoal).2.simpleState
        = SimpleStatePending := by
    unfold SendGoal
    obtain ⟨gh, err⟩ := acSendGoal
    cases err <;> simp [setSimpleState, StopTrackingGoal]
  obtain ⟨fired, hc, hok⟩ := traceOk_foldl sc0.calls ghs _ [] hinit.1
    (by rw [hinit.2]; exact Or.inl ⟨rfl, rfl⟩)
  refine ⟨fired, hc, ?_⟩
  rcases hok with ⟨_, h⟩ | ⟨_, h | h⟩ | ⟨_, h | h | h | h⟩ <;> rw [h] <;> decide

/-! ## C9: the result convention of `callRosAPI` -/

/-- The function `callRosAPI` on a call that returned `(result, err)`. -/
theorem callRosAPI_cases (result : XmlValue) (err : Option Error) :
    ((callRosAPI (fun _ _ _ => (result, err)) "" "" []).2 = none ↔
      err = none ∧ ∃ message value,
        result = .array [.int32 APIStatusSuccess, .string message, value]) ∧
    (∀ message value, err = none →
      result = .array [.int32 APIStatusSuccess, .string message, value] →
      callRosAPI (fun _ _ _ => (result, err)) "" "" [] = (value, none)) ∧
    ((callRosAPI (fun _ _ _ => (result, err)) "" "" []).2 ≠ none →
      (callRosAPI (fun _ _ _ => (result, err)) "" "" []).1 = .nil) := by
  cases err with
  | some e => simp [callRosAPI]
  | none =>
    cases result with
    | array xs =>
      rcases xs with _ | ⟨a, _ | ⟨b, _ | ⟨c, _ | ⟨d, rest⟩⟩⟩⟩
      · simp [callRosAPI]
      · simp [callRosAPI]
      · simp [callRosAPI]
      · cases a <;> try simp [callRosAPI]
        rename_i code
        cases b <;> try simp [callRosAPI]
        rename_i message
        by_cases hcode : code = APIStatusSuccess
        · simp [hcode]
        · simp [hcode]
      · simp [callRosAPI]
    | _ => simp [callRosAPI]

theorem callRosAPI_congr (client : XMLClient) (calleeURI method : String)
    (args : List XmlValue) :
    callRosAPI client calleeURI method args =
      callRosAPI (fun _ _ _ => client calleeURI method args) "" "" [] := rfl

/-- C9. `callRosAPI` returns `(value, nil error)` exactly when the underlying
XML-RPC call succeeds and its result is a sequence of exactly 3 elements whose
first element is a 32-bit integer equal to the success code 1 and whose second
element is a string; the value returned is then the third element unchanged.
In every other case it returns the nil value together with an error. -/
theorem callRosAPI_result (client : XMLClient) (calleeURI method : String)
    (args : List XmlValue) :
    ((callRosAPI client calleeURI method args).2 = none ↔
      ∃ message value, client calleeURI method args =
        (.array [.int32 1, .string message, value], none)) ∧
    (∀ message value,
      client calleeURI method args = (.array [.int32 1, .string message, value], none) →
      callRosAPI client calleeURI method args = (value, none)) ∧
    ((callRosAPI client calleeURI method args).2 ≠ none →
      (callRosAPI client calleeURI method args).1 = .nil) := by
  rw [callRosAPI_congr]
  obtain ⟨h1, h2, h3⟩ := callRosAPI_cases (client calleeURI method args).1
    (client calleeURI method args).2
  refine ⟨?_, ?_, h3⟩
  · rw [h1]
    constructor
    · rintro ⟨he, message, value, hr⟩
      exact ⟨message, value, Prod.ext hr he⟩
    · rintro ⟨message, value, h⟩
      exact ⟨by rw [h], message, value, by rw [h]; rfl⟩
  · intro message value h
    exact h2 message value (by rw [h]) (by rw [h]; rfl)

/-- Witness for C9: a master answering `[1, "ok", "http://host:1/"]` to
`getUri` yields that URI and the nil error. -/
theorem callRosAPI_result_witness :
    callRosAPI (fun _ _ _ => (.array [.int32 1, .string "ok", .string "http://host:1/"], none))
        "http://master:11311" "getUri" [.string "/talker"]
      = (.string "http://host:1/", none) :=
  (callRosAPI_result
    (fun _ _ _ => (.array [.int32 1, .string "ok", .string "http://host:1/"], none))
    "http://master:11311" "getUri" [.string "/talker"]).2.1 "ok" (.string "http://host:1/") rfl

/-! ## C10: the format of goal IDs -/

theorem generatorAfter_nodeName (nodeName : String) (clock : Nat → Time) (k : Nat) :
    (generatorAfter nodeName clock k).nodeName = nodeName := by
  induction k with
  | zero => rfl
  | succ k ih => simpa [generatorAfter, generateID] using ih

/-- Before the counter can wrap, it equals the number of calls made. -/
theorem generatorAfter_goals (nodeName : String) (clock : Nat → Time) (k : Nat)
    (hk : k < 2 ^ 63) : (generatorAfter nodeName clock k).goals = (k : Int) := by
  induction k with
  | zero => rfl
  | succ k ih =>
    have ih1 := ih (by omega)
    simp only [generatorAfter, generateID, ih1]
    rw [wrap64_of_range _ (by omega) (by omega)]
    push_cast
    rfl

theorem nthID_eq (nodeName : String) (clock : Nat → Time) (n : Nat) :
    nthID nodeName clock n =
      nodeName ++ "-" ++ toString (wrap64 ((generatorAfter nodeName clock (n - 1)).goals + 1))
        ++ "-" ++ toString (clock n).Sec ++ "-" ++ toString (clock n).NSec := by
  simp only [nthID, generateID, generatorAfter_nodeName]

/-- C10, as amended. Goal-ID format: for every node name and every clock
reading (sec, nsec), the n-th call of `generateID` counting from the
generator's creation, for `1 <= n < 2^63` (that is, until the `int` counter
overflows), returns exactly the string
`nodeName + "-" + decimal(n) + "-" + decimal(sec) + "-" + decimal(nsec)`. -/
theorem goal_id_format (nodeName : String) (clock : Nat → Time) (n : Nat)
    (h1 : 1 ≤ n) (h2 : n < 2 ^ 63) :
    nthID nodeName clock n =
      nodeName ++ "-" ++ toString n ++ "-" ++ toString (clock n).Sec ++ "-"
        ++ toString (clock n).NSec := by
  rw [nthID_eq, generatorAfter_goals nodeName clock (n - 1) (by omega),
    wrap64_of_range _ (by omega) (by omega)]
  have hn : ((n - 1 : Nat) : Int) + 1 = ((n : Nat) : Int) := by omega
  rw [hn]
  rfl

/-- Witness for C10 as amended: the third ID of node `/talker` at second 1000,
nanosecond 0. -/
theorem goal_id_format_witness :
    nthID "/talker" (fun _ => ⟨1000, 0⟩) 3 = "/talker-3-1000-0" :=
  goal_id_format "/talker" (fun _ => ⟨1000, 0⟩) 3 (by decide) (by decide)

/-- C10 as stated fails at `n = 2^63`: after `2^63 - 1` calls the counter holds
the largest `int`, the next increment wraps it to `-2^63`, and the ID returned
for node `/talker` at second 1000, nanosecond 0 is
`/talker--9223372036854775808-1000-0`, not `/talker-9223372036854775808-1000-0`. -/
theorem goal_id_format_fails_at_overflow :
    nthID "/talker" (fun _ => ⟨1000, 0⟩) (2 ^ 63) = "/talker--9223372036854775808-1000-0" ∧
    nthID "/talker" (fun _ => ⟨1000, 0⟩) (2 ^ 63) ≠
      "/talker" ++ "-" ++ toString (2 ^ 63 : Nat) ++ "-" ++ toString (1000 : Nat) ++ "-"
        ++ toString (0 : Nat) := by
  have h : nthID "/talker" (fun _ => ⟨1000, 0⟩) (2 ^ 63)
      = "/talker--9223372036854775808-1000-0" := by
    rw [nthID_eq, generatorAfter_goals "/talker" _ (2 ^ 63 - 1) (by omega)]
    with_unfolding_all decide
  refine ⟨h, ?_⟩
  rw [h]
  with_unfolding_all decide

/-! ## C12: the wire layout of Time and Duration -/

/-- What `DecodeUint32` does on any buffer: with four bytes or more it reads
the first four, with fewer it fails; either way the bytes read are consumed. -/
theorem DecodeUint32_eq (buf : Reader) :
    DecodeUint32 buf =
      if 4 ≤ buf.length then ((LittleEndian.Uint32 (buf.take 4), none), buf.drop 4)
      else ((0, some (.new "Could not read 4 bytes from buffer")), buf.drop 4) := by
  unfold DecodeUint32 Reader.Read
  by_cases h0 : buf.length = 0
  · have hnil : buf = [] := List.length_eq_zero.mp h0
    subst hnil
    simp
  · by_cases h4 : 4 ≤ buf.length
    · have hmin : min 4 buf.length = 4 := Nat.min_eq_left h4
      simp [h0, h4, hmin]
    · have hmin : min 4 buf.length = buf.length := Nat.min_eq_right (by omega)
      have hne : ¬ buf.length = 4 := by omega
      simp [h0, h4, hmin, hne]

theorem DecodeTime_of_ok (buf buf1 buf2 : Reader) (sec nsec : Nat)
    (h1 : DecodeUint32 buf = ((sec, none), buf1))
    (h2 : DecodeUint32 buf1 = ((nsec, none), buf2)) :
    DecodeTime buf = ((⟨sec, nsec⟩, none), buf2) ∧
    DecodeDuration buf = ((⟨sec, nsec⟩, none), buf2) := by
  simp only [DecodeTime, DecodeDuration, h1, h2, and_self]

theorem DecodeTime_of_short (buf : Reader) (h : buf.length < 8) :
    ((DecodeTime buf).1.1 = ⟨0, 0⟩ ∧ (DecodeTime buf).1.2 ≠ none) ∧
    ((DecodeDuration buf).1.1 = ⟨0, 0⟩ ∧ (DecodeDuration buf).1.2 ≠ none) := by
  by_cases h4 : 4 ≤ buf.length
  · have h1 := DecodeUint32_eq buf
    rw [if_pos h4] at h1
    have h2 := DecodeUint32_eq (buf.drop 4)
    rw [if_neg (by rw [List.length_drop]; omega)] at h2
    simp only [DecodeTime, DecodeDuration, h1, h2]
    simp
  · have h1 := DecodeUint32_eq buf
    rw [if_neg h4] at h1
    simp only [DecodeTime, DecodeDuration, h1]
    simp

/-- C12. Time and Duration wire layout: for every pair of u32 values
(sec, nsec) and every trailing byte sequence `rest`, `DecodeTime`, and
likewise `DecodeDuration`, applied to the 4 little-endian bytes of sec, then
the 4 little-endian bytes of nsec, then `rest`, returns the value with
`Sec = sec` and `NSec = nsec` with a nil error and leaves the reader at `rest`;
with fewer than 8 remaining bytes each returns an error and the zero value. -/
theorem time_duration_layout (rest : Reader) :
    (∀ sec nsec : Nat, sec < 2 ^ 32 → nsec < 2 ^ 32 →
      DecodeTime (leBytes 4 sec ++ leBytes 4 nsec ++ rest) = ((⟨sec, nsec⟩, none), rest) ∧
      DecodeDuration (leBytes 4 sec ++ leBytes 4 nsec ++ rest)
        = ((⟨sec, nsec⟩, none), rest)) ∧
    (∀ buf : Reader, buf.length < 8 →
      ((DecodeTime buf).1.1 = ⟨0, 0⟩ ∧ (DecodeTime buf).1.2 ≠ none) ∧
      ((DecodeDuration buf).1.1 = ⟨0, 0⟩ ∧ (DecodeDuration buf).1.2 ≠ none)) := by
  refine ⟨fun sec nsec hs hn => ?_, fun buf h => DecodeTime_of_short buf h⟩
  refine DecodeTime_of_ok _ (leBytes 4 nsec ++ rest) rest sec nsec ?_ ?_
  · rw [List.append_assoc]
    exact DecodeUint32_leBytes sec hs _
  · exact DecodeUint32_leBytes nsec hn rest

/-- Witness for C12: second 1000, nanosecond 5 before the byte `9`, and a
seven-byte buffer. -/
theorem time_duration_layout_witness :
    (DecodeTime (leBytes 4 1000 ++ leBytes 4 5 ++ [9]) = ((⟨1000, 5⟩, none), [9]) ∧
      DecodeDuration (leBytes 4 1000 ++ leBytes 4 5 ++ [9]) = ((⟨1000, 5⟩, none), [9])) ∧
    (((DecodeTime [1, 2, 3, 4, 5, 6, 7]).1.1 = ⟨0, 0⟩ ∧
        (DecodeTime [1, 2, 3, 4, 5, 6, 7]).1.2 ≠ none) ∧
      ((DecodeDuration [1, 2, 3, 4, 5, 6, 7]).1.1 = ⟨0, 0⟩ ∧
        (DecodeDuration [1, 2, 3, 4, 5, 6, 7]).1.2 ≠ none)) :=
  ⟨(time_duration_layout [9]).1 1000 5 (by decide) (by decide),
   (time_duration_layout [9]).2 [1, 2, 3, 4, 5, 6, 7] (by decide)⟩

/-! ## C13: float decoding is a bit reinterpretation -/

theorem set_take_succ {α : Type} (slice : List α) (i : Nat) (v : α) (h : i < slice.length) :
    (slice.set i v).take (i + 1) = slice.take i ++ [v] := by
  rw [List.set_eq_take_cons_drop v h]
  have hl : (List.take i slice).length = i := by
    rw [List.length_take]; omega
  rw [List.take_append_eq_append_take, hl]
  simp [List.take_take]

theorem flatten_length_of_width (w : Nat) (chunks : List (List Byte))
    (hch : ∀ c ∈ chunks, c.length = w) : chunks.flatten.length = chunks.length * w := by
  induction chunks with
  | nil => simp
  | cons c cs ih =>
    have hc : c.length = w := hch c (List.mem_cons_self _ _)
    have ih1 := ih (fun c1 h1 => hch c1 (List.mem_cons_of_mem _ h1))
    rw [List.flatten_cons, List.length_append, ih1, hc, List.length_cons]
    ring

/-- The element loop of a fixed-width decoder on a buffer that starts with
`chunks`, each `w` bytes wide: every chunk is converted and stored in turn,
from index `i` on, and the reader is left after the last chunk. -/
theorem decodeLoop_readElem {α : Type} (w : Nat) (msg : String) (conv : List Byte → α)
    (hw : w ≠ 0) (rest : Reader) (chunks : List (List Byte))
    (hch : ∀ c ∈ chunks, c.length = w) :
    ∀ (i : Nat) (slice : List α), i + chunks.length ≤ slice.length →
      decodeLoop (readElem w msg conv) chunks.length i slice (chunks.flatten ++ rest)
        = (.returned (slice.take i ++ chunks.map conv ++ slice.drop (i + chunks.length)) none,
            rest) := by
  induction chunks with
  | nil =>
    intro i slice _
    simp [decodeLoop]
  | cons c cs ih =>
    intro i slice hlen
    have hc : c.length = w := hch c (List.mem_cons_self _ _)
    have hcne : c ≠ [] := by
      intro h; rw [h] at hc; exact hw hc.symm
    have hread : Reader.Read (c ++ (cs.flatten ++ rest)) w = ⟨c, false, cs.flatten ++ rest⟩ := by
      have := Read_append c (cs.flatten ++ rest) hcne
      rwa [hc] at this
    have hbody : readElem w msg conv (c ++ (cs.flatten ++ rest))
        = (.returned (some (conv c)) none, cs.flatten ++ rest) := by
      simp [readElem, hread, hc]
    have hi : i < slice.length := by
      simp only [List.length_cons] at hlen; omega
    have ih1 := ih (fun c1 h1 => hch c1 (List.mem_cons_of_mem _ h1)) (i + 1) (slice.set i (conv c))
      (by rw [List.length_set]; simp only [List.length_cons] at hlen; omega)
    rw [List.flatten_cons, List.append_assoc, List.length_cons]
    simp only [decodeLoop, hbody]
    rw [ih1, set_take_succ slice i (conv c) hi,
      List.drop_set_of_lt (conv c) slice (by omega : i < i + 1 + cs.length)]
    have harith : i + 1 + cs.length = i + (cs.length + 1) := by omega
    rw [harith]
    simp

theorem decodeArray_of_ok {α : Type} (what : String) (elemSize : Nat) (zero : α)
    (checked : Int) (body : Reader → Outcome (Option α) × Reader) (buf buf1 : Reader)
    (size : Int) (slice s : List α) (err : Option Error)
    (h1 : CheckSize buf checked = none) (h2 : makeSlice elemSize zero size = some slice)
    (h3 : decodeLoop body size.toNat 0 slice buf = (.returned s err, buf1)) :
    decodeArray what elemSize zero checked body buf size = (.returned (some s) err, buf1) := by
  simp only [decodeArray, h1, h2, h3]

/-- A fixed-width array decoder on a buffer that holds the announced elements:
for a buffer of at most `maxAlloc` bytes (an allocated byte slice) starting
with `chunks`, each `w > 0` bytes wide and as wide as an element, the decoder
frame returns the converted chunks in order with a nil error and leaves the
reader after them. -/
theorem decodeArray_readElem {α : Type} (what msg : String) (w : Nat) (zero : α)
    (conv : List Byte → α) (hw : w ≠ 0) (rest : Reader) (chunks : List (List Byte))
    (hch : ∀ c ∈ chunks, c.length = w)
    (hmem : (chunks.flatten ++ rest).length ≤ maxAlloc) :
    decodeArray what w zero (wrap64 ((chunks.length : Int) * (w : Int)))
        (readElem w msg conv) (chunks.flatten ++ rest) (chunks.length : Int)
      = (.returned (some (chunks.map conv)) none, rest) := by
  have hfl := flatten_length_of_width w chunks hch
  have hbound : chunks.length * w ≤ maxAlloc := by
    rw [List.length_append, hfl] at hmem; omega
  have h48 : maxAlloc = 2 ^ 48 := by unfold maxAlloc; rfl
  have hcast : ((chunks.length : Int) * (w : Int)) = ((chunks.length * w : Nat) : Int) := by
    push_cast; rfl
  have hwrap : wrap64 ((chunks.length : Int) * (w : Int)) = ((chunks.length * w : Nat) : Int) := by
    rw [hcast]
    exact wrap64_of_range _ (by omega) (by omega)
  have hloop := decodeLoop_readElem w msg conv hw rest chunks hch 0
    (List.replicate chunks.length zero) (by simp)
  refine decodeArray_of_ok what w zero _ _ _ rest _ (List.replicate chunks.length zero)
    (chunks.map conv) none ?_ (makeSlice_ok w zero chunks.length hbound) ?_
  · rw [hwrap]
    exact CheckSize_ok _ _ (by omega) (by rw [List.length_append, hfl]; omega)
  · rw [Int.toNat_ofNat, hloop]
    simp

/-- C13. Float decoding is a bit reinterpretation (a float being held as its
IEEE-754 bit pattern): on every buffer `DecodeFloat32` returns the value whose
bit pattern is the `u32` that `DecodeUint32` reads, with the same error and
reader, and `DecodeFloat64` likewise with `DecodeUint64`; hence every 32-bit
and every 64-bit pattern (NaN payloads and infinities included) comes back
unchanged from its little-endian bytes; `DecodeFloat32Array` and
`DecodeFloat64Array` do the same elementwise, on a buffer of at most
`maxAlloc` bytes that holds the announced elements. -/
theorem float_bit_reinterpretation :
    (∀ buf : Reader, (DecodeFloat32 buf).1.1.F = (DecodeUint32 buf).1.1 ∧
      (DecodeFloat32 buf).1.2 = (DecodeUint32 buf).1.2 ∧
      (DecodeFloat32 buf).2 = (DecodeUint32 buf).2) ∧
    (∀ buf : Reader, (DecodeFloat64 buf).1.1.F = (DecodeUint64 buf).1.1 ∧
      (DecodeFloat64 buf).1.2 = (DecodeUint64 buf).1.2 ∧
      (DecodeFloat64 buf).2 = (DecodeUint64 buf).2) ∧
    (∀ (p : Nat) (rest : Reader), p < 2 ^ 32 →
      DecodeFloat32 (leBytes 4 p ++ rest) = ((⟨p⟩, none), rest)) ∧
    (∀ (p : Nat) (rest : Reader), p < 2 ^ 64 →
      DecodeFloat64 (leBytes 8 p ++ rest) = ((⟨p⟩, none), rest)) ∧
    (∀ (ps : List Nat) (rest : Reader), (∀ p ∈ ps, p < 2 ^ 32) →
      ((ps.map (leBytes 4)).flatten ++ rest).length ≤ maxAlloc →
      DecodeFloat32Array ((ps.map (leBytes 4)).flatten ++ rest) (ps.length : Int)
        = (.returned (some (ps.map JsonFloat32.mk)) none, rest)) ∧
    (∀ (ps : List Nat) (rest : Reader), (∀ p ∈ ps, p < 2 ^ 64) →
      ((ps.map (leBytes 8)).flatten ++ rest).length ≤ maxAlloc →
      DecodeFloat64Array ((ps.map (leBytes 8)).flatten ++ rest) (ps.length : Int)
        = (.returned (some (ps.map JsonFloat64.mk)) none, rest)) := by
  refine ⟨fun buf => ⟨rfl, rfl, rfl⟩, fun buf => ⟨rfl, rfl, rfl⟩, ?_, ?_, ?_, ?_⟩
  · intro p rest hp
    simp only [DecodeFloat32, DecodeUint32_leBytes p hp rest, Float32frombits]
  · intro p rest hp
    simp only [DecodeFloat64, DecodeUint64_leBytes p hp rest, Float64frombits]
  · intro ps rest hps hmem
    have hch : ∀ c ∈ ps.map (leBytes 4), c.length = 4 := by
      intro c hc
      obtain ⟨p, _, rfl⟩ := List.mem_map.mp hc
      exact leBytes_length 4 p
    have h := decodeArray_readElem "decoding f32 array" "Could not read 4 bytes from buffer" 4
      (⟨0⟩ : JsonFloat32)
      (fun arr => (⟨Float32frombits (LittleEndian.Uint32 arr)⟩ : JsonFloat32))
      (by decide) rest (ps.map (leBytes 4)) hch hmem
    rw [List.length_map] at h
    have hmap : (ps.map (leBytes 4)).map
        (fun arr => (⟨Float32frombits (LittleEndian.Uint32 arr)⟩ : JsonFloat32))
        = ps.map JsonFloat32.mk := by
      rw [List.map_map]
      apply List.map_congr_left
      intro p hp
      simp only [Function.comp, Float32frombits, Uint32_leBytes p (hps p hp)]
    rw [hmap] at h
    exact h
  · intro ps rest hps hmem
    have hch : ∀ c ∈ ps.map (leBytes 8), c.length = 8 := by
      intro c hc
      obtain ⟨p, _, rfl⟩ := List.mem_map.mp hc
      exact leBytes_length 8 p
    have h := decodeArray_readElem "decoding f64 array" "Could not read 8 bytes from buffer" 8
      (⟨0⟩ : JsonFloat64)
      (fun arr => (⟨Float64frombits (LittleEndian.Uint64 arr)⟩ : JsonFloat64))
      (by decide) rest (ps.map (leBytes 8)) hch hmem
    rw [List.length_map] at h
    have hmap : (ps.map (leBytes 8)).map
        (fun arr => (⟨Float64frombits (LittleEndian.Uint64 arr)⟩ : JsonFloat64))
        = ps.map JsonFloat64.mk := by
      rw [List.map_map]
      apply List.map_congr_left
      intro p hp
      simp only [Function.comp, Float64frombits, Uint64_leBytes p (hps p hp)]
    rw [hmap] at h
    exact h

/-- Witness for C13: the quiet-NaN pattern `0x7FC00001` and the pattern of
`-Inf`, `0xFF800000`, as scalars and as a two-element array before the byte
`9`; the 64-bit `+Inf` pattern `0x7FF0000000000000` likewise. -/
theorem float_bit_reinterpretation_witness :
    DecodeFloat32 (leBytes 4 0x7FC00001 ++ [9]) = ((⟨0x7FC00001⟩, none), [9]) ∧
    DecodeFloat64 (leBytes 8 0x7FF0000000000000 ++ [9])
      = ((⟨0x7FF0000000000000⟩, none), [9]) ∧
    DecodeFloat32Array (([0x7FC00001, 0xFF800000].map (leBytes 4)).flatten ++ [9])
        (([0x7FC00001, 0xFF800000] : List Nat).length : Int)
      = (.returned (some [⟨0x7FC00001⟩, ⟨0xFF800000⟩]) none, [9]) ∧
    DecodeFloat64Array (([0x7FF0000000000000].map (leBytes 8)).flatten ++ [9])
        (([0x7FF0000000000000] : List Nat).length : Int)
      = (.returned (some [⟨0x7FF0000000000000⟩]) none, [9]) :=
  ⟨float_bit_reinterpretation.2.2.1 0x7FC00001 [9] (by decide),
   float_bit_reinterpretation.2.2.2.1 0x7FF0000000000000 [9] (by decide),
   float_bit_reinterpretation.2.2.2.2.1 [0x7FC00001, 0xFF800000] [9] (by decide)
     (by with_unfolding_all decide),
   float_bit_reinterpretation.2.2.2.2.2 [0x7FF0000000000000] [9] (by decide)
     (by with_unfolding_all decide)⟩

/-! ## C14, C15: what `SendGoalAndWait` and `GetState` return -/

theorem waitLoop_expired (sc : simpleActionClient) (timeout : Duration)
    (p : WaitPass) (ps : List WaitPass) (hz : timeout.IsZero = false) (hp : p.expired = true) :
    ∃ sc1, waitLoop timeout sc (p :: ps) = some (sc1, ps) := by
  by_cases hd : (p.arrivals.foldl notify sc).doneChan > 0
  · exact ⟨{ p.arrivals.foldl notify sc with
        doneChan := (p.arrivals.foldl notify sc).doneChan - 1 },
      by simp only [waitLoop, if_pos hd]⟩
  · exact ⟨p.arrivals.foldl notify sc, by simp [waitLoop, hd, hz, hp]⟩

/-- A pass past the deadline ends a wait whose timeout is not zero, and the
wait uses up at most that pass. -/
theorem WaitForResult_expired (sc : simpleActionClient) (timeout : Duration)
    (p : WaitPass) (ps : List WaitPass) (hz : timeout.IsZero = false) (hp : p.expired = true) :
    ∃ b sc1 rest, WaitForResult sc timeout (p :: ps) = some (b, sc1, rest) ∧
      (rest = p :: ps ∨ rest = ps) := by
  cases hgh : sc.gh with
  | none => exact ⟨false, sc, p :: ps, by simp only [WaitForResult, hgh], Or.inl rfl⟩
  | some gh =>
    obtain ⟨sc1, hwl⟩ := waitLoop_expired sc timeout p ps hz hp
    exact ⟨sc1.simpleState == SimpleStateDone, sc1, ps,
      by simp only [WaitForResult, hgh, hwl], Or.inr rfl⟩

theorem SendGoalAndWait_value (sc : simpleActionClient)
    (acSendGoal : ClientGoalHandler × Option Error) (executeTimeout preeptTimeout : Duration)
    (ghCancel : Option Error) (passes : List WaitPass) (r : Nat × Option Error)
    (scf : simpleActionClient)
    (h : SendGoalAndWait sc acSendGoal executeTimeout preeptTimeout ghCancel passes
      = some (r, scf)) : r = GetState scf := by
  unfold SendGoalAndWait at h
  simp only [] at h
  split at h
  · exact absurd h (by simp)
  · simp only [Option.some.injEq, Prod.mk.injEq] at h
    rw [← h.1, h.2]
  · split at h
    · exact absurd h (by simp)
    · simp only [Option.some.injEq, Prod.mk.injEq] at h
      rw [← h.1, h.2]

theorem SendGoalAndWait_returns (sc : simpleActionClient)
    (acSendGoal : ClientGoalHandler × Option Error) (executeTimeout preeptTimeout : Duration)
    (ghCancel : Option Error) (p1 p2 : WaitPass) (ps : List WaitPass)
    (he : executeTimeout.IsZero = false) (hpz : preeptTimeout.IsZero = false)
    (h1 : p1.expired = true) (h2 : p2.expired = true) :
    (SendGoalAndWait sc acSendGoal executeTimeout preeptTimeout ghCancel
      (p1 :: p2 :: ps)).isSome = true := by
  unfold SendGoalAndWait
  simp only []
  obtain ⟨b, sc2, rest, hw, hrest⟩ := WaitForResult_expired
    (SendGoal sc none none none acSendGoal).2 executeTimeout p1 (p2 :: ps) he h1
  rw [hw]
  cases b with
  | true => rfl
  | false =>
    simp only []
    rcases hrest with hr | hr
    · obtain ⟨b3, sc3, rest3, hw3, _⟩ :=
        WaitForResult_expired sc2 preeptTimeout p1 (p2 :: ps) hpz h1
      rw [hr, hw3]
      rfl
    · obtain ⟨b3, sc3, rest3, hw3, _⟩ := WaitForResult_expired sc2 preeptTimeout p2 ps hpz h2
      rw [hr, hw3]
      rfl

theorem GetState_cases (sc : simpleActionClient) :
    (sc.gh = none → (GetState sc).1 = 9 ∧ (GetState sc).2 ≠ none) ∧
    (∀ gh s e, sc.gh = some gh → gh.GetGoalStatus = (s, some e) →
      GetState sc = (9, some e)) ∧
    (∀ gh s, sc.gh = some gh → gh.GetGoalStatus = (s, none) →
      GetState sc = (if s = 6 then 1 else if s = 7 then 0 else s, none) ∧
      (GetState sc).1 ≠ 6 ∧ (GetState sc).1 ≠ 7) := by
  refine ⟨fun h => ?_, fun gh s e h hs => ?_, fun gh s h hs => ?_⟩
  · simp [GetState, h]
  · simp only [GetState, h, hs]
  · simp only [GetState, h, hs]
    by_cases h7 : s = 7
    · subst h7; simp
    · by_cases h6 : s = 6
      · subst h6; simp
      · simp [h6, h7]

/-- C14, as amended. For every goal and every pair of timeouts, the value
returned by `SendGoalAndWait` is what `GetState` gives for the client at
return: 9 with an error when no goal is tracked or the goal handle cannot give
its status, and otherwise the goal status of the tracked handle with 6
replaced by 1 and 7 by 0 (a goal status, not the simple state).  With two
timeouts that are not zero the call returns as soon as each wait has seen a
pass past its deadline. -/
theorem sendGoalAndWait_returns_goal_status (sc : simpleActionClient)
    (acSendGoal : ClientGoalHandler × Option Error) (executeTimeout preeptTimeout : Duration)
    (ghCancel : Option Error) :
    (∀ passes r scf,
      SendGoalAndWait sc acSendGoal executeTimeout preeptTimeout ghCancel passes
        = some (r, scf) →
      r = GetState scf ∧
      ((scf.gh = none ∧ r.1 = 9 ∧ r.2 ≠ none) ∨
       (∃ gh s e, scf.gh = some gh ∧ gh.GetGoalStatus = (s, some e) ∧ r = (9, some e)) ∨
       (∃ gh s, scf.gh = some gh ∧ gh.GetGoalStatus = (s, none) ∧
         r = (if s = 6 then 1 else if s = 7 then 0 else s, none)))) ∧
    (executeTimeout.IsZero = false → preeptTimeout.IsZero = false →
      ∀ p1 p2 ps, p1.expired = true → p2.expired = true →
        (SendGoalAndWait sc acSendGoal executeTimeout preeptTimeout ghCancel
          (p1 :: p2 :: ps)).isSome = true) := by
  refine ⟨fun passes r scf h => ?_, fun he hpz p1 p2 ps h1 h2 =>
    SendGoalAndWait_returns sc acSendGoal executeTimeout preeptTimeout ghCancel p1 p2 ps
      he hpz h1 h2⟩
  have hr := SendGoalAndWait_value sc acSendGoal executeTimeout preeptTimeout ghCancel
    passes r scf h
  refine ⟨hr, ?_⟩
  obtain ⟨hnone, herr, hok⟩ := GetState_cases scf
  cases hgh : scf.gh with
  | none =>
    have := hnone hgh
    exact Or.inl ⟨rfl, by rw [hr]; exact this.1, by rw [hr]; exact this.2⟩
  | some gh =>
    rcases hst : gh.GetGoalStatus with ⟨s, e⟩
    cases e with
    | some e => exact Or.inr (Or.inl ⟨gh, s, e, rfl, hst, by rw [hr]; exact herr gh s e hgh hst⟩)
    | none => exact Or.inr (Or.inr ⟨gh, s, rfl, hst, by rw [hr]; exact (hok gh s hgh hst).1⟩)

/-- Witness for C14 as amended: a goal is sent, the first wait sees the `Done`
notification with goal status 3 (Succeeded), and the call returns 3, which is
`GetState` of the client at return. -/
theorem sendGoalAndWait_returns_goal_status_witness :
    ((3 : Nat), (none : Option Error)) =
      GetState
        { simpleState := SimpleStateDone,
          gh := some ⟨(.Done, none), (3, none), (some ⟨7⟩, none)⟩,
          doneCb := none, activeCb := none, feedbackCb := none, doneChan := 0, calls := [] } :=
  ((sendGoalAndWait_returns_goal_status newSimpleActionClient
      (⟨(.WaitingForGoalAck, none), (0, none), (some ⟨0⟩, none)⟩, none) ⟨1, 0⟩ ⟨1, 0⟩ none).1
    [⟨[⟨(.Done, none), (3, none), (some ⟨7⟩, none)⟩], false⟩] (3, none) _ (by decide)).1

/-- C14 as stated fails. (1) A goal is sent and completes with goal status 3
(Succeeded) during the first wait: `SendGoalAndWait` returns 3, while the
simple state at return is Done (2), and 3 is none of 0, 1, 2.  (2) The wrapped
client refuses the goal: `SendGoalAndWait` returns 9 with an error, while the
simple state at return is Pending (0). -/
theorem sendGoalAndWait_not_simple_state :
    SendGoalAndWait newSimpleActionClient
        (⟨(.WaitingForGoalAck, none), (0, none), (some ⟨0⟩, none)⟩, none) ⟨1, 0⟩ ⟨1, 0⟩ none
        [⟨[⟨(.Done, none), (3, none), (some ⟨7⟩, none)⟩], false⟩]
      = some ((3, none),
          { simpleState := SimpleStateDone,
            gh := some ⟨(.Done, none), (3, none), (some ⟨7⟩, none)⟩,
            doneCb := none, activeCb := none, feedbackCb := none, doneChan := 0,
            calls := [] }) ∧
    SendGoalAndWait newSimpleActionClient
        (⟨(.WaitingForGoalAck, none), (0, none), (some ⟨0⟩, none)⟩, some (.new "no server"))
        ⟨1, 0⟩ ⟨1, 0⟩ none []
      = some ((9, some (.new "called get state when no goal running")),
          { simpleState := SimpleStatePending, gh := none,
            doneCb := none, activeCb := none, feedbackCb := none, doneChan := 0,
            calls := [] }) := by
  decide

/-- C15. `GetState` projection: when a goal is tracked and the goal handle
reports status `s` without error, `GetState` returns 1 if `s = 6`, 0 if
`s = 7` and `s` unchanged otherwise, with a nil error, so it never returns 6
or 7; when no goal is tracked, or the goal handle reports an error, it returns
9 together with an error. -/
theorem getState_projection (sc : simpleActionClient) :
    (∀ gh s, sc.gh = some gh → gh.GetGoalStatus = (s, none) →
      GetState sc = (if s = 6 then 1 else if s = 7 then 0 else s, none) ∧
      (GetState sc).1 ≠ 6 ∧ (GetState sc).1 ≠ 7) ∧
    (sc.gh = none → (GetState sc).1 = 9 ∧ (GetState sc).2 ≠ none) ∧
    (∀ gh s e, sc.gh = some gh → gh.GetGoalStatus = (s, some e) →
      (GetState sc).1 = 9 ∧ (GetState sc).2 ≠ none) := by
  obtain ⟨hnone, herr, hok⟩ := GetState_cases sc
  refine ⟨hok, hnone, fun gh s e h hs => ?_⟩
  rw [herr gh s e h hs]
  exact ⟨rfl, by simp⟩

/-- Witness for C15: a tracked goal whose handle reports status 6
(Preempting) is reported as 1 (Active). -/
theorem getState_projection_witness :
    GetState { newSimpleActionClient with
        gh := some ⟨(.Preempting, none), (6, none), (some ⟨0⟩, none)⟩ } = (1, none) :=
  ((getState_projection { newSimpleActionClient with
      gh := some ⟨(.Preempting, none), (6, none), (some ⟨0⟩, none)⟩ }).1
    ⟨(.Preempting, none), (6, none), (some ⟨0⟩, none)⟩ 6 rfl rfl).1

/-! ## C16: the arity guard of `runCallback` and the call through `reflect` -/

/-- C16, as amended. Reflective callback arity: for every callback kind
(active, feedback, done), every registered callback of declared arity `d` and
every list of `a` available arguments, `runCallback` invokes the callback
once when `d <= a` and the callback is a non-nil function whose parameters
accept the first `d` arguments, passing it exactly those `d = min(d, a)`
arguments; it does not invoke it when `d > a`; and it panics in `reflect`
without invoking it when the callback is no function, or when `d <= a` and the
callback is a nil function or one of its parameters does not accept its
argument. -/
theorem runCallback_arity (sc : simpleActionClient) (cbType : String) (cb : Callback)
    (args : List Arg)
    (hreg : (cbType = "active" ∧ sc.activeCb = some cb) ∨
      (cbType = "feedback" ∧ sc.feedbackCb = some cb) ∨
      (cbType = "done" ∧ sc.doneCb = some cb)) :
    (cb.numIn ≤ args.length → cb.accepts Arg.fits (args.take cb.numIn) = true →
      runCallback sc cbType args =
        { sc with calls := sc.calls ++ [⟨cbType, cb, args.take cb.numIn⟩] } ∧
      (args.take cb.numIn).length = min cb.numIn args.length ∧
      (args.take cb.numIn).length = cb.numIn) ∧
    (cb.kind ≠ .notFunc → cb.numIn > args.length → runCallback sc cbType args = sc) ∧
    (cb.kind = .notFunc ∨
        (cb.numIn ≤ args.length ∧ cb.accepts Arg.fits (args.take cb.numIn) = false) →
      runCallback sc cbType args = { sc with panicked := true }) := by
  rw [runCallback_registered sc cbType cb args hreg]
  refine ⟨fun hle hacc => ⟨?_, ?_, ?_⟩, fun hk hgt => ?_, fun hbad => ?_⟩
  · have hkind : cb.kind = .func := by
      simp only [Callback.accepts, Bool.and_eq_true, beq_iff_eq] at hacc
      exact hacc.1
    have hnk : ¬ cb.kind = .notFunc := by rw [hkind]; decide
    have hng : ¬ cb.numIn > args.length := by omega
    simp only [hnk, hng, hacc, if_false, if_true]
  · rw [List.length_take]
  · rw [List.length_take]
    exact Nat.min_eq_left hle
  · simp only [hk, hgt, if_false, if_true]
  · rcases hbad with hk | ⟨hle, hacc⟩
    · simp only [hk, if_true]
    · by_cases hk : cb.kind = .notFunc
      · simp only [hk, if_true]
      · have hng : ¬ cb.numIn > args.length := by omega
        simp only [hk, hng, hacc, if_false, Bool.false_eq_true]

/-- Witness for C16 as amended: a done callback declaring one `uint8`
parameter, with the two arguments (status 3, result 7) available, is called
with the status alone. -/
theorem runCallback_arity_witness :
    runCallback { newSimpleActionClient with doneCb := some ⟨"onDone", .func, [.uint8]⟩ } "done"
        [.status 3, .message ⟨7⟩]
      = { newSimpleActionClient with
          doneCb := some ⟨"onDone", .func, [.uint8]⟩
          calls := [⟨"done", ⟨"onDone", .func, [.uint8]⟩, [.status 3]⟩] } :=
  ((runCallback_arity { newSimpleActionClient with doneCb := some ⟨"onDone", .func, [.uint8]⟩ }
    "done" ⟨"onDone", .func, [.uint8]⟩ [.status 3, .message ⟨7⟩]
    (Or.inr (Or.inr ⟨rfl, rfl⟩))).1 (by decide) (by decide)).1

/-- C16 as stated fails: (1) a registered feedback callback declaring two
parameters, with one argument available, is not invoked at all, although
`min(2, 1) = 1`; (2) a registered done callback declaring one `string`
parameter, with the arguments (status 3, result 7) available, is not invoked:
`Call` panics on the `uint8` status; (3) a two-parameter done callback is not
invoked when the result is the nil `Message`, whose `reflect.Value` is the
zero `Value`; (4) a registered value that is no function makes `NumIn` panic,
and (5) a nil function makes `Call` panic. -/
theorem runCallback_skips_wider_callback :
    ((runCallback
        { newSimpleActionClient with
          feedbackCb := some ⟨"onFeedback", .func, [.message, .emptyInterface]⟩ }
        "feedback" [.message ⟨7⟩]).calls = [] ∧
      min (2 : Nat) ([Arg.message ⟨7⟩].length) = 1) ∧
    ((runCallback
        { newSimpleActionClient with doneCb := some ⟨"onDone", .func, [.other "string"]⟩ }
        "done" [.status 3, .message ⟨7⟩]).calls = [] ∧
      (runCallback
        { newSimpleActionClient with doneCb := some ⟨"onDone", .func, [.other "string"]⟩ }
        "done" [.status 3, .message ⟨7⟩]).panicked = true) ∧
    ((runCallback
        { newSimpleActionClient with doneCb := some ⟨"onDone", .func, [.uint8, .message]⟩ }
        "done" [.status 3, ValueOf none]).calls = [] ∧
      (runCallback
        { newSimpleActionClient with doneCb := some ⟨"onDone", .func, [.uint8, .message]⟩ }
        "done" [.status 3, ValueOf none]).panicked = true) ∧
    ((runCallback { newSimpleActionClient with doneCb := some ⟨"onDone", .notFunc, []⟩ }
        "done" [.status 3, .message ⟨7⟩]).calls = [] ∧
      (runCallback { newSimpleActionClient with doneCb := some ⟨"onDone", .notFunc, []⟩ }
        "done" [.status 3, .message ⟨7⟩]).panicked = true) ∧
    ((runCallback
        { newSimpleActionClient with doneCb := some ⟨"onDone", .nilFunc, [.uint8, .message]⟩ }
        "done" [.status 3, .message ⟨7⟩]).calls = [] ∧
      (runCallback
        { newSimpleActionClient with doneCb := some ⟨"onDone", .nilFunc, [.uint8, .message]⟩ }
        "done" [.status 3, .message ⟨7⟩]).panicked = true) := by
  decide

/-! ## C17: `WaitForResult` with a zero timeout -/

/-- A notification either leaves the done channel alone or leaves the client
in state Done; and it never leaves state Done. -/
theorem transitionHandler_signal (sc : simpleActionClient) (gh : ClientGoalHandler) :
    ((transitionHandler sc gh).doneChan = sc.doneChan ∨
      (transitionHandler sc gh).simpleState = SimpleStateDone) ∧
    (sc.simpleState = SimpleStateDone →
      (transitionHandler sc gh).simpleState = SimpleStateDone) := by
  have hPD : SimpleStatePending ≠ SimpleStateDone := by decide
  constructor
  · unfold transitionHandler
    split
    · exact Or.inl rfl
    · rename_i cs _
      have hd : (sendDone (setSimpleState sc SimpleStateDone)).simpleState
          = SimpleStateDone := by
        unfold sendDone; split <;> rfl
      have hsw : (transitionSwitch sc gh cs).1.doneChan = sc.doneChan ∨
          (transitionSwitch sc gh cs).1.simpleState = SimpleStateDone := by
        cases cs <;> simp only [transitionSwitch]
        all_goals (repeat' split)
        all_goals first
          | exact Or.inl rfl
          | exact Or.inr hd
          | simp
      generalize transitionSwitch sc gh cs = r at hsw
      obtain ⟨sc1, t, args⟩ := r
      simp only [] at hsw ⊢
      split
      · rw [runCallback_doneChan, runCallback_simpleState]; exact hsw
      · exact hsw
  · intro hs
    rcases transitionHandler_cases sc gh with ⟨h, _⟩ | ⟨hp, _, _⟩ | ⟨_, h, _⟩
    · rw [h, hs]
    · exact absurd (hp.symm.trans hs) hPD
    · exact h

/-- No stale signal: the done channel is empty or the client is in state Done.
Notifications keep it so. -/
theorem notify_keeps_fresh (sc : simpleActionClient) (gh : ClientGoalHandler)
    (h : sc.doneChan = 0 ∨ sc.simpleState = SimpleStateDone) :
    (notify sc gh).doneChan = 0 ∨ (notify sc gh).simpleState = SimpleStateDone := by
  unfold notify
  obtain ⟨h1, h2⟩ := transitionHandler_signal { sc with gh := sc.gh.map (fun _ => gh) } gh
  rcases h with h | h
  · rcases h1 with h1 | h1
    · exact Or.inl (h1.trans h)
    · exact Or.inr h1
  · exact Or.inr (h2 h)

theorem foldl_notify_keeps_fresh (ghs : List ClientGoalHandler) :
    ∀ sc : simpleActionClient, (sc.doneChan = 0 ∨ sc.simpleState = SimpleStateDone) →
      ((ghs.foldl notify sc).doneChan = 0 ∨
        (ghs.foldl notify sc).simpleState = SimpleStateDone) := by
  induction ghs with
  | nil => intro sc h; exact h
  | cons gh ghs ih => intro sc h; exact ih (notify sc gh) (notify_keeps_fresh sc gh h)

theorem waitLoop_zero_fresh (timeout : Duration) (hz : timeout.IsZero = true)
    (passes : List WaitPass) :
    ∀ sc sc1 rest, (sc.doneChan = 0 ∨ sc.simpleState = SimpleStateDone) →
      waitLoop timeout sc passes = some (sc1, rest) → sc1.simpleState = SimpleStateDone := by
  induction passes with
  | nil => intro sc sc1 rest _ h; simp [waitLoop] at h
  | cons p ps ih =>
    intro sc sc1 rest hf h
    have hf1 := foldl_notify_keeps_fresh p.arrivals sc hf
    simp only [waitLoop, hz, Bool.not_true, Bool.false_and] at h
    by_cases hd : (p.arrivals.foldl notify sc).doneChan > 0
    · rw [if_pos hd] at h
      simp only [Option.some.injEq, Prod.mk.injEq] at h
      rw [← h.1]
      rcases hf1 with h0 | hdone
      · omega
      · exact hdone
    · rw [if_neg hd] at h
      simp only [Bool.false_eq_true, if_false] at h
      exact ih _ sc1 rest hf1 h

/-- Without a stale signal the zero-timeout wait is as the specification has
it: for a tracked goal and an empty done channel, `WaitForResult(0)` returns
only when the simple state is Done, and then returns true. -/
theorem WaitForResult_zero_without_stale_signal (sc : simpleActionClient)
    (timeout : Duration) (hz : timeout.IsZero = true) (h0 : sc.doneChan = 0)
    (hgh : sc.gh ≠ none) (passes : List WaitPass) (b : Bool) (sc1 : simpleActionClient)
    (rest : List WaitPass) (h : WaitForResult sc timeout passes = some (b, sc1, rest)) :
    b = true ∧ sc1.simpleState = SimpleStateDone := by
  unfold WaitForResult at h
  cases hg : sc.gh with
  | none => exact absurd hg hgh
  | some gh =>
    simp only [hg] at h
    cases hw : waitLoop timeout sc passes with
    | none => simp [hw] at h
    | some r =>
      obtain ⟨sc2, rest2⟩ := r
      simp only [hw, Option.some.injEq, Prod.mk.injEq] at h
      have hdone := waitLoop_zero_fresh timeout hz passes sc sc2 rest2 (Or.inl h0) hw
      obtain ⟨hb, hsc, _⟩ := h
      subst hsc
      refine ⟨?_, hdone⟩
      rw [← hb, hdone]
      rfl

/-- C17, the defect. `WaitForResult(0)` is to return only once the tracked
goal is Done, hence true.  A first goal is sent and completes with nobody
waiting, which leaves its signal in the done channel; a second goal is sent
and is tracked, in state Pending; `WaitForResult(0)` then takes the stale
signal at its first `select` and returns false at once, with no notification
for the second goal having arrived. -/
theorem waitForResult_zero_returns_false_on_stale_signal :
    (SendGoal
        (transitionHandler
          (SendGoal newSimpleActionClient (some ⟨"onDone", .func, [.uint8, .message]⟩) none none
            (⟨(.WaitingForGoalAck, none), (0, none), (some ⟨0⟩, none)⟩, none)).2
          ⟨(.Done, none), (3, none), (some ⟨7⟩, none)⟩)
        none none none (⟨(.WaitingForGoalAck, none), (0, none), (some ⟨1⟩, none)⟩, none)).2
      = { simpleState := SimpleStatePending,
          gh := some ⟨(.WaitingForGoalAck, none), (0, none), (some ⟨1⟩, none)⟩,
          doneCb := none, activeCb := none, feedbackCb := none, doneChan := 1,
          calls := [⟨"done", ⟨"onDone", .func, [.uint8, .message]⟩, [.status 3, .message ⟨7⟩]⟩] } ∧
    WaitForResult
        { simpleState := SimpleStatePending,
          gh := some ⟨(.WaitingForGoalAck, none), (0, none), (some ⟨1⟩, none)⟩,
          doneCb := none, activeCb := none, feedbackCb := none, doneChan := 1,
          calls := [⟨"done", ⟨"onDone", .func, [.uint8, .message]⟩, [.status 3, .message ⟨7⟩]⟩] }
        ⟨0, 0⟩ [⟨[], false⟩]
      = some (false,
          { simpleState := SimpleStatePending,
            gh := some ⟨(.WaitingForGoalAck, none), (0, none), (some ⟨1⟩, none)⟩,
            doneCb := none, activeCb := none, feedbackCb := none, doneChan := 0,
            calls := [⟨"done", ⟨"onDone", .func, [.uint8, .message]⟩, [.status 3, .message ⟨7⟩]⟩] }, []) := by
  decide

/-! ## C18, C19: the dispatch job of the subscriber -/

/-- The dispatch job uses the message that `Deserialize` leaves and nothing
else of its outcome: the error plays no part in what the job does. -/
theorem dispatchJob_eq (msgType : MessageType) (callbacks : List Callback)
    (msgEvent : messageEvent) :
    dispatchJob msgType callbacks msgEvent =
      dispatchLoop [SubArg.message (msgType.Deserialize msgEvent.bytes).1,
        SubArg.event msgEvent.event] callbacks [] := by
  unfold dispatchJob
  rfl

/-- The loop of the dispatch job over callbacks that `reflect` can all call:
one call for each callback that declares at most two parameters, in order, and
no panic. -/
theorem dispatchLoop_good (args : List SubArg) :
    ∀ (callbacks : List Callback) (calls : List SubCall),
      (∀ cb ∈ callbacks, cb.kind ≠ .notFunc ∧
        (cb.numIn ≤ 2 → cb.accepts SubArg.fits (args.take cb.numIn) = true)) →
      dispatchLoop args callbacks calls =
        ⟨calls ++ (callbacks.filter (fun cb => cb.numIn ≤ 2)).map
          (fun cb => (⟨cb, args.take cb.numIn⟩ : SubCall)), false⟩
  | [], calls, _ => by simp [dispatchLoop]
  | cb :: rest, calls, h => by
    obtain ⟨hk, hacc⟩ := h cb (List.mem_cons_self _ _)
    have hrest := fun c hc => h c (List.mem_cons_of_mem _ hc)
    rw [dispatchLoop]
    by_cases hle : cb.numIn ≤ 2
    · simp only [hk, hle, hacc hle, if_false, if_true]
      rw [dispatchLoop_good args rest _ hrest]
      simp [hle]
    · simp only [hk, hle, if_false]
      rw [dispatchLoop_good args rest _ hrest]
      simp [hle]

/-- The loop of the dispatch job up to the first callback that `reflect`
cannot call: the callbacks before it are called, the job panics at it, and
neither it nor any later callback is called. -/
theorem dispatchLoop_bad (args : List SubArg) (bad : Callback) (rest : List Callback)
    (hbad : bad.kind = .notFunc ∨
      (bad.numIn ≤ 2 ∧ bad.accepts SubArg.fits (args.take bad.numIn) = false)) :
    ∀ (good : List Callback) (calls : List SubCall),
      (∀ cb ∈ good, cb.kind ≠ .notFunc ∧
        (cb.numIn ≤ 2 → cb.accepts SubArg.fits (args.take cb.numIn) = true)) →
      dispatchLoop args (good ++ bad :: rest) calls =
        ⟨calls ++ (good.filter (fun cb => cb.numIn ≤ 2)).map
          (fun cb => (⟨cb, args.take cb.numIn⟩ : SubCall)), true⟩
  | [], calls, _ => by
    rw [List.nil_append, dispatchLoop]
    rcases hbad with hk | ⟨hle, hacc⟩
    · simp [hk]
    · by_cases hk : bad.kind = .notFunc
      · simp [hk]
      · simp [hk, hle, hacc]
  | cb :: good, calls, h => by
    obtain ⟨hk, hacc⟩ := h cb (List.mem_cons_self _ _)
    have hrest := fun c hc => h c (List.mem_cons_of_mem _ hc)
    rw [List.cons_append, dispatchLoop]
    by_cases hle : cb.numIn ≤ 2
    · simp only [hk, hle, hacc hle, if_false, if_true]
      rw [dispatchLoop_bad args bad rest hbad good _ hrest]
      simp [hle]
    · simp only [hk, hle, if_false]
      rw [dispatchLoop_bad args bad rest hbad good _ hrest]
      simp [hle]

/-- C18, the defect. A frame that fails to deserialize is to be dropped, with
no user callback invoked.  A subscriber with one callback declaring one
parameter receives a payload on which `Deserialize` returns an error: the
dispatch job still invokes the callback, passing it the message as
`Deserialize` left it. -/
theorem dispatch_job_runs_after_deserialize_error :
    (({ Deserialize := fun _ => (⟨0⟩, some (.new "buffer size too small")) } :
        MessageType).Deserialize [0x12]).2 ≠ none ∧
    onMessage
        (newDefaultSubscriber "/chat"
          { Deserialize := fun _ => (⟨0⟩, some (.new "buffer size too small")) }
          ⟨"onMessage", .func, [.message]⟩)
        ⟨[0x12], ⟨"/talker", 5, []⟩⟩ true
      = some ⟨[⟨⟨"onMessage", .func, [.message]⟩, [SubArg.message ⟨0⟩]⟩], false⟩ := by
  decide

/-- C19, as amended. Subscriber callback shapes: for every received message,
the dispatch job goes through the registered callbacks in registration order.
When every registered callback is a function, and every one of arity `k` in
{0, 1, 2} is non-nil with parameters that accept the first `k` elements of
(message, MessageEvent), the job invokes each callback of arity `k <= 2`
exactly once with those `k` elements, in registration order, and does not
invoke a callback declaring more than 2 parameters.  At the first registered
callback that is no function, or that has arity at most 2 and is a nil
function or has a parameter that does not accept its argument, the job
panics in `reflect`: the callbacks before it have been invoked as said, and
neither it nor any later callback is invoked. -/
theorem dispatch_job_callback_shapes (sub : defaultSubscriber) (msgEvent : messageEvent) :
    ((∀ cb ∈ sub.callbacks, cb.kind ≠ .notFunc ∧
        (cb.numIn ≤ 2 → cb.accepts SubArg.fits
          ([SubArg.message (sub.msgType.Deserialize msgEvent.bytes).1,
            SubArg.event msgEvent.event].take cb.numIn) = true)) →
      onMessage sub msgEvent true =
        some ⟨(sub.callbacks.filter (fun cb => cb.numIn ≤ 2)).map
          (fun cb => (⟨cb, [SubArg.message (sub.msgType.Deserialize msgEvent.bytes).1,
            SubArg.event msgEvent.event].take cb.numIn⟩ : SubCall)), false⟩) ∧
    (∀ good bad rest, sub.callbacks = good ++ bad :: rest →
      (∀ cb ∈ good, cb.kind ≠ .notFunc ∧
        (cb.numIn ≤ 2 → cb.accepts SubArg.fits
          ([SubArg.message (sub.msgType.Deserialize msgEvent.bytes).1,
            SubArg.event msgEvent.event].take cb.numIn) = true)) →
      (bad.kind = .notFunc ∨
        (bad.numIn ≤ 2 ∧ bad.accepts SubArg.fits
          ([SubArg.message (sub.msgType.Deserialize msgEvent.bytes).1,
            SubArg.event msgEvent.event].take bad.numIn) = false)) →
      onMessage sub msgEvent true =
        some ⟨(good.filter (fun cb => cb.numIn ≤ 2)).map
          (fun cb => (⟨cb, [SubArg.message (sub.msgType.Deserialize msgEvent.bytes).1,
            SubArg.event msgEvent.event].take cb.numIn⟩ : SubCall)), true⟩) := by
  refine ⟨fun hgood => ?_, fun good bad rest hcbs hgood hbad => ?_⟩
  · simp only [onMessage, if_true, dispatchJob_eq]
    rw [dispatchLoop_good _ sub.callbacks [] hgood, List.nil_append]
  · simp only [onMessage, if_true, dispatchJob_eq]
    rw [hcbs, dispatchLoop_bad _ bad rest hbad good [] hgood, List.nil_append]

/-- Witness for C19 as amended: a subscriber with a one-parameter callback, a
three-parameter callback and a two-parameter callback, all well typed, calls
the first with the message and the third with the message and the event. -/
theorem dispatch_job_callback_shapes_witness :
    onMessage
        (onAddCallback
          (onAddCallback
            (newDefaultSubscriber "/chat" ⟨fun _ => (⟨7⟩, none)⟩
              ⟨"onMessage", .func, [.message]⟩)
            ⟨"onThree", .func, [.message, .messageEvent, .emptyInterface]⟩)
          ⟨"onBoth", .func, [.message, .messageEvent]⟩)
        ⟨[0x12], ⟨"/talker", 5, []⟩⟩ true
      = some ⟨[⟨⟨"onMessage", .func, [.message]⟩, [SubArg.message ⟨7⟩]⟩,
          ⟨⟨"onBoth", .func, [.message, .messageEvent]⟩,
            [SubArg.message ⟨7⟩, SubArg.event ⟨"/talker", 5, []⟩]⟩], false⟩ :=
  (dispatch_job_callback_shapes
    (onAddCallback
      (onAddCallback
        (newDefaultSubscriber "/chat" ⟨fun _ => (⟨7⟩, none)⟩
          ⟨"onMessage", .func, [.message]⟩)
        ⟨"onThree", .func, [.message, .messageEvent, .emptyInterface]⟩)
      ⟨"onBoth", .func, [.message, .messageEvent]⟩)
    ⟨[0x12], ⟨"/talker", 5, []⟩⟩).1 (by decide)

/-- C19 as stated fails.  (1) A subscriber whose first callback declares one
`string` parameter and whose second declares one parameter of the message
type: `Call` panics on the first, which is not invoked, and the job ends
before the second, of arity 1, is reached.  (2) A registered value that is no
function makes `NumIn` panic, and (3) a nil function of arity 0 makes `Call`
panic: in both the job ends with no callback invoked. -/
theorem dispatch_job_panics_on_ill_typed_callback :
    onMessage
        (onAddCallback
          (newDefaultSubscriber "/chat" ⟨fun _ => (⟨7⟩, none)⟩
            ⟨"onText", .func, [.other "string"]⟩)
          ⟨"onMessage", .func, [.message]⟩)
        ⟨[0x12], ⟨"/talker", 5, []⟩⟩ true = some ⟨[], true⟩ ∧
    onMessage
        (onAddCallback
          (newDefaultSubscriber "/chat" ⟨fun _ => (⟨7⟩, none)⟩ ⟨"notAFunc", .notFunc, []⟩)
          ⟨"onMessage", .func, [.message]⟩)
        ⟨[0x12], ⟨"/talker", 5, []⟩⟩ true = some ⟨[], true⟩ ∧
    onMessage
        (onAddCallback
          (newDefaultSubscriber "/chat" ⟨fun _ => (⟨7⟩, none)⟩ ⟨"onNothing", .nilFunc, []⟩)
          ⟨"onMessage", .func, [.message]⟩)
        ⟨[0x12], ⟨"/talker", 5, []⟩⟩ true = some ⟨[], true⟩ := by
  decide

/-! ## C11: the publisher-list diff -/

theorem lookup_isSome_iff {V : Type} (m : GoMap V) (k : String) :
    (m.lookup k).isSome = true ↔ k ∈ mapKeys m := by
  induction m with
  | nil => simp [mapKeys]
  | cons e m ih =>
    obtain ⟨a, b⟩ := e
    by_cases h : k = a
    · subst h; simp [List.lookup, mapKeys]
    · have hb : (k == a) = false := by simpa using h
      simp only [List.lookup, hb, mapKeys, List.map_cons, List.mem_cons, h, false_or]
      exact ih

theorem mapKeys_mapSet {V : Type} (m : GoMap V) (k : String) (v : V) :
    mapKeys (mapSet m k v) = if k ∈ mapKeys m then mapKeys m else mapKeys m ++ [k] := by
  unfold mapSet
  by_cases h : (m.lookup k).isSome = true
  · have hk := (lookup_isSome_iff m k).1 h
    rw [if_pos h, if_pos hk]
    simp only [mapKeys, List.map_map]
    apply List.map_congr_left
    intro e _
    by_cases he : e.1 = k
    · simp [he]
    · simp [he]
  · have hk : k ∉ mapKeys m := fun hk => h ((lookup_isSome_iff m k).2 hk)
    rw [if_neg h, if_neg hk]
    simp [mapKeys]

theorem mapKeys_mapDelete {V : Type} (m : GoMap V) (k : String) :
    mapKeys (mapDelete m k) = (mapKeys m).filter (fun s => s ≠ k) := by
  simp only [mapKeys, mapDelete, List.filter_map]
  rfl

theorem mapKeys_foldl_mapSet (l : List String) :
    ∀ m : GoMap Bool, (mapKeys m).Nodup →
      (mapKeys (l.foldl (fun m item => mapSet m item true) m)).Nodup ∧
      ∀ s, s ∈ mapKeys (l.foldl (fun m item => mapSet m item true) m) ↔
        s ∈ mapKeys m ∨ s ∈ l := by
  induction l with
  | nil => intro m hm; simp [hm]
  | cons a l ih =>
    intro m hm
    rw [List.foldl_cons]
    have hkeys := mapKeys_mapSet m a true
    have hnd : (mapKeys (mapSet m a true)).Nodup := by
      rw [hkeys]
      split
      · exact hm
      · rename_i ha
        exact List.Nodup.append hm (List.nodup_singleton a) (by simpa using ha)
    obtain ⟨h1, h2⟩ := ih (mapSet m a true) hnd
    refine ⟨h1, fun s => ?_⟩
    rw [h2 s, hkeys]
    split
    · rename_i ha
      constructor
      · rintro (h | h)
        · exact Or.inl h
        · exact Or.inr (List.mem_cons_of_mem _ h)
      · rintro (h | h)
        · exact Or.inl h
        · rcases List.mem_cons.1 h with h | h
          · exact Or.inl (h ▸ ha)
          · exact Or.inr h
    · simp only [List.mem_append, List.mem_singleton, List.mem_cons]
      tauto

theorem mapKeys_foldl_mapDelete (ks : List String) :
    ∀ m : GoMap Bool,
      mapKeys (ks.foldl (fun m k => mapDelete m k) m) =
        (mapKeys m).filter (fun s => decide (s ∉ ks)) := by
  induction ks with
  | nil => intro m; simp
  | cons k ks ih =>
    intro m
    rw [List.foldl_cons, ih, mapKeys_mapDelete, List.filter_filter]
    apply List.filter_congr
    intro s _
    simp only [List.mem_cons, not_or, ne_eq, decide_not, Bool.decide_and]
    by_cases h1 : s = k <;> by_cases h2 : s ∈ ks <;> simp [h1, h2]

/-- The result of `setDifference`, whatever the order in which the maps are
ranged over: no string twice, and exactly the strings of `lhs` that are not in
`rhs`. -/
theorem setDifference_spec (order : List String → List String)
    (horder : ∀ l, (order l).Perm l) (lhs rhs : List String) :
    (setDifference order lhs rhs).Nodup ∧
    ∀ s, s ∈ setDifference order lhs rhs ↔ s ∈ lhs ∧ s ∉ rhs := by
  unfold setDifference
  simp only []
  obtain ⟨hl1, hl2⟩ := mapKeys_foldl_mapSet lhs [] (by simp [mapKeys])
  obtain ⟨_, hr2⟩ := mapKeys_foldl_mapSet rhs [] (by simp [mapKeys])
  refine ⟨?_, fun s => ?_⟩
  · rw [(horder _).nodup_iff, mapKeys_foldl_mapDelete]
    exact hl1.filter _
  · rw [(horder _).mem_iff, mapKeys_foldl_mapDelete, List.mem_filter, hl2 s]
    simp only [decide_eq_true_eq, (horder _).mem_iff, hr2]
    simp [mapKeys]

theorem mapGet_mapDelete_isSome {V : Type} (m : GoMap V) (p q : String) (hpq : p ≠ q)
    (h : (mapGet m p).isSome = true) : (mapGet (mapDelete m q) p).isSome = true := by
  unfold mapGet at *
  rw [lookup_isSome_iff] at *
  rw [mapKeys_mapDelete, List.mem_filter]
  exact ⟨h, by simpa using hpq⟩

/-- The loop over `deadPubs` when every publisher in it has its entry in
`connections`: it signals each one, in order, and runs to its end. -/
theorem tearDown_of_present : ∀ (dead : List String) (sub : defaultSubscriber),
    dead.Nodup → (∀ p ∈ dead, (mapGet sub.connections p).isSome = true) →
    (tearDown sub dead).ending = .completed ∧
    (tearDown sub dead).actions = dead.map SubAction.quit ∧
    (tearDown sub dead).sub.pubList = sub.pubList ∧
    (tearDown sub dead).sub.topic = sub.topic
  | [], sub, _, _ => by simp [tearDown]
  | p :: rest, sub, hnd, hall => by
    have hp := hall p (List.mem_cons_self _ _)
    obtain ⟨c, hc⟩ := Option.isSome_iff_exists.1 hp
    have hnd1 := List.nodup_cons.1 hnd
    have ih := tearDown_of_present rest
      { sub with connections := mapDelete sub.connections p } hnd1.2
      (fun q hq => mapGet_mapDelete_isSome _ q p (fun h => hnd1.1 (h ▸ hq))
        (hall q (List.mem_cons_of_mem _ hq)))
    simp only [tearDown, hc]
    exact ⟨ih.1, by simp [ih.2.1], ih.2.2.1, ih.2.2.2⟩

theorem count_map_quit (a : SubAction) (dead : List String) :
    (dead.map SubAction.quit).count a =
      match a with
      | .quit p => dead.count p
      | _ => 0 := by
  induction dead with
  | nil => cases a <;> simp
  | cons q dead ih =>
    cases a <;> simp [List.count_cons, ih] at *

/-- The loop over `newPubs` when no answer is ill-typed: it runs to its end,
calls `requestTopic` on each publisher once and starts a child subscription
for those whose answer names TCPROS with an address and a port. -/
theorem connect_counts (client : XMLClient) (nodeID topic : String) :
    ∀ (new : List String) (sub : defaultSubscriber), sub.topic = topic → new.Nodup →
    (∀ p ∈ new, readReply (requestTopic client nodeID topic p) ≠ .malformed) →
    (connect client nodeID sub new).ending = .completed ∧
    (connect client nodeID sub new).sub.pubList = sub.pubList ∧
    (∀ p, (connect client nodeID sub new).actions.count (.quit p) = 0) ∧
    (∀ p, (connect client nodeID sub new).actions.count (.requestTopic p)
        = if p ∈ new then 1 else 0) ∧
    (∀ p uri, (connect client nodeID sub new).actions.count (.startConn p uri)
        = if p ∈ new ∧ readReply (requestTopic client nodeID topic p) = .tcpros uri
          then 1 else 0)
  | [], sub, _, _, _ => by simp [connect]
  | q :: rest, sub, ht, hnd, hall => by
    subst ht
    have hq := hall q (List.mem_cons_self _ _)
    have hnd1 := List.nodup_cons.1 hnd
    have hrest : ∀ p ∈ rest, readReply (requestTopic client nodeID sub.topic p) ≠ .malformed :=
      fun p hp => hall p (List.mem_cons_of_mem _ hp)
    have hne : ∀ p, p ∈ rest → p ≠ q := fun p hp h => hnd1.1 (h ▸ hp)
    rw [connect]
    split
    · rename_i hm; exact absurd hm hq
    · rename_i uri1 hm
      obtain ⟨h1, h2, h3, h4, h5⟩ := connect_counts client nodeID sub.topic rest
        { sub with connections := mapSet sub.connections q ⟨uri1⟩,
                   uri2pub := mapSet sub.uri2pub uri1 q } rfl hnd1.2 hrest
      refine ⟨h1, h2, fun p => ?_, fun p => ?_, fun p uri => ?_⟩
      · simp [List.count_cons, h3]
      · simp only [List.count_cons, h4 p, List.mem_cons]
        by_cases hp : p ∈ rest
        · have := hne p hp
          simp [hp, this, Ne.symm this]
        · by_cases hpq : p = q
          · subst hpq; simp [hp]
          · simp [hp, hpq, Ne.symm hpq]
      · simp only [List.count_cons, h5 p uri, List.mem_cons]
        by_cases hp : p ∈ rest
        · have := hne p hp
          simp [hp, this, Ne.symm this]
        · by_cases hpq : p = q
          · subst hpq
            by_cases hu : uri1 = uri
            · subst hu; simp [hp, hm]
            · simp [hp, hm, hu]
          · simp [hp, hpq, Ne.symm hpq]
    · rename_i hm1 hm2
      obtain ⟨h1, h2, h3, h4, h5⟩ := connect_counts client nodeID sub.topic rest sub rfl hnd1.2 hrest
      refine ⟨h1, h2, fun p => ?_, fun p => ?_, fun p uri => ?_⟩
      · simp [List.count_cons, h3]
      · simp only [List.count_cons, h4 p, List.mem_cons]
        by_cases hp : p ∈ rest
        · have := hne p hp
          simp [hp, this, Ne.symm this]
        · by_cases hpq : p = q
          · subst hpq; simp [hp]
          · simp [hp, hpq, Ne.symm hpq]
      · simp only [List.count_cons, h5 p uri, List.mem_cons]
        by_cases hp : p ∈ rest
        · have := hne p hp
          simp [hp, this, Ne.symm this]
        · by_cases hpq : p = q
          · subst hpq
            have : readReply (requestTopic client nodeID sub.topic p) ≠ .tcpros uri :=
              fun h => hm2 uri h
            simp [hp, this]
          · simp [hp, hpq, Ne.symm hpq]

/-- The publisher-list diff where the update step runs to its end: for every
current publisher list A and every update list B (either may contain
duplicates), when every publisher in A and not in B has an entry in the
connections table and no answer to `requestTopic` is ill-typed, the step tears
down exactly the publishers in A and not in B and calls `requestTopic` on
exactly the publishers in B and not in A, each exactly once, starting a child
subscription for exactly those of them whose call succeeds and names TCPROS,
and neither tears down nor calls any publisher present in both; and
`setDifference lhs rhs` contains, once each and in some order, precisely the
strings that occur in `lhs` and do not occur in `rhs`. -/
theorem publisher_list_diff (order : List String → List String) (client : XMLClient)
    (nodeID : String) (sub : defaultSubscriber) (list : List String)
    (horder : ∀ l, (order l).Perm l)
    (hconn : ∀ p, p ∈ sub.pubList → p ∉ list → (mapGet sub.connections p).isSome = true)
    (hreply : ∀ p, p ∈ list → p ∉ sub.pubList →
      readReply (requestTopic client nodeID sub.topic p) ≠ .malformed) :
    (onPubList order client nodeID sub list).ending = .completed ∧
    (onPubList order client nodeID sub list).sub.pubList = list ∧
    (∀ p, (onPubList order client nodeID sub list).actions.count (.quit p)
        = if p ∈ sub.pubList ∧ p ∉ list then 1 else 0) ∧
    (∀ p, (onPubList order client nodeID sub list).actions.count (.requestTopic p)
        = if p ∈ list ∧ p ∉ sub.pubList then 1 else 0) ∧
    (∀ p uri, (onPubList order client nodeID sub list).actions.count (.startConn p uri)
        = if (p ∈ list ∧ p ∉ sub.pubList) ∧
            readReply (requestTopic client nodeID sub.topic p) = .tcpros uri
          then 1 else 0) ∧
    (∀ lhs rhs, (setDifference order lhs rhs).Nodup ∧
      ∀ s, s ∈ setDifference order lhs rhs ↔ s ∈ lhs ∧ s ∉ rhs) := by
  obtain ⟨hdn, hdm⟩ := setDifference_spec order horder sub.pubList list
  obtain ⟨hnn, hnm⟩ := setDifference_spec order horder list sub.pubList
  obtain ⟨t1, t2, t3, t4⟩ := tearDown_of_present (setDifference order sub.pubList list)
    { sub with pubList := list } hdn
    (fun p hp => hconn p ((hdm p).1 hp).1 ((hdm p).1 hp).2)
  obtain ⟨c1, c2, c3, c4, c5⟩ := connect_counts client nodeID sub.topic
    (setDifference order list sub.pubList)
    (tearDown { sub with pubList := list } (setDifference order sub.pubList list)).sub
    t4 hnn (fun p hp => hreply p ((hnm p).1 hp).1 ((hnm p).1 hp).2)
  have hstep : onPubList order client nodeID sub list =
      ⟨(connect client nodeID
          (tearDown { sub with pubList := list } (setDifference order sub.pubList list)).sub
          (setDifference order list sub.pubList)).sub,
        (tearDown { sub with pubList := list } (setDifference order sub.pubList list)).actions
          ++ (connect client nodeID
          (tearDown { sub with pubList := list } (setDifference order sub.pubList list)).sub
          (setDifference order list sub.pubList)).actions,
        (connect client nodeID
          (tearDown { sub with pubList := list } (setDifference order sub.pubList list)).sub
          (setDifference order list sub.pubList)).ending⟩ := by
    simp only [onPubList, t1]
  rw [hstep]
  refine ⟨c1, by rw [c2, t3], fun p => ?_, fun p => ?_, fun p uri => ?_,
    fun lhs rhs => setDifference_spec order horder lhs rhs⟩
  · simp only [List.count_append, c3, t2, count_map_quit, add_zero, List.count_eq_of_nodup hdn, hdm p]
  · simp only [List.count_append, c4, t2, count_map_quit, zero_add, hnm p]
  · simp only [List.count_append, c5, t2, count_map_quit, zero_add, hnm p]

/-- An instance of `publisher_list_diff`: with A = {p1, p2}, both connected,
and B = {p2, p3}, the step tears down p1, calls `requestTopic` on p3 and
starts its child subscription at the address the answer gives, and leaves p2
alone. -/
theorem publisher_list_diff_witness :
    (onPubList id
        (fun _ _ _ => (.array [.int32 1, .string "ok",
          .array [.string "TCPROS", .string "host", .int32 9000]], none))
        "/listener"
        { newDefaultSubscriber "/chat" ⟨fun _ => (⟨0⟩, none)⟩ ⟨"onMessage", .func, [.message]⟩ with
          pubList := ["p1", "p2"]
          connections := [("p1", ⟨"host:7001"⟩), ("p2", ⟨"host:7002"⟩)]
          uri2pub := [("host:7001", "p1"), ("host:7002", "p2")] }
        ["p2", "p3"]).ending = .completed ∧
    ∀ p, (onPubList id
        (fun _ _ _ => (.array [.int32 1, .string "ok",
          .array [.string "TCPROS", .string "host", .int32 9000]], none))
        "/listener"
        { newDefaultSubscriber "/chat" ⟨fun _ => (⟨0⟩, none)⟩ ⟨"onMessage", .func, [.message]⟩ with
          pubList := ["p1", "p2"]
          connections := [("p1", ⟨"host:7001"⟩), ("p2", ⟨"host:7002"⟩)]
          uri2pub := [("host:7001", "p1"), ("host:7002", "p2")] }
        ["p2", "p3"]).actions.count (.quit p)
      = if p ∈ ["p1", "p2"] ∧ p ∉ ["p2", "p3"] then 1 else 0 :=
  have h := publisher_list_diff id
    (fun _ _ _ => (.array [.int32 1, .string "ok",
      .array [.string "TCPROS", .string "host", .int32 9000]], none))
    "/listener"
    { newDefaultSubscriber "/chat" ⟨fun _ => (⟨0⟩, none)⟩ ⟨"onMessage", .func, [.message]⟩ with
      pubList := ["p1", "p2"]
      connections := [("p1", ⟨"host:7001"⟩), ("p2", ⟨"host:7002"⟩)]
      uri2pub := [("host:7001", "p1"), ("host:7002", "p2")] }
    ["p2", "p3"]
    (fun l => List.Perm.refl l)
    (by
      intro p hp hn
      simp only [newDefaultSubscriber, List.mem_cons, List.mem_singleton, List.not_mem_nil,
        or_false] at hp hn
      rcases hp with rfl | rfl
      · decide
      · exact absurd (Or.inl rfl) hn)
    (by
      intro p hp hn
      simp only [newDefaultSubscriber, List.mem_cons, List.mem_singleton, List.not_mem_nil,
        or_false] at hp hn
      rcases hp with rfl | rfl
      · exact absurd (Or.inr rfl) hn
      · decide)
  ⟨h.1, h.2.2.1⟩

/-- C11, the defect. The update step is to tear down exactly the publishers
in A and not in B and to initiate connections for exactly those in B and not
in A.  (1) From a new subscriber, an update {p1} whose `requestTopic` call
fails leaves p1 in the list without an entry in the connections table; at the
next update {p3} the step blocks on the nil channel of p1: p1 is not torn
down and p3 is never called.  (2) On a new subscriber, the update {p3, p4}
where the answer of p3 gives the port as a string: the step panics in the
type assertion after the call to p3, and p4 is never called. -/
theorem publisher_list_diff_blocks_or_panics :
    (onPubList id (fun _ _ _ => (.nil, some (.new "connection refused"))) "/listener"
        (newDefaultSubscriber "/chat" ⟨fun _ => (⟨0⟩, none)⟩ ⟨"onMessage", .func, [.message]⟩)
        ["p1"]).ending = .completed ∧
    (onPubList id
        (fun _ _ _ => (.array [.int32 1, .string "ok",
          .array [.string "TCPROS", .string "host", .int32 9000]], none))
        "/listener"
        (onPubList id (fun _ _ _ => (.nil, some (.new "connection refused"))) "/listener"
          (newDefaultSubscriber "/chat" ⟨fun _ => (⟨0⟩, none)⟩ ⟨"onMessage", .func, [.message]⟩)
          ["p1"]).sub
        ["p3"]).ending = .blocked ∧
    (onPubList id
        (fun _ _ _ => (.array [.int32 1, .string "ok",
          .array [.string "TCPROS", .string "host", .int32 9000]], none))
        "/listener"
        (onPubList id (fun _ _ _ => (.nil, some (.new "connection refused"))) "/listener"
          (newDefaultSubscriber "/chat" ⟨fun _ => (⟨0⟩, none)⟩ ⟨"onMessage", .func, [.message]⟩)
          ["p1"]).sub
        ["p3"]).actions = [] ∧
    (onPubList id
        (fun _ _ _ => (.array [.int32 1, .string "ok",
          .array [.string "TCPROS", .string "host", .string "9000"]], none))
        "/listener"
        (newDefaultSubscriber "/chat" ⟨fun _ => (⟨0⟩, none)⟩ ⟨"onMessage", .func, [.message]⟩)
        ["p3", "p4"]).ending = .panicked ∧
    (onPubList id
        (fun _ _ _ => (.array [.int32 1, .string "ok",
          .array [.string "TCPROS", .string "host", .string "9000"]], none))
        "/listener"
        (newDefaultSubscriber "/chat" ⟨fun _ => (⟨0⟩, none)⟩ ⟨"onMessage", .func, [.message]⟩)
        ["p3", "p4"]).actions = [.requestTopic "p3"] := by
  refine ⟨?_, ?_, ?_, ?_, ?_⟩ <;> decide

/-! ## C20: a disconnected publisher and the next update -/

theorem tearDown_actions (a : SubAction) :
    ∀ (dead : List String) (sub : defaultSubscriber),
      a ∈ (tearDown sub dead).actions → ∃ p, a = .quit p
  | [], sub, h => by simp [tearDown] at h
  | p :: rest, sub, h => by
    rw [tearDown] at h
    split at h
    · simp at h
    · rcases List.mem_cons.1 h with h | h
      · exact ⟨p, h⟩
      · exact tearDown_actions a rest _ h

theorem connect_actions (client : XMLClient) (nodeID : String) (a : SubAction) :
    ∀ (new : List String) (sub : defaultSubscriber),
      a ∈ (connect client nodeID sub new).actions →
        ∃ p, p ∈ new ∧ (a = .requestTopic p ∨ ∃ uri, a = .startConn p uri)
  | [], sub, h => by simp [connect] at h
  | q :: rest, sub, h => by
    rw [connect] at h
    split at h
    · simp only [List.mem_singleton] at h
      exact ⟨q, List.mem_cons_self _ _, Or.inl h⟩
    · rename_i uri1 _
      rcases List.mem_cons.1 h with h | h
      · exact ⟨q, List.mem_cons_self _ _, Or.inl h⟩
      · rcases List.mem_cons.1 h with h | h
        · exact ⟨q, List.mem_cons_self _ _, Or.inr ⟨uri1, h⟩⟩
        · obtain ⟨p, hp, hp1⟩ := connect_actions client nodeID a rest _ h
          exact ⟨p, List.mem_cons_of_mem _ hp, hp1⟩
    · rcases List.mem_cons.1 h with h | h
      · exact ⟨q, List.mem_cons_self _ _, Or.inl h⟩
      · obtain ⟨p, hp, hp1⟩ := connect_actions client nodeID a rest _ h
        exact ⟨p, List.mem_cons_of_mem _ hp, hp1⟩

/-- An update step calls `requestTopic` and starts child subscriptions only
for publishers of the new list that are not in `pubList`. -/
theorem onPubList_actions (order : List String → List String)
    (horder : ∀ l, (order l).Perm l) (client : XMLClient) (nodeID : String)
    (sub : defaultSubscriber) (list : List String) (p : String)
    (h : SubAction.requestTopic p ∈ (onPubList order client nodeID sub list).actions ∨
      ∃ uri, SubAction.startConn p uri ∈ (onPubList order client nodeID sub list).actions) :
    p ∈ list ∧ p ∉ sub.pubList := by
  have key : ∀ a, a ∈ (onPubList order client nodeID sub list).actions →
      (∃ q, a = .quit q) ∨ ∃ q, q ∈ setDifference order list sub.pubList ∧
        (a = .requestTopic q ∨ ∃ uri, a = .startConn q uri) := by
    intro a ha
    unfold onPubList at ha
    simp only [] at ha
    split at ha
    · rcases List.mem_append.1 ha with ha | ha
      · exact Or.inl (tearDown_actions a _ _ ha)
      · exact Or.inr (connect_actions client nodeID a _ _ ha)
    · exact Or.inl (tearDown_actions a _ _ ha)
  have hmem := (setDifference_spec order horder list sub.pubList).2
  rcases h with h | ⟨uri, h⟩
  · rcases key _ h with ⟨q, hq⟩ | ⟨q, hq, hq1 | ⟨u, hq1⟩⟩
    · cases hq
    · cases hq1; exact (hmem _).1 hq
    · cases hq1
  · rcases key _ h with ⟨q, hq⟩ | ⟨q, hq, hq1 | ⟨u, hq1⟩⟩
    · cases hq
    · cases hq1
    · cases hq1; exact (hmem _).1 hq

/-- After a child reports a disconnect the publisher list is what it was, so
the next update step makes no `requestTopic` call to, and starts no child
subscription for, any publisher that was in the list, whatever the update
holds. -/
theorem onDisconnected_then_update (order : List String → List String)
    (horder : ∀ l, (order l).Perm l) (client : XMLClient) (nodeID : String)
    (sub : defaultSubscriber) (pubURI : String) (list : List String) (p : String)
    (hp : p ∈ sub.pubList) :
    SubAction.requestTopic p ∉
      (onPubList order client nodeID (onDisconnected sub pubURI) list).actions ∧
    ∀ uri, SubAction.startConn p uri ∉
      (onPubList order client nodeID (onDisconnected sub pubURI) list).actions := by
  refine ⟨fun h => ?_, fun uri h => ?_⟩
  · exact (onPubList_actions order horder client nodeID _ list p (Or.inl h)).2 hp
  · exact (onPubList_actions order horder client nodeID _ list p (Or.inr ⟨uri, h⟩)).2 hp

/-- C20, the defect.  A fresh subscriber learns of publisher `http://p:1`,
whose answer to `requestTopic` names TCPROS at `host:9000`, and starts the
child subscription; the child reports a disconnect, which removes the entries
of both tables and leaves the publisher in `pubList`; the next update, which
again lists `http://p:1`, runs to its end with no `requestTopic` call and no
new child subscription: the publisher stays disconnected. -/
theorem disconnected_peer_not_relearned :
    (onPubList id
        (fun _ _ _ => (.array [.int32 1, .string "ok",
          .array [.string "TCPROS", .string "host", .int32 9000]], none))
        "/listener"
        (newDefaultSubscriber "/chat" ⟨fun _ => (⟨0⟩, none)⟩ ⟨"onMessage", .func, [.message]⟩)
        ["http://p:1"]).actions
      = [.requestTopic "http://p:1", .startConn "http://p:1" "host:9000"] ∧
    (onDisconnected
        (onPubList id
          (fun _ _ _ => (.array [.int32 1, .string "ok",
            .array [.string "TCPROS", .string "host", .int32 9000]], none))
          "/listener"
          (newDefaultSubscriber "/chat" ⟨fun _ => (⟨0⟩, none)⟩ ⟨"onMessage", .func, [.message]⟩)
          ["http://p:1"]).sub
        "host:9000").connections = [] ∧
    (onDisconnected
        (onPubList id
          (fun _ _ _ => (.array [.int32 1, .string "ok",
            .array [.string "TCPROS", .string "host", .int32 9000]], none))
          "/listener"
          (newDefaultSubscriber "/chat" ⟨fun _ => (⟨0⟩, none)⟩ ⟨"onMessage", .func, [.message]⟩)
          ["http://p:1"]).sub
        "host:9000").pubList = ["http://p:1"] ∧
    (onPubList id
        (fun _ _ _ => (.array [.int32 1, .string "ok",
          .array [.string "TCPROS", .string "host", .int32 9000]], none))
        "/listener"
        (onDisconnected
          (onPubList id
            (fun _ _ _ => (.array [.int32 1, .string "ok",
              .array [.string "TCPROS", .string "host", .int32 9000]], none))
            "/listener"
            (newDefaultSubscriber "/chat" ⟨fun _ => (⟨0⟩, none)⟩ ⟨"onMessage", .func, [.message]⟩)
            ["http://p:1"]).sub
          "host:9000")
        ["http://p:1"]).actions = [] ∧
    (onPubList id
        (fun _ _ _ => (.array [.int32 1, .string "ok",
          .array [.string "TCPROS", .string "host", .int32 9000]], none))
        "/listener"
        (onDisconnected
          (onPubList id
            (fun _ _ _ => (.array [.int32 1, .string "ok",
              .array [.string "TCPROS", .string "host", .int32 9000]], none))
            "/listener"
            (newDefaultSubscriber "/chat" ⟨fun _ => (⟨0⟩, none)⟩ ⟨"onMessage", .func, [.message]⟩)
            ["http://p:1"]).sub
          "host:9000")
        ["http://p:1"]).ending = .completed := by
  refine ⟨?_, ?_, ?_, ?_, ?_⟩ <;> decide

/-! ## C21: the result triplet, built and validated -/

/-- C21. Result-triplet round trip: for every code, message and value,
`buildRosAPIResult` returns a sequence of exactly 3 elements
`[code, message, value]` in that order, and the validation performed by
`callRosAPI` on that sequence, returned by the client without error, yields
`value` with a nil error when `code = 1` and a nil value with an error when
`code` is anything else. -/
theorem result_triplet_round_trip (code : Int) (message : String) (value : XmlValue)
    (calleeURI method : String) (args : List XmlValue) :
    buildRosAPIResult code message value = .array [.int32 code, .string message, value] ∧
    (code = 1 →
      callRosAPI (fun _ _ _ => (buildRosAPIResult code message value, none))
        calleeURI method args = (value, none)) ∧
    (code ≠ 1 →
      (callRosAPI (fun _ _ _ => (buildRosAPIResult code message value, none))
        calleeURI method args).1 = .nil ∧
      (callRosAPI (fun _ _ _ => (buildRosAPIResult code message value, none))
        calleeURI method args).2 ≠ none) := by
  refine ⟨rfl, fun h => ?_, fun h => ?_⟩
  · subst h
    simp [callRosAPI, buildRosAPIResult, APIStatusSuccess]
  · simp [callRosAPI, buildRosAPIResult, APIStatusSuccess, h]

/-- Witness for C21: the triplet built from code 1, message `ok` and the
value `"/rosout"` is validated to that value; built from code 0 it is
validated to an error. -/
theorem result_triplet_round_trip_witness :
    callRosAPI (fun _ _ _ => (buildRosAPIResult 1 "ok" (.string "/rosout"), none))
        "http://master:11311" "lookupNode" [] = (.string "/rosout", none) ∧
    (callRosAPI (fun _ _ _ => (buildRosAPIResult 0 "no" (.string "/rosout"), none))
        "http://master:11311" "lookupNode" []).2 ≠ none :=
  ⟨(result_triplet_round_trip 1 "ok" (.string "/rosout") "http://master:11311" "lookupNode"
      []).2.1 rfl,
   ((result_triplet_round_trip 0 "no" (.string "/rosout") "http://master:11311" "lookupNode"
      []).2.2 (by decide)).2⟩

/-! ## C26: `SendGoalAndWait` and a failed `SendGoal` -/

/-- C26. `SendGoalAndWait` does not surface a `SendGoal` failure: for every
goal for which the underlying action client's `SendGoal` returns an error `e`,
`SendGoal` returns `e` and leaves the client with no tracked goal and simple
state Pending; `SendGoalAndWait` drops that error, each of its two waits
returns false at once, using up no pass of the wait loop, and it returns
status 9 together with the error of `GetState`, "called get state when no goal
running", whatever `e` is. -/
theorem sendGoalAndWait_hides_sendGoal_error (sc : simpleActionClient)
    (gh : ClientGoalHandler) (e : Error) (executeTimeout preeptTimeout : Duration)
    (ghCancel : Option Error) (passes : List WaitPass) :
    (SendGoal sc none none none (gh, some e)).1 = some e ∧
    (SendGoal sc none none none (gh, some e)).2.gh = none ∧
    (SendGoal sc none none none (gh, some e)).2.simpleState = SimpleStatePending ∧
    WaitForResult (SendGoal sc none none none (gh, some e)).2 executeTimeout passes
      = some (false, (SendGoal sc none none none (gh, some e)).2, passes) ∧
    WaitForResult (SendGoal sc none none none (gh, some e)).2 preeptTimeout passes
      = some (false, (SendGoal sc none none none (gh, some e)).2, passes) ∧
    SendGoalAndWait sc (gh, some e) executeTimeout preeptTimeout ghCancel passes
      = some ((9, some (.new "called get state when no goal running")),
          (SendGoal sc none none none (gh, some e)).2) := by
  have hgh : (SendGoal sc none none none (gh, some e)).2.gh = none := rfl
  have hw : ∀ t, WaitForResult (SendGoal sc none none none (gh, some e)).2 t passes
      = some (false, (SendGoal sc none none none (gh, some e)).2, passes) := by
    intro t
    simp only [WaitForResult, hgh]
  refine ⟨rfl, hgh, rfl, hw _, hw _, ?_⟩
  simp only [SendGoalAndWait, hw, GetState, hgh]

/-! ## C30: the pre-check and the allocation -/

/-- C30, the defect. The pre-check is to bound the allocation for every
machine-integer size, so that `DecodeInt64Array` with `size = 2^61` and
`DecodeInt16Array` with `size = -2^63` on an empty buffer return an error.
In both calls the product wraps to `0`, `CheckSize` passes, and the
allocation is reached with a size that is not between 0 and the number of
remaining bytes: `make` panics. -/
theorem precheck_wraps_before_allocation :
    wrap64 (2 ^ 61 * 8) = 0 ∧ CheckSize [] (wrap64 (2 ^ 61 * 8)) = none ∧
    ¬ ((2 ^ 61 : Int) ≤ (([] : Reader).length : Int)) ∧
    DecodeInt64Array [] (2 ^ 61) = (.panicked, []) ∧
    wrap64 (-2 ^ 63 * 2) = 0 ∧ CheckSize [] (wrap64 (-2 ^ 63 * 2)) = none ∧
    ¬ ((0 : Int) ≤ -2 ^ 63) ∧
    DecodeInt16Array [] (-2 ^ 63) = (.panicked, []) := by
  with_unfolding_all decide

/-! ## C22: `Shutdown` and the loop of `start` -/

theorem Shutdown_consistent (st : ShutdownState) (h : st.consistent) :
    (Shutdown st).consistent := by
  obtain ⟨c, l, k, o, a⟩ := st
  simp only [ShutdownState.consistent, Shutdown, shutdownChanCap] at h ⊢
  rcases h with ⟨h1, h2, h3⟩ | ⟨h1, ⟨h2, h3⟩ | ⟨h2, h3⟩⟩
  · subst h2
    by_cases hc : o < 2 * k
    · simp only [hc, h1, if_true, Nat.zero_lt_succ, Nat.zero_add]
      exact Or.inr ⟨by omega, Or.inl ⟨trivial, h3⟩⟩
    · simp only [hc, if_false]
      exact Or.inl ⟨h1, trivial, h3⟩
  · subst h2
    have hne : ¬ (o % 2 = 0) := by omega
    by_cases hc : o < 2 * k
    · simp only [hc, hne, if_true, if_false, Nat.zero_lt_one, Nat.sub_self]
      exact Or.inl ⟨by omega, trivial, h3⟩
    · simp only [hc, if_false]
      exact Or.inr ⟨h1, Or.inl ⟨trivial, h3⟩⟩
  · subst h2
    have hne : ¬ (o % 2 = 0) := by omega
    by_cases hc : o < 2 * k
    · simp only [hc, hne, if_true, if_false, Nat.lt_irrefl]
      exact Or.inr ⟨h1, Or.inr ⟨trivial, h3⟩⟩
    · simp only [hc, if_false]
      exact Or.inr ⟨h1, Or.inr ⟨trivial, h3⟩⟩

theorem shutdownCase_consistent (st : ShutdownState) (h : st.consistent) :
    (shutdownCase st).consistent := by
  obtain ⟨c, l, k, o, a⟩ := st
  simp only [ShutdownState.consistent, shutdownCase, shutdownChanCap] at h ⊢
  rcases h with ⟨h1, h2, h3⟩ | ⟨h1, ⟨h2, h3⟩ | ⟨h2, h3⟩⟩
  · subst h2
    cases l with
    | running => exact Or.inl ⟨h1, rfl, h3⟩
    | closing => exact absurd rfl h3
    | exited => exact Or.inl ⟨h1, rfl, h3⟩
  · subst h2
    cases l with
    | running => exact Or.inr ⟨h1, Or.inr ⟨rfl, rfl⟩⟩
    | closing => exact absurd rfl h3
    | exited => exact Or.inr ⟨h1, Or.inl ⟨rfl, h3⟩⟩
  · subst h2
    subst h3
    exact Or.inr ⟨h1, Or.inl ⟨rfl, by simp⟩⟩

theorem interleave_cons (st : ShutdownState) (t : Turn) (turns : List Turn) :
    interleave st (t :: turns) =
      interleave (match t with | .caller => Shutdown st | .loop => shutdownCase st) turns := by
  unfold interleave
  rw [List.foldl_cons]

theorem interleave_consistent (turns : List Turn) :
    ∀ st : ShutdownState, st.consistent → (interleave st turns).consistent := by
  induction turns with
  | nil => intro st h; exact h
  | cons t turns ih =>
    intro st h
    rw [interleave_cons]
    cases t with
    | caller => exact ih _ (Shutdown_consistent st h)
    | loop => exact ih _ (shutdownCase_consistent st h)

theorem interleave_calls (turns : List Turn) :
    ∀ st : ShutdownState, (interleave st turns).calls = st.calls := by
  induction turns with
  | nil => intro st; rfl
  | cons t turns ih =>
    intro st
    rw [interleave_cons, ih]
    obtain ⟨c, l, k, o, a⟩ := st
    cases t with
    | caller =>
      simp only [Shutdown]
      split_ifs <;> rfl
    | loop =>
      cases l <;> simp only [shutdownCase] <;> split_ifs <;> rfl

/-- No call of `Shutdown` blocks for ever: whatever turns the two goroutines
have taken since the subscriber was created, the channel operation the caller
is in completes once the loop, if it is inside the shutdown case, has been
given its turns. -/
theorem Shutdown_completes (calls : Nat) (turns : List Turn)
    (h : (interleave ⟨0, .running, calls, 0, 0⟩ turns).ops < 2 * calls) :
    (interleave (interleave ⟨0, .running, calls, 0, 0⟩ turns) [.loop, .loop, .caller]).ops
      = (interleave ⟨0, .running, calls, 0, 0⟩ turns).ops + 1 := by
  have hinv := interleave_consistent turns ⟨0, .running, calls, 0, 0⟩
    (Or.inl ⟨rfl, rfl, by simp⟩)
  have hc := interleave_calls turns ⟨0, .running, calls, 0, 0⟩
  generalize interleave ⟨0, .running, calls, 0, 0⟩ turns = st at h hinv hc
  obtain ⟨c, l, k, o, a⟩ := st
  simp only [] at h hc
  subst hc
  simp only [ShutdownState.consistent] at hinv
  rcases hinv with ⟨h1, h2, h3⟩ | ⟨h1, ⟨h2, h3⟩ | ⟨h2, h3⟩⟩
  · subst h2
    cases l with
    | running => simp [interleave, shutdownCase, Shutdown, h, h1, shutdownChanCap]
    | closing => exact absurd rfl h3
    | exited => simp [interleave, shutdownCase, Shutdown, h, h1, shutdownChanCap]
  · subst h2
    have hne : ¬ (o % 2 = 0) := by omega
    cases l with
    | running => simp [interleave, shutdownCase, Shutdown, h, hne, shutdownChanCap]
    | closing => exact absurd rfl h3
    | exited => simp [interleave, shutdownCase, Shutdown, h, hne, shutdownChanCap]
  · subst h2
    subst h3
    have hne : ¬ (o % 2 = 0) := by omega
    simp [interleave, shutdownCase, Shutdown, h, hne, shutdownChanCap]

/-- When the loop takes its turns between the send and the receive of the
first call, the three calls go as the specification has it: one request, one
acknowledgment, the loop exits, and each of the three calls returns. -/
theorem Shutdown_answered_when_loop_takes_its_turn :
    interleave ⟨0, .running, 3, 0, 0⟩
        [.caller, .loop, .loop, .caller, .caller, .caller, .caller, .caller]
      = ⟨0, .exited, 3, 6, 1⟩ := by
  decide

/-- C22, the defect. A call of `Shutdown` on a subscriber whose loop is
running is to make the loop acknowledge and exit.  `shutdownChan` is buffered
and carries both the request and the acknowledgment: when the loop is inside
the body of another case while `Shutdown` runs, the send leaves the token in
the buffer and the receive of `Shutdown` takes the same token back.
`Shutdown` has returned, the loop has sent no acknowledgment and is still
running, the buffer is empty, and no later turn of either goroutine changes
that: the loop never learns of the request. -/
theorem shutdown_returns_with_loop_running :
    interleave ⟨0, .running, 1, 0, 0⟩ [.caller, .caller] = ⟨0, .running, 1, 2, 0⟩ ∧
    (interleave ⟨0, .running, 1, 0, 0⟩ [.caller, .caller]).returned = 1 ∧
    ∀ turns : List Turn,
      interleave ⟨0, .running, 1, 0, 0⟩ (.caller :: .caller :: turns)
        = ⟨0, .running, 1, 2, 0⟩ := by
  refine ⟨by decide, by decide, fun turns => ?_⟩
  rw [interleave_cons, interleave_cons]
  have h0 : Shutdown (Shutdown ⟨0, .running, 1, 0, 0⟩) = ⟨0, .running, 1, 2, 0⟩ := by decide
  simp only [h0]
  induction turns with
  | nil => rfl
  | cons t turns ih =>
    rw [interleave_cons]
    cases t with
    | caller =>
      have : Shutdown ⟨0, .running, 1, 2, 0⟩ = ⟨0, .running, 1, 2, 0⟩ := by decide
      simp only [this]
      exact ih
    | loop =>
      have : shutdownCase ⟨0, .running, 1, 2, 0⟩ = ⟨0, .running, 1, 2, 0⟩ := by decide
      simp only [this]
      exact ih

/-! ## C23, C24: the publisher list and the connections table -/

/-- C23, the defect. The publishers in `pubList` are to be exactly the keys
of the connections table in every reachable state.  From a fresh subscriber:
(1) an update that lists `http://p:1`, whose `requestTopic` call fails, runs
to its end with `http://p:1` in `pubList` and no key in `connections`; (2) so
does an update whose `requestTopic` answer names the protocol UDPROS; (3) an
update whose answer names TCPROS gives `http://p:1` its key, and the
disconnect notification of its child then removes the key and leaves
`http://p:1` in `pubList`. -/
theorem pubList_and_connections_differ :
    ((onPubList id (fun _ _ _ => (.nil, some (.new "connection refused"))) "/listener"
        (newDefaultSubscriber "/chat" ⟨fun _ => (⟨0⟩, none)⟩ ⟨"onMessage", .func, [.message]⟩)
        ["http://p:1"]).ending = .completed ∧
      (onPubList id (fun _ _ _ => (.nil, some (.new "connection refused"))) "/listener"
        (newDefaultSubscriber "/chat" ⟨fun _ => (⟨0⟩, none)⟩ ⟨"onMessage", .func, [.message]⟩)
        ["http://p:1"]).sub.pubList = ["http://p:1"] ∧
      mapKeys (onPubList id (fun _ _ _ => (.nil, some (.new "connection refused"))) "/listener"
        (newDefaultSubscriber "/chat" ⟨fun _ => (⟨0⟩, none)⟩ ⟨"onMessage", .func, [.message]⟩)
        ["http://p:1"]).sub.connections = []) ∧
    ((onPubList id
        (fun _ _ _ => (.array [.int32 1, .string "ok",
          .array [.string "UDPROS", .string "host", .int32 9000]], none))
        "/listener"
        (newDefaultSubscriber "/chat" ⟨fun _ => (⟨0⟩, none)⟩ ⟨"onMessage", .func, [.message]⟩)
        ["http://p:1"]).ending = .completed ∧
      (onPubList id
        (fun _ _ _ => (.array [.int32 1, .string "ok",
          .array [.string "UDPROS", .string "host", .int32 9000]], none))
        "/listener"
        (newDefaultSubscriber "/chat" ⟨fun _ => (⟨0⟩, none)⟩ ⟨"onMessage", .func, [.message]⟩)
        ["http://p:1"]).sub.pubList = ["http://p:1"] ∧
      mapKeys (onPubList id
        (fun _ _ _ => (.array [.int32 1, .string "ok",
          .array [.string "UDPROS", .string "host", .int32 9000]], none))
        "/listener"
        (newDefaultSubscriber "/chat" ⟨fun _ => (⟨0⟩, none)⟩ ⟨"onMessage", .func, [.message]⟩)
        ["http://p:1"]).sub.connections = []) ∧
    (mapKeys (onPubList id
        (fun _ _ _ => (.array [.int32 1, .string "ok",
          .array [.string "TCPROS", .string "host", .int32 9000]], none))
        "/listener"
        (newDefaultSubscriber "/chat" ⟨fun _ => (⟨0⟩, none)⟩ ⟨"onMessage", .func, [.message]⟩)
        ["http://p:1"]).sub.connections = ["http://p:1"] ∧
      (onDisconnected
        (onPubList id
          (fun _ _ _ => (.array [.int32 1, .string "ok",
            .array [.string "TCPROS", .string "host", .int32 9000]], none))
          "/listener"
          (newDefaultSubscriber "/chat" ⟨fun _ => (⟨0⟩, none)⟩ ⟨"onMessage", .func, [.message]⟩)
          ["http://p:1"]).sub
        "host:9000").pubList = ["http://p:1"] ∧
      mapKeys (onDisconnected
        (onPubList id
          (fun _ _ _ => (.array [.int32 1, .string "ok",
            .array [.string "TCPROS", .string "host", .int32 9000]], none))
          "/listener"
          (newDefaultSubscriber "/chat" ⟨fun _ => (⟨0⟩, none)⟩ ⟨"onMessage", .func, [.message]⟩)
          ["http://p:1"]).sub
        "host:9000").connections = []) := by
  refine ⟨⟨?_, ?_, ?_⟩, ⟨?_, ?_, ?_⟩, ⟨?_, ?_, ?_⟩⟩ <;> decide

/-- C24, the defect. Every publisher computed as removed is to have its
entry in the connections table when the teardown loop reaches it.  (1) A fresh
subscriber takes the update `[http://p:1]`, whose `requestTopic` call fails,
and then the update `[]`: `http://p:1` is computed as removed, its lookup in
`connections` finds no entry, and the step blocks on the send to the nil
channel without having sent a signal.  (2) The same happens when
`http://p:1` was connected and its child has reported a disconnect before the
update `[]` arrives. -/
theorem teardown_without_connection_blocks :
    (setDifference id
        (onPubList id (fun _ _ _ => (.nil, some (.new "connection refused"))) "/listener"
          (newDefaultSubscriber "/chat" ⟨fun _ => (⟨0⟩, none)⟩ ⟨"onMessage", .func, [.message]⟩)
          ["http://p:1"]).sub.pubList [] = ["http://p:1"] ∧
      mapGet
        (onPubList id (fun _ _ _ => (.nil, some (.new "connection refused"))) "/listener"
          (newDefaultSubscriber "/chat" ⟨fun _ => (⟨0⟩, none)⟩ ⟨"onMessage", .func, [.message]⟩)
          ["http://p:1"]).sub.connections "http://p:1" = none ∧
      (onPubList id (fun _ _ _ => (.nil, some (.new "connection refused"))) "/listener"
        (onPubList id (fun _ _ _ => (.nil, some (.new "connection refused"))) "/listener"
          (newDefaultSubscriber "/chat" ⟨fun _ => (⟨0⟩, none)⟩ ⟨"onMessage", .func, [.message]⟩)
          ["http://p:1"]).sub
        []).ending = .blocked ∧
      (onPubList id (fun _ _ _ => (.nil, some (.new "connection refused"))) "/listener"
        (onPubList id (fun _ _ _ => (.nil, some (.new "connection refused"))) "/listener"
          (newDefaultSubscriber "/chat" ⟨fun _ => (⟨0⟩, none)⟩ ⟨"onMessage", .func, [.message]⟩)
          ["http://p:1"]).sub
        []).actions = []) ∧
    (mapGet
        (onDisconnected
          (onPubList id
            (fun _ _ _ => (.array [.int32 1, .string "ok",
              .array [.string "TCPROS", .string "host", .int32 9000]], none))
            "/listener"
            (newDefaultSubscriber "/chat" ⟨fun _ => (⟨0⟩, none)⟩ ⟨"onMessage", .func, [.message]⟩)
            ["http://p:1"]).sub
          "host:9000").connections "http://p:1" = none ∧
      (onPubList id
        (fun _ _ _ => (.array [.int32 1, .string "ok",
          .array [.string "TCPROS", .string "host", .int32 9000]], none))
        "/listener"
        (onDisconnected
          (onPubList id
            (fun _ _ _ => (.array [.int32 1, .string "ok",
              .array [.string "TCPROS", .string "host", .int32 9000]], none))
            "/listener"
            (newDefaultSubscriber "/chat" ⟨fun _ => (⟨0⟩, none)⟩ ⟨"onMessage", .func, [.message]⟩)
            ["http://p:1"]).sub
          "host:9000")
        []).ending = .blocked ∧
      (onPubList id
        (fun _ _ _ => (.array [.int32 1, .string "ok",
          .array [.string "TCPROS", .string "host", .int32 9000]], none))
        "/listener"
        (onDisconnected
          (onPubList id
            (fun _ _ _ => (.array [.int32 1, .string "ok",
              .array [.string "TCPROS", .string "host", .int32 9000]], none))
            "/listener"
            (newDefaultSubscriber "/chat" ⟨fun _ => (⟨0⟩, none)⟩ ⟨"onMessage", .func, [.message]⟩)
            ["http://p:1"]).sub
          "host:9000")
        []).actions = []) := by
  refine ⟨⟨?_, ?_, ?_, ?_⟩, ⟨?_, ?_, ?_⟩⟩ <;> decide

/-! ## C29: goal IDs of one generator are pairwise distinct -/

theorem digitChar_decimal (k : Nat) (hk : k < 10) :
    Nat.digitChar k ≠ '-' ∧ (Nat.digitChar k).toNat - 48 = k := by
  interval_cases k <;> exact ⟨by decide, by decide⟩

/-- The digits that `toDigitsCore` puts before `ds`, given fuel enough: none
is `-`, and read back as a decimal numeral they give `n`. -/
theorem toDigitsCore_decimal : ∀ (fuel n : Nat) (ds : List Char), n < fuel →
    ∃ l : List Char, Nat.toDigitsCore 10 fuel n ds = l ++ ds ∧ (∀ c ∈ l, c ≠ '-') ∧
      l.foldl (fun acc c => acc * 10 + (c.toNat - 48)) 0 = n
  | 0, n, ds, h => absurd h (Nat.not_lt_zero n)
  | fuel + 1, n, ds, h => by
    obtain ⟨hd1, hd2⟩ := digitChar_decimal (n % 10) (Nat.mod_lt n (by decide))
    by_cases h0 : n / 10 = 0
    · refine ⟨[Nat.digitChar (n % 10)], ?_, ?_, ?_⟩
      · simp [Nat.toDigitsCore, h0]
      · intro c hc
        rw [List.mem_singleton] at hc
        rw [hc]; exact hd1
      · simp only [List.foldl_cons, List.foldl_nil, hd2]
        omega
    · obtain ⟨l, hl1, hl2, hl3⟩ := toDigitsCore_decimal fuel (n / 10)
        (Nat.digitChar (n % 10) :: ds) (by omega)
      refine ⟨l ++ [Nat.digitChar (n % 10)], ?_, ?_, ?_⟩
      · simp [Nat.toDigitsCore, h0, hl1]
      · intro c hc
        rcases List.mem_append.1 hc with hc | hc
        · exact hl2 c hc
        · rw [List.mem_singleton] at hc
          rw [hc]; exact hd1
      · rw [List.foldl_append, hl3]
        simp only [List.foldl_cons, List.foldl_nil, hd2]
        omega

/-- The decimal rendering of a natural number holds no `-` and determines the
number. -/
theorem toString_nat_decimal (n : Nat) :
    (∀ c ∈ (toString n).data, c ≠ '-') ∧
    (toString n).data.foldl (fun acc c => acc * 10 + (c.toNat - 48)) 0 = n := by
  obtain ⟨l, hl1, hl2, hl3⟩ := toDigitsCore_decimal (n + 1) n [] (Nat.lt_succ_self n)
  have hdata : (toString n).data = l := by
    show (Nat.toDigits 10 n) = l
    unfold Nat.toDigits
    rw [hl1, List.append_nil]
  rw [hdata]
  exact ⟨hl2, hl3⟩

theorem append_dash_cancel : ∀ (l1 l2 x y : List Char),
    (∀ c ∈ l1, c ≠ '-') → (∀ c ∈ l2, c ≠ '-') →
    l1 ++ '-' :: x = l2 ++ '-' :: y → l1 = l2
  | [], [], _, _, _, _, _ => rfl
  | [], b :: l2, x, y, _, h2, h => by
    simp only [List.nil_append, List.cons_append, List.cons.injEq] at h
    exact absurd h.1.symm (h2 b (List.mem_cons_self _ _))
  | a :: l1, [], x, y, h1, _, h => by
    simp only [List.nil_append, List.cons_append, List.cons.injEq] at h
    exact absurd h.1 (h1 a (List.mem_cons_self _ _))
  | a :: l1, b :: l2, x, y, h1, h2, h => by
    simp only [List.cons_append, List.cons.injEq] at h
    rw [h.1, append_dash_cancel l1 l2 x y (fun c hc => h1 c (List.mem_cons_of_mem _ hc))
      (fun c hc => h2 c (List.mem_cons_of_mem _ hc)) h.2]

/-- Two IDs with the same node name and different counter values differ,
whatever the clock fields are. -/
theorem id_strings_differ (nodeName t1 t2 : String) (i j : Nat) (hij : i ≠ j) :
    nodeName ++ "-" ++ toString i ++ "-" ++ t1 ≠ nodeName ++ "-" ++ toString j ++ "-" ++ t2 := by
  intro h
  have hd := congrArg String.data h
  simp only [String.data_append] at hd
  simp only [List.append_assoc, List.singleton_append] at hd
  have h1 := List.append_cancel_left hd
  simp only [List.cons_append, List.cons.injEq, true_and] at h1
  have h2 := append_dash_cancel _ _ _ _ (toString_nat_decimal i).1 (toString_nat_decimal j).1 h1
  have h3 := (toString_nat_decimal i).2
  rw [h2, (toString_nat_decimal j).2] at h3
  exact hij h3.symm

/-- The `n`-th ID while the counter has not overflowed. -/
theorem nthID_of_lt (nodeName : String) (clock : Nat → Time) (n : Nat)
    (h1 : 1 ≤ n) (h2 : n < 2 ^ 63) :
    nthID nodeName clock n =
      nodeName ++ "-" ++ toString n ++ "-"
        ++ (toString (clock n).Sec ++ "-" ++ toString (clock n).NSec) := by
  rw [nthID_eq, generatorAfter_goals nodeName clock (n - 1) (by omega),
    wrap64_of_range _ (by omega) (by omega)]
  have hn : ((n - 1 : Nat) : Int) + 1 = ((n : Nat) : Int) := by omega
  rw [hn]
  simp only [String.append_assoc]
  rfl

/-- C29. Goal IDs of one generator are pairwise distinct: for every node name
and every sequence of clock readings (identical or decreasing ones included),
the strings returned by the `i`-th and the `j`-th call of `generateID` on the
same generator differ when `i` and `j` differ, as long as the counter has not
overflowed (`i, j < 2^63`). -/
theorem goal_ids_pairwise_distinct (nodeName : String) (clock : Nat → Time) (i j : Nat)
    (hi : 1 ≤ i) (hj : 1 ≤ j) (hi2 : i < 2 ^ 63) (hj2 : j < 2 ^ 63) (hij : i ≠ j) :
    nthID nodeName clock i ≠ nthID nodeName clock j := by
  rw [nthID_of_lt nodeName clock i hi hi2, nthID_of_lt nodeName clock j hj hj2]
  exact id_strings_differ nodeName _ _ i j hij

/-- Witness for C29: with a clock that always reads second 1000, nanosecond 0,
the first and the second ID of node `/talker` differ. -/
theorem goal_ids_pairwise_distinct_witness :
    nthID "/talker" (fun _ => ⟨1000, 0⟩) 1 ≠ nthID "/talker" (fun _ => ⟨1000, 0⟩) 2 :=
  goal_ids_pairwise_distinct "/talker" (fun _ => ⟨1000, 0⟩) 1 2 (by decide) (by decide)
    (by decide) (by decide) (by decide)

/-! ## C25, C27, C28: array decoders and repeated scalar decoding -/

theorem scalarCalls_succ {α : Type} (dec : Reader → Outcome α × Reader) (n : Nat)
    (buf : Reader) (vs : List α) (r : Reader) :
    scalarCalls dec (n + 1) buf = some (vs, r) ↔
      ∃ v buf1 vs1, dec buf = (.returned v none, buf1) ∧
        scalarCalls dec n buf1 = some (vs1, r) ∧ vs = v :: vs1 := by
  rw [scalarCalls]
  rcases hd : dec buf with ⟨o, buf1⟩
  cases o with
  | panicked => simp
  | returned v e =>
    cases e with
    | some e => simp
    | none =>
      simp only []
      cases hs : scalarCalls dec n buf1 with
      | none =>
        constructor
        · intro h; cases h
        · rintro ⟨v1, b1, vs2, hdec, hh, _⟩
          simp only [Prod.mk.injEq, Outcome.returned.injEq, and_true] at hdec
          obtain ⟨_, hb⟩ := hdec
          subst hb
          rw [hs] at hh
          cases hh
      | some p =>
        obtain ⟨vs1, r1⟩ := p
        constructor
        · intro h
          simp only [Option.some.injEq, Prod.mk.injEq] at h
          exact ⟨v, buf1, vs1, rfl, by rw [← h.2]; exact hs, h.1.symm⟩
        · rintro ⟨v1, b1, vs2, hdec, hh, hvs⟩
          simp only [Prod.mk.injEq, Outcome.returned.injEq, and_true] at hdec
          obtain ⟨hv, hb⟩ := hdec
          subst hv; subst hb
          rw [hs] at hh
          simp only [Option.some.injEq, Prod.mk.injEq] at hh
          simp only [Option.some.injEq, Prod.mk.injEq]
          exact ⟨by rw [hvs, hh.1], hh.2⟩

theorem scalarCalls_length {α : Type} (dec : Reader → Outcome α × Reader) :
    ∀ (n : Nat) (buf : Reader) (vs : List α) (r : Reader),
      scalarCalls dec n buf = some (vs, r) → vs.length = n
  | 0, buf, vs, r, h => by
    simp only [scalarCalls, Option.some.injEq, Prod.mk.injEq] at h
    rw [← h.1]; rfl
  | n + 1, buf, vs, r, h => by
    obtain ⟨v, buf1, vs1, _, h2, h3⟩ := (scalarCalls_succ dec n buf vs r).1 h
    rw [h3, List.length_cons, scalarCalls_length dec n buf1 vs1 r h2]

/-- When each successful call takes at least `w` bytes, `n` successful calls
take at least `n * w`. -/
theorem scalarCalls_consumes {α : Type} (dec : Reader → Outcome α × Reader) (w : Nat)
    (hmin : ∀ buf v r, dec buf = (.returned v none, r) → r.length + w ≤ buf.length) :
    ∀ (n : Nat) (buf : Reader) (vs : List α) (r : Reader),
      scalarCalls dec n buf = some (vs, r) → r.length + n * w ≤ buf.length
  | 0, buf, vs, r, h => by
    simp only [scalarCalls, Option.some.injEq, Prod.mk.injEq] at h
    rw [← h.2]; omega
  | n + 1, buf, vs, r, h => by
    obtain ⟨v, buf1, vs1, h1, h2, _⟩ := (scalarCalls_succ dec n buf vs r).1 h
    have ha := hmin buf v buf1 h1
    have hb := scalarCalls_consumes dec w hmin n buf1 vs1 r h2
    have : (n + 1) * w = n * w + w := by ring
    omega

/-- When each call on `w` bytes or more succeeds and takes exactly `w`, `n`
calls on `n * w` bytes or more succeed and take exactly `n * w`. -/
theorem scalarCalls_of_width {α : Type} (dec : Reader → Outcome α × Reader) (w : Nat)
    (f : Reader → α)
    (hd1 : ∀ buf, w ≤ buf.length → dec buf = (.returned (f buf) none, buf.drop w)) :
    ∀ (n : Nat) (buf : Reader), n * w ≤ buf.length →
      ∃ vs, scalarCalls dec n buf = some (vs, buf.drop (n * w))
  | 0, buf, _ => ⟨[], by simp [scalarCalls]⟩
  | n + 1, buf, h => by
    have hexp : (n + 1) * w = w + n * w := by ring
    have hw : w ≤ buf.length := by omega
    obtain ⟨vs, hvs⟩ := scalarCalls_of_width dec w f hd1 n (buf.drop w)
      (by rw [List.length_drop]; omega)
    refine ⟨f buf :: vs, ?_⟩
    rw [scalarCalls_succ]
    refine ⟨f buf, buf.drop w, vs, hd1 buf hw, ?_, rfl⟩
    rw [hvs, List.drop_drop, hexp]

/-- The element loop succeeds exactly when the successive scalar calls do,
and then holds their values at the indices it went through. -/
theorem decodeLoop_success_iff {α : Type} (body : Reader → Outcome (Option α) × Reader)
    (dec : Reader → Outcome α × Reader)
    (hagree : ∀ buf s r, body buf = (.returned s none, r) ↔
      ∃ v, s = some v ∧ dec buf = (.returned v none, r)) :
    ∀ (n i : Nat) (slice : List α) (buf : Reader) (s : List α) (r : Reader),
      i + n ≤ slice.length →
      (decodeLoop body n i slice buf = (.returned s none, r) ↔
        ∃ vs, scalarCalls dec n buf = some (vs, r) ∧
          s = slice.take i ++ vs ++ slice.drop (i + n))
  | 0, i, slice, buf, s, r, _ => by
    simp only [decodeLoop, scalarCalls, Prod.mk.injEq, Outcome.returned.injEq, and_true,
      Option.some.injEq, Nat.add_zero]
    constructor
    · rintro ⟨h1, h2⟩
      exact ⟨[], ⟨rfl, h2⟩, by rw [← h1]; simp⟩
    · rintro ⟨vs, ⟨h1, h2⟩, h3⟩
      refine ⟨?_, h2⟩
      rw [h3, ← h1]; simp
  | n + 1, i, slice, buf, s, r, hlen => by
    rw [decodeLoop]
    simp only [scalarCalls_succ]
    rcases hb : body buf with ⟨o, buf1⟩
    cases o with
    | panicked =>
      simp only [Prod.mk.injEq, false_and, false_iff, not_exists, not_and, reduceCtorEq]
      rintro vs ⟨v, b1, vs1, hdec, _, _⟩ _
      have := (hagree buf (some v) b1).2 ⟨v, rfl, hdec⟩
      rw [hb] at this
      simp at this
    | returned w e =>
      cases e with
      | some e =>
        simp only [Prod.mk.injEq, Outcome.returned.injEq, reduceCtorEq, and_false, false_and,
          false_iff, not_exists, not_and]
        rintro vs ⟨v, b1, vs1, hdec, _, _⟩ _
        have := (hagree buf (some v) b1).2 ⟨v, rfl, hdec⟩
        rw [hb] at this
        simp at this
      | none =>
        obtain ⟨v, hw, hdec⟩ := (hagree buf w buf1).1 hb
        subst hw
        simp only []
        have hi : i < slice.length := by omega
        rw [decodeLoop_success_iff body dec hagree n (i + 1) (slice.set i v) buf1 s r
          (by rw [List.length_set]; omega)]
        have htake : (slice.set i v).take (i + 1) = slice.take i ++ [v] :=
          set_take_succ slice i v hi
        have hdrop : (slice.set i v).drop (i + 1 + n) = slice.drop (i + (n + 1)) := by
          rw [List.drop_set_of_lt _ _ (by omega)]
          congr 1; omega
        rw [htake, hdrop]
        constructor
        · rintro ⟨vs, h1, h2⟩
          exact ⟨v :: vs, ⟨v, buf1, vs, hdec, h1, rfl⟩, by rw [h2]; simp⟩
        · rintro ⟨vs, ⟨v1, b1, vs1, hd1, h1, hvs⟩, h2⟩
          rw [hdec] at hd1
          simp only [Prod.mk.injEq, Outcome.returned.injEq, and_true] at hd1
          obtain ⟨hv, hb1⟩ := hd1
          subst hv; subst hb1
          exact ⟨vs1, h1, by rw [h2, hvs]; simp⟩
theorem scalarCalls_of_takesExactly {α : Type} (dec : Reader → Outcome α × Reader) (w : Nat)
    (hd : takesExactly w dec) :
    ∀ (n : Nat) (buf : Reader), n * w ≤ buf.length →
      ∃ vs, scalarCalls dec n buf = some (vs, buf.drop (n * w))
  | 0, buf, _ => ⟨[], by simp [scalarCalls]⟩
  | n + 1, buf, h => by
    have hexp : (n + 1) * w = w + n * w := by ring
    have hw : w ≤ buf.length := by omega
    obtain ⟨v, hv⟩ := hd buf hw
    obtain ⟨vs, hvs⟩ := scalarCalls_of_takesExactly dec w hd n (buf.drop w)
      (by rw [List.length_drop]; omega)
    refine ⟨v :: vs, ?_⟩
    rw [scalarCalls_succ]
    refine ⟨v, buf.drop w, vs, hv, ?_, rfl⟩
    rw [hvs, List.drop_drop, hexp]

theorem makeSlice_some {α : Type} (elemSize : Nat) (zero : α) (n : Nat) (slice : List α)
    (h : makeSlice elemSize zero (n : Int) = some slice) : slice = List.replicate n zero := by
  unfold makeSlice at h
  split at h
  · cases h
  · simp only [Option.some.injEq, Int.toNat_ofNat] at h
    exact h.symm

/-- The frame of the array decoders against repeated scalar decoding: when
the loop body agrees with the scalar decoder, and the pre-check and the
allocation go through whenever the buffer holds `n * w` bytes, the array
decoder succeeds exactly when the `n` scalar calls do, with the same values
and the same reader. -/
theorem decodeArray_success_iff {α : Type} (what : String) (elemSize : Nat) (zero : α)
    (checked : Int) (body : Reader → Outcome (Option α) × Reader)
    (dec : Reader → Outcome α × Reader) (w : Nat) (hagree : elementAgrees w body dec)
    (buf : Reader) (n : Nat)
    (hchecked : n * w ≤ buf.length → CheckSize buf checked = none)
    (halloc : n * w ≤ buf.length → n * elemSize ≤ maxAlloc)
    (vs : List α) (r : Reader) :
    decodeArray what elemSize zero checked body buf (n : Int) = (.returned (some vs) none, r) ↔
      scalarCalls dec n buf = some (vs, r) := by
  have hloop := decodeLoop_success_iff body dec hagree.1 n 0 (List.replicate n zero) buf vs r
    (by simp)
  have hshape : ∀ us : List α, us.length = n →
      List.take 0 (List.replicate n zero) ++ us ++ List.drop (0 + n) (List.replicate n zero)
        = us := by
    intro us _
    simp
  constructor
  · intro h
    unfold decodeArray at h
    cases hc : CheckSize buf checked with
    | some e => simp [hc] at h
    | none =>
      cases hm : makeSlice elemSize zero (n : Int) with
      | none => simp [hc, hm] at h
      | some slice =>
        have hs := makeSlice_some elemSize zero n slice hm
        subst hs
        simp only [hc, hm, Int.toNat_ofNat] at h
        rcases hl : decodeLoop body n 0 (List.replicate n zero) buf with ⟨o, b⟩
        rw [hl] at h
        cases o with
        | panicked => simp at h
        | returned s err =>
          simp only [Prod.mk.injEq, Outcome.returned.injEq, Option.some.injEq] at h
          obtain ⟨⟨hs, he⟩, hb⟩ := h
          subst hs; subst he; subst hb
          obtain ⟨us, hus, hsu⟩ := hloop.1 hl
          rw [hshape us (scalarCalls_length dec n buf us b hus)] at hsu
          rw [hsu]; exact hus
  · intro h
    have hlen := scalarCalls_consumes dec w hagree.2 n buf vs r h
    have hnw : n * w ≤ buf.length := by omega
    have hl : decodeLoop body n 0 (List.replicate n zero) buf = (.returned vs none, r) :=
      hloop.2 ⟨vs, h, (hshape vs (scalarCalls_length dec n buf vs r h)).symm⟩
    exact decodeArray_of_ok what elemSize zero checked body buf r (n : Int)
      (List.replicate n zero) vs none (hchecked hnw) (makeSlice_ok elemSize zero n (halloc hnw))
      (by rw [Int.toNat_ofNat]; exact hl)

/-- Pre-check sufficiency for the frame of the array decoders: with a loop
body that agrees with a scalar decoder of width `w`, on a buffer with at least
`n * w` bytes the decoder returns `n` elements with a nil error and leaves the
reader `n * w` bytes further. -/
theorem decodeArray_sufficient {α : Type} (what : String) (elemSize : Nat) (zero : α)
    (checked : Int) (body : Reader → Outcome (Option α) × Reader)
    (dec : Reader → Outcome α × Reader) (w : Nat) (hagree : elementAgrees w body dec)
    (hexact : takesExactly w dec) (buf : Reader) (n : Nat)
    (hchecked : n * w ≤ buf.length → CheckSize buf checked = none)
    (halloc : n * w ≤ buf.length → n * elemSize ≤ maxAlloc)
    (hnw : n * w ≤ buf.length) :
    ∃ vs : List α, vs.length = n ∧
      decodeArray what elemSize zero checked body buf (n : Int)
        = (.returned (some vs) none, buf.drop (n * w)) := by
  obtain ⟨vs, hvs⟩ := scalarCalls_of_takesExactly dec w hexact n buf hnw
  exact ⟨vs, scalarCalls_length dec n buf vs _ hvs,
    (decodeArray_success_iff what elemSize zero checked body dec w hagree buf n hchecked halloc
      vs _).2 hvs⟩

/-- The pre-check on the wrapped product passes when the buffer holds the
bytes and is no larger than the largest allocation. -/
theorem CheckSize_wrap_ok (buf : Reader) (n w : Nat) (hmem : buf.length ≤ maxAlloc)
    (h : n * w ≤ buf.length) : CheckSize buf (wrap64 ((n : Int) * (w : Int))) = none := by
  have h48 : maxAlloc = 2 ^ 48 := by unfold maxAlloc; rfl
  have hcast : ((n : Int) * (w : Int)) = ((n * w : Nat) : Int) := by push_cast; rfl
  rw [hcast, wrap64_of_range _ (by omega) (by omega)]
  exact CheckSize_ok _ _ (by omega) (by omega)

theorem Read_good (buf : Reader) (w : Nat)
    (h : ¬ ((buf.Read w).data.length ≠ w ∨ (buf.Read w).eof = true)) :
    w ≤ buf.length ∧ (buf.Read w).data = buf.take w ∧ (buf.Read w).rest = buf.drop w := by
  unfold Reader.Read at h ⊢
  by_cases h0 : buf.length = 0
  · simp [h0] at h
  · simp only [h0, if_false, ne_eq, not_or, not_not, Bool.false_eq_true, not_false_eq_true,
      and_true, List.length_take] at h ⊢
    omega

theorem Read_enough (buf : Reader) (w : Nat) (hw : 0 < w) (h : w ≤ buf.length) :
    ¬ ((buf.Read w).data.length ≠ w ∨ (buf.Read w).eof = true) := by
  unfold Reader.Read
  have h0 : ¬ buf.length = 0 := by omega
  simp only [h0, if_false, ne_eq, not_or, not_not, Bool.false_eq_true, not_false_eq_true,
    and_true, List.length_take]
  omega

/-- A fixed-width loop body and the scalar decoder that reads the same `w`
bytes and converts them the same way agree, and the scalar decoder takes
exactly `w` bytes. -/
theorem readElem_agrees {α : Type} (w : Nat) (hw : 0 < w) (msg msg1 : String)
    (conv : List Byte → α) (zero : α) (dec : Reader → (α × Option Error) × Reader)
    (hdec : ∀ buf : Reader, dec buf =
      if (buf.Read w).data.length ≠ w ∨ (buf.Read w).eof = true
      then ((zero, some (.new msg1)), (buf.Read w).rest)
      else ((conv (buf.Read w).data, none), (buf.Read w).rest)) :
    elementAgrees w (readElem w msg conv) (returning dec) ∧ takesExactly w (returning dec) := by
  refine ⟨⟨fun buf s r => ?_, fun buf v r h => ?_⟩, fun buf h => ?_⟩
  · unfold readElem returning
    rw [hdec buf]
    by_cases hbad : ((buf.Read w).data.length ≠ w ∨ (buf.Read w).eof = true)
    · simp [hbad]
    · simp only [hbad, if_false, Prod.mk.injEq, Outcome.returned.injEq, and_true]
      constructor
      · rintro ⟨h1, h2⟩
        exact ⟨conv (buf.Read w).data, h1.symm, rfl, h2⟩
      · rintro ⟨v, h1, h2, h3⟩
        exact ⟨by rw [h1, h2], h3⟩
  · unfold returning at h
    rw [hdec buf] at h
    by_cases hbad : ((buf.Read w).data.length ≠ w ∨ (buf.Read w).eof = true)
    · simp [hbad] at h
    · obtain ⟨h1, _, h3⟩ := Read_good buf w hbad
      simp only [hbad, if_false, Prod.mk.injEq, Outcome.returned.injEq, and_true] at h
      rw [← h.2, h3, List.length_drop]
      omega
  · have hgood := Read_enough buf w hw h
    obtain ⟨_, _, h3⟩ := Read_good buf w hgood
    refine ⟨conv (buf.Read w).data, ?_⟩
    unfold returning
    rw [hdec buf]
    simp only [hgood, if_false, h3]
theorem DecodeBool_agrees :
    elementAgrees 1
      (readElem 1 "Could not read 1 byte from buffer" (fun arr => arr.getD 0 0 != 0))
      (returning DecodeBool) ∧ takesExactly 1 (returning DecodeBool) :=
  readElem_agrees 1 (by decide) _ "Could not read 1 byte from buffer" _ false DecodeBool (by
    intro buf
    unfold DecodeBool DecodeUint8
    by_cases hbad : ((buf.Read 1).data.length ≠ 1 ∨ (buf.Read 1).eof = true)
    · simp [hbad]
    · simp [hbad])

theorem DecodeInt8_agrees :
    elementAgrees 1
      (readElem 1 "Could not read 1 byte from buffer" (fun arr => toSigned 8 (byteAt arr 0)))
      (returning DecodeInt8) ∧ takesExactly 1 (returning DecodeInt8) :=
  readElem_agrees 1 (by decide) _ "Could not read 1 byte from buffer" _ 0 DecodeInt8 (by
    intro buf
    unfold DecodeInt8 DecodeUint8
    by_cases hbad : ((buf.Read 1).data.length ≠ 1 ∨ (buf.Read 1).eof = true)
    · simp [hbad, toSigned]
    · simp [hbad, byteAt])

theorem DecodeUint8_agrees :
    elementAgrees 1
      (readElem 1 "Could not read 1 byte from buffer" (fun arr => arr.getD 0 0))
      (returning DecodeUint8) ∧ takesExactly 1 (returning DecodeUint8) :=
  readElem_agrees 1 (by decide) _ "Could not read 1 byte from buffer" _ 0 DecodeUint8 (by
    intro buf
    unfold DecodeUint8
    by_cases hbad : ((buf.Read 1).data.length ≠ 1 ∨ (buf.Read 1).eof = true)
    · simp [hbad]
    · simp [hbad])

theorem DecodeInt16_agrees :
    elementAgrees 2
      (readElem 2 "Could not read 2 bytes from buffer"
        (fun arr => toSigned 16 (LittleEndian.Uint16 arr)))
      (returning DecodeInt16) ∧ takesExactly 2 (returning DecodeInt16) :=
  readElem_agrees 2 (by decide) _ "Could not read 2 bytes from buffer" _ 0 DecodeInt16 (by
    intro buf
    unfold DecodeInt16 DecodeUint16
    by_cases hbad : ((buf.Read 2).data.length ≠ 2 ∨ (buf.Read 2).eof = true)
    · simp [hbad, toSigned]
    · simp [hbad])

theorem DecodeUint16_agrees :
    elementAgrees 2
      (readElem 2 "Could not read 2 bytes from buffer" LittleEndian.Uint16)
      (returning DecodeUint16) ∧ takesExactly 2 (returning DecodeUint16) :=
  readElem_agrees 2 (by decide) _ "Could not read 2 bytes from buffer" _ 0 DecodeUint16 (by
    intro buf
    unfold DecodeUint16
    by_cases hbad : ((buf.Read 2).data.length ≠ 2 ∨ (buf.Read 2).eof = true)
    · simp [hbad]
    · simp [hbad])

theorem DecodeInt32_agrees :
    elementAgrees 4
      (readElem 4 "Could not read 4 bytes from buffer"
        (fun arr => toSigned 32 (LittleEndian.Uint32 arr)))
      (returning DecodeInt32) ∧ takesExactly 4 (returning DecodeInt32) :=
  readElem_agrees 4 (by decide) _ "Could not read 4 bytes from buffer" _ 0 DecodeInt32 (by
    intro buf
    unfold DecodeInt32 DecodeUint32
    by_cases hbad : ((buf.Read 4).data.length ≠ 4 ∨ (buf.Read 4).eof = true)
    · simp [hbad, toSigned]
    · simp [hbad])

theorem DecodeUint32_agrees :
    elementAgrees 4
      (readElem 4 "Could not read 4 bytes from buffer" LittleEndian.Uint32)
      (returning DecodeUint32) ∧ takesExactly 4 (returning DecodeUint32) :=
  readElem_agrees 4 (by decide) _ "Could not read 4 bytes from buffer" _ 0 DecodeUint32 (by
    intro buf
    unfold DecodeUint32
    by_cases hbad : ((buf.Read 4).data.length ≠ 4 ∨ (buf.Read 4).eof = true)
    · simp [hbad]
    · simp [hbad])

theorem DecodeFloat32_agrees :
    elementAgrees 4
      (readElem 4 "Could not read 4 bytes from buffer"
        (fun arr => (⟨Float32frombits (LittleEndian.Uint32 arr)⟩ : JsonFloat32)))
      (returning DecodeFloat32) ∧ takesExactly 4 (returning DecodeFloat32) :=
  readElem_agrees 4 (by decide) _ "Could not read 4 bytes from buffer" _ ⟨0⟩ DecodeFloat32 (by
    intro buf
    unfold DecodeFloat32 DecodeUint32
    by_cases hbad : ((buf.Read 4).data.length ≠ 4 ∨ (buf.Read 4).eof = true)
    · simp [hbad, Float32frombits]
    · simp [hbad])

theorem DecodeInt64_agrees :
    elementAgrees 8
      (readElem 8 "Could not read 8 bytes from buffer"
        (fun arr => toSigned 64 (LittleEndian.Uint64 arr)))
      (returning DecodeInt64) ∧ takesExactly 8 (returning DecodeInt64) :=
  readElem_agrees 8 (by decide) _ "Could not read 8 bytes from buffer" _ 0 DecodeInt64 (by
    intro buf
    unfold DecodeInt64 DecodeUint64
    by_cases hbad : ((buf.Read 8).data.length ≠ 8 ∨ (buf.Read 8).eof = true)
    · simp [hbad, toSigned]
    · simp [hbad])

theorem DecodeUint64_agrees :
    elementAgrees 8
      (readElem 8 "Could not read 8 bytes from buffer" LittleEndian.Uint64)
      (returning DecodeUint64) ∧ takesExactly 8 (returning DecodeUint64) :=
  readElem_agrees 8 (by decide) _ "Could not read 8 bytes from buffer" _ 0 DecodeUint64 (by
    intro buf
    unfold DecodeUint64
    by_cases hbad : ((buf.Read 8).data.length ≠ 8 ∨ (buf.Read 8).eof = true)
    · simp [hbad]
    · simp [hbad])

theorem DecodeFloat64_agrees :
    elementAgrees 8
      (readElem 8 "Could not read 8 bytes from buffer"
        (fun arr => (⟨Float64frombits (LittleEndian.Uint64 arr)⟩ : JsonFloat64)))
      (returning DecodeFloat64) ∧ takesExactly 8 (returning DecodeFloat64) :=
  readElem_agrees 8 (by decide) _ "Could not read 8 bytes from buffer" _ ⟨0⟩ DecodeFloat64 (by
    intro buf
    unfold DecodeFloat64 DecodeUint64
    by_cases hbad : ((buf.Read 8).data.length ≠ 8 ∨ (buf.Read 8).eof = true)
    · simp [hbad, Float64frombits]
    · simp [hbad])
theorem secNSec_agrees {α : Type} (what what1 : String) (mk : Nat → Nat → α) (zero : α)
    (dec : Reader → (α × Option Error) × Reader)
    (hdec : ∀ buf : Reader, dec buf =
      match DecodeUint32 buf with
      | ((_, some err), buf1) => ((zero, some (.wrap err what1)), buf1)
      | ((sec, none), buf1) =>
        match DecodeUint32 buf1 with
        | ((_, some err), buf2) => ((zero, some (.wrap err what1)), buf2)
        | ((nsec, none), buf2) => ((mk sec nsec, none), buf2)) :
    elementAgrees 8 (secNSecElem what mk) (returning dec) ∧ takesExactly 8 (returning dec) := by
  refine ⟨⟨fun buf s r => ?_, fun buf v r h => ?_⟩, fun buf h => ?_⟩
  · unfold secNSecElem returning
    rw [hdec buf]
    rcases h1 : DecodeUint32 buf with ⟨⟨sec, e1⟩, buf1⟩
    cases e1 with
    | some e => simp
    | none =>
      simp only []
      rcases h2 : DecodeUint32 buf1 with ⟨⟨nsec, e2⟩, buf2⟩
      cases e2 with
      | some e => simp
      | none =>
        simp only [Prod.mk.injEq, Outcome.returned.injEq, and_true]
        constructor
        · rintro ⟨h3, h4⟩
          exact ⟨mk sec nsec, h3.symm, rfl, h4⟩
        · rintro ⟨v, h3, h4, h5⟩
          exact ⟨by rw [h3, h4], h5⟩
  · unfold returning at h
    rw [hdec buf] at h
    have e1 := DecodeUint32_eq buf
    have e2 := DecodeUint32_eq (buf.drop 4)
    by_cases h4 : 4 ≤ buf.length
    · rw [if_pos h4] at e1
      rw [e1] at h
      simp only [] at h
      by_cases h8 : 4 ≤ (buf.drop 4).length
      · rw [if_pos h8] at e2
        rw [e2] at h
        simp only [Prod.mk.injEq, Outcome.returned.injEq, and_true] at h
        rw [← h.2]
        simp only [List.length_drop] at h8 ⊢
        omega
      · rw [if_neg h8] at e2
        rw [e2] at h
        simp at h
    · rw [if_neg h4] at e1
      rw [e1] at h
      simp at h
  · have e1 := DecodeUint32_eq buf
    have e2 := DecodeUint32_eq (buf.drop 4)
    rw [if_pos (by omega)] at e1
    rw [if_pos (by rw [List.length_drop]; omega)] at e2
    refine ⟨mk (LittleEndian.Uint32 (buf.take 4)) (LittleEndian.Uint32 ((buf.drop 4).take 4)), ?_⟩
    unfold returning
    rw [hdec buf, e1]
    simp only []
    rw [e2]
    simp only [List.drop_drop]

theorem DecodeTime_agrees :
    elementAgrees 8 (secNSecElem "decoding time array" Time.mk) (returning DecodeTime) ∧
    takesExactly 8 (returning DecodeTime) :=
  secNSec_agrees _ "decoding time" Time.mk ⟨0, 0⟩ DecodeTime (fun _ => rfl)

theorem DecodeDuration_agrees :
    elementAgrees 8 (secNSecElem "decoding duration array" Duration.mk)
      (returning DecodeDuration) ∧
    takesExactly 8 (returning DecodeDuration) :=
  secNSec_agrees _ "decoding duration" Duration.mk ⟨0, 0⟩ DecodeDuration (fun _ => rfl)

theorem DecodeUint8Array_rest (buf : Reader) (size : Int) :
    (DecodeUint8Array buf size).2.length ≤ buf.length := by
  unfold DecodeUint8Array
  cases CheckSize buf size with
  | some e => simp
  | none =>
    simp only []
    cases makeSlice 1 (0 : Byte) size with
    | none => simp
    | some slice =>
      simp only []
      by_cases h0 : size = 0
      · simp [h0]
      · simp only [h0, if_false]
        have hrest : (buf.Read slice.length).rest.length ≤ buf.length := by
          unfold Reader.Read
          by_cases hb : buf.length = 0
          · simp [hb]
          · simp [hb]
        split
        · exact hrest
        · exact hrest

/-- The loop body of `DecodeStringArray` and `DecodeString` agree, and a
string takes at least the 4 bytes of its length. -/
theorem DecodeString_agrees : elementAgrees 4 stringElem DecodeString := by
  refine ⟨fun buf s r => ?_, fun buf v r h => ?_⟩
  · unfold stringElem DecodeString
    rcases h1 : DecodeUint32 buf with ⟨⟨strSize, e1⟩, buf1⟩
    cases e1 with
    | some e => simp
    | none =>
      simp only []
      rcases h2 : DecodeUint8Array buf1 (strSize : Int) with ⟨o, buf2⟩
      cases o with
      | panicked => simp
      | returned value e2 =>
        cases e2 with
        | some e => simp
        | none =>
          simp only [Prod.mk.injEq, Outcome.returned.injEq, and_true]
          constructor
          · rintro ⟨h3, h4⟩
            exact ⟨value.getD [], h3.symm, rfl, h4⟩
          · rintro ⟨v, h3, h4, h5⟩
            exact ⟨by rw [h3, h4], h5⟩
  · unfold DecodeString at h
    have e1 := DecodeUint32_eq buf
    by_cases h4 : 4 ≤ buf.length
    · rw [if_pos h4] at e1
      rw [e1] at h
      simp only [] at h
      have hrest := DecodeUint8Array_rest (buf.drop 4) (LittleEndian.Uint32 (buf.take 4) : Nat)
      rcases h2 : DecodeUint8Array (buf.drop 4) ((LittleEndian.Uint32 (buf.take 4) : Nat) : Int)
        with ⟨o, buf2⟩
      rw [h2] at h hrest
      cases o with
      | panicked => simp at h
      | returned value e2 =>
        cases e2 with
        | some e => simp at h
        | none =>
          simp only [Prod.mk.injEq, Outcome.returned.injEq, and_true] at h
          rw [← h.2]
          simp only [List.length_drop] at hrest
          omega
    · rw [if_neg h4] at e1
      rw [e1] at h
      simp at h

/-- What `DecodeUint8Array` does on a buffer no larger than the largest
allocation: with `n` bytes or more it returns the first `n` and leaves the
rest; it succeeds in no other case. -/
theorem DecodeUint8Array_iff (buf : Reader) (n : Nat) (hmem : buf.length ≤ maxAlloc)
    (vs : List Byte) (r : Reader) :
    DecodeUint8Array buf (n : Int) = (.returned (some vs) none, r) ↔
      n ≤ buf.length ∧ vs = buf.take n ∧ r = buf.drop n := by
  by_cases hn : n ≤ buf.length
  · have hex := DecodeUint8Array_exact (buf.take n) (buf.drop n)
      (by rw [List.length_take]; omega)
    rw [List.take_append_drop, List.length_take, Nat.min_eq_left hn] at hex
    rw [hex]
    simp only [Prod.mk.injEq, Outcome.returned.injEq, Option.some.injEq, and_true, hn, true_and]
    constructor
    · rintro ⟨h1, h2⟩; exact ⟨h1.symm, h2.symm⟩
    · rintro ⟨h1, h2⟩; exact ⟨h1.symm, h2.symm⟩
  · have hrej := (DecodeUint8Array_rejected buf (n : Int)
      (by rw [CheckSize_short buf _ (by omega) (by omega)]; rfl)).1
    constructor
    · intro h
      rw [h] at hrej
      simp [Outcome.rejected] at hrej
    · rintro ⟨h, _⟩
      exact absurd h hn

theorem scalarCalls_DecodeUint8 : ∀ (n : Nat) (buf : Reader) (vs : List Byte) (r : Reader),
    scalarCalls (returning DecodeUint8) n buf = some (vs, r) ↔
      n ≤ buf.length ∧ vs = buf.take n ∧ r = buf.drop n
  | 0, buf, vs, r => by
    simp only [scalarCalls, Option.some.injEq, Prod.mk.injEq, Nat.zero_le, List.take_zero,
      List.drop_zero, true_and]
    constructor
    · rintro ⟨h1, h2⟩; exact ⟨h1.symm, h2.symm⟩
    · rintro ⟨h1, h2⟩; exact ⟨h1.symm, h2.symm⟩
  | n + 1, buf, vs, r => by
    rw [scalarCalls_succ]
    cases buf with
    | nil =>
      constructor
      · rintro ⟨v, buf1, vs1, h1, _, _⟩
        simp [returning, DecodeUint8, Reader.Read] at h1
      · rintro ⟨h, _⟩
        simp at h
    | cons b rest =>
      have hb : returning DecodeUint8 (b :: rest) = (.returned b none, rest) := by
        simp [returning, DecodeUint8_cons]
      constructor
      · rintro ⟨v, buf1, vs1, h1, h2, h3⟩
        rw [hb] at h1
        simp only [Prod.mk.injEq, Outcome.returned.injEq, and_true] at h1
        obtain ⟨hv, hb1⟩ := h1
        subst hv; subst hb1
        obtain ⟨h4, h5, h6⟩ := (scalarCalls_DecodeUint8 n rest vs1 r).1 h2
        exact ⟨by simp only [List.length_cons]; omega, by rw [h3, h5]; rfl, by rw [h6]; rfl⟩
      · rintro ⟨h4, h5, h6⟩
        refine ⟨b, rest, rest.take n, hb, ?_, by rw [h5]; rfl⟩
        rw [scalarCalls_DecodeUint8 n rest (rest.take n) r]
        exact ⟨by simp only [List.length_cons] at h4; omega, rfl, by rw [h6]; rfl⟩
/-- C27. Array decoders agree with repeated scalar decoding: for every size
`n >= 0` and every buffer (no larger than the largest allocation the runtime
grants), each array decoder returns a slice `vs` with a nil error and leaves
the reader at `r` exactly when `n` successive calls of the corresponding
scalar decoder on the same buffer all succeed, return the values `vs` in that
order and leave the reader at `r`.  For `DecodeStringArray`, whose elements
take 16 bytes each in the slice, the buffer is to be no larger than a quarter
of the largest allocation. -/
theorem array_decoders_agree_with_scalar_calls (buf : Reader) (n : Nat)
    (hmem : buf.length ≤ maxAlloc) :
    (∀ vs r, DecodeBoolArray buf n = (.returned (some vs) none, r) ↔
      scalarCalls (returning DecodeBool) n buf = some (vs, r)) ∧
    (∀ vs r, DecodeInt8Array buf n = (.returned (some vs) none, r) ↔
      scalarCalls (returning DecodeInt8) n buf = some (vs, r)) ∧
    (∀ vs r, DecodeUint8Array buf n = (.returned (some vs) none, r) ↔
      scalarCalls (returning DecodeUint8) n buf = some (vs, r)) ∧
    (∀ vs r, DecodeInt16Array buf n = (.returned (some vs) none, r) ↔
      scalarCalls (returning DecodeInt16) n buf = some (vs, r)) ∧
    (∀ vs r, DecodeUint16Array buf n = (.returned (some vs) none, r) ↔
      scalarCalls (returning DecodeUint16) n buf = some (vs, r)) ∧
    (∀ vs r, DecodeInt32Array buf n = (.returned (some vs) none, r) ↔
      scalarCalls (returning DecodeInt32) n buf = some (vs, r)) ∧
    (∀ vs r, DecodeUint32Array buf n = (.returned (some vs) none, r) ↔
      scalarCalls (returning DecodeUint32) n buf = some (vs, r)) ∧
    (∀ vs r, DecodeFloat32Array buf n = (.returned (some vs) none, r) ↔
      scalarCalls (returning DecodeFloat32) n buf = some (vs, r)) ∧
    (∀ vs r, DecodeInt64Array buf n = (.returned (some vs) none, r) ↔
      scalarCalls (returning DecodeInt64) n buf = some (vs, r)) ∧
    (∀ vs r, DecodeUint64Array buf n = (.returned (some vs) none, r) ↔
      scalarCalls (returning DecodeUint64) n buf = some (vs, r)) ∧
    (∀ vs r, DecodeFloat64Array buf n = (.returned (some vs) none, r) ↔
      scalarCalls (returning DecodeFloat64) n buf = some (vs, r)) ∧
    (∀ vs r, DecodeTimeArray buf n = (.returned (some vs) none, r) ↔
      scalarCalls (returning DecodeTime) n buf = some (vs, r)) ∧
    (∀ vs r, DecodeDurationArray buf n = (.returned (some vs) none, r) ↔
      scalarCalls (returning DecodeDuration) n buf = some (vs, r)) ∧
    (buf.length * 4 ≤ maxAlloc →
      ∀ vs r, DecodeStringArray buf n = (.returned (some vs) none, r) ↔
        scalarCalls DecodeString n buf = some (vs, r)) := by
  have hc1 : n * 1 ≤ buf.length → CheckSize buf (n : Int) = none :=
    fun h => CheckSize_ok _ _ (by omega) (by omega)
  have hc2 : n * 2 ≤ buf.length → CheckSize buf (wrap64 ((n : Int) * 2)) = none :=
    fun h => CheckSize_wrap_ok buf n 2 hmem h
  have hc4 : n * 4 ≤ buf.length → CheckSize buf (wrap64 ((n : Int) * 4)) = none :=
    fun h => CheckSize_wrap_ok buf n 4 hmem h
  have hc8 : n * 8 ≤ buf.length → CheckSize buf (wrap64 ((n : Int) * 8)) = none :=
    fun h => CheckSize_wrap_ok buf n 8 hmem h
  have ha : ∀ w : Nat, n * w ≤ buf.length → n * w ≤ maxAlloc := fun w h => by omega
  refine ⟨?_, ?_, ?_, ?_, ?_, ?_, ?_, ?_, ?_, ?_, ?_, ?_, ?_, ?_⟩
  · exact fun vs r => decodeArray_success_iff _ _ _ _ _ _ 1 DecodeBool_agrees.1 buf n hc1
      (ha 1) vs r
  · exact fun vs r => decodeArray_success_iff _ _ _ _ _ _ 1 DecodeInt8_agrees.1 buf n hc1
      (ha 1) vs r
  · intro vs r
    rw [DecodeUint8Array_iff buf n hmem, scalarCalls_DecodeUint8]
  · exact fun vs r => decodeArray_success_iff _ _ _ _ _ _ 2 DecodeInt16_agrees.1 buf n hc2
      (ha 2) vs r
  · exact fun vs r => decodeArray_success_iff _ _ _ _ _ _ 2 DecodeUint16_agrees.1 buf n hc2
      (ha 2) vs r
  · exact fun vs r => decodeArray_success_iff _ _ _ _ _ _ 4 DecodeInt32_agrees.1 buf n hc4
      (ha 4) vs r
  · exact fun vs r => decodeArray_success_iff _ _ _ _ _ _ 4 DecodeUint32_agrees.1 buf n hc4
      (ha 4) vs r
  · exact fun vs r => decodeArray_success_iff _ _ _ _ _ _ 4 DecodeFloat32_agrees.1 buf n hc4
      (ha 4) vs r
  · exact fun vs r => decodeArray_success_iff _ _ _ _ _ _ 8 DecodeInt64_agrees.1 buf n hc8
      (ha 8) vs r
  · exact fun vs r => decodeArray_success_iff _ _ _ _ _ _ 8 DecodeUint64_agrees.1 buf n hc8
      (ha 8) vs r
  · exact fun vs r => decodeArray_success_iff _ _ _ _ _ _ 8 DecodeFloat64_agrees.1 buf n hc8
      (ha 8) vs r
  · exact fun vs r => decodeArray_success_iff _ _ _ _ _ _ 8 DecodeTime_agrees.1 buf n hc8
      (ha 8) vs r
  · exact fun vs r => decodeArray_success_iff _ _ _ _ _ _ 8 DecodeDuration_agrees.1 buf n hc8
      (ha 8) vs r
  · intro h4 vs r
    exact decodeArray_success_iff _ _ _ _ _ _ 4 DecodeString_agrees buf n hc4
      (fun h => by omega) vs r

/-- Witness for C27: two `uint16` values, whether decoded as an array of size
2 or by two calls of `DecodeUint16`. -/
theorem array_decoders_agree_with_scalar_calls_witness :
    scalarCalls (returning DecodeUint16) 2 [1, 0, 2, 0, 9] = some ([1, 2], [9]) ∧
    DecodeUint16Array [1, 0, 2, 0, 9] 2 = (.returned (some [1, 2]) none, [9]) :=
  have h : scalarCalls (returning DecodeUint16) 2 [1, 0, 2, 0, 9] = some ([1, 2], [9]) := by
    decide
  ⟨h, ((array_decoders_agree_with_scalar_calls [1, 0, 2, 0, 9] 2
    (by with_unfolding_all decide)).2.2.2.2.1 [1, 2] [9]).2 h⟩

/-- C28. Pre-check sufficiency for fixed-width arrays: for every fixed-width
array decoder (bool, i8, u8, i16, u16, i32, u32, f32, i64, u64, f64, Time,
Duration) with element width `w`, every size `n >= 0` and every buffer (no
larger than the largest allocation the runtime grants) with at least `n * w`
remaining bytes, the decoder returns a nil error and a slice of exactly `n`
elements, and leaves the reader exactly `n * w` bytes further: once
`CheckSize` passes, no per-element read fails. -/
theorem precheck_sufficient_for_fixed_width (buf : Reader) (n : Nat)
    (hmem : buf.length ≤ maxAlloc) :
    (n * 1 ≤ buf.length →
      (∃ vs, vs.length = n ∧
        DecodeBoolArray buf n = (.returned (some vs) none, buf.drop (n * 1))) ∧
      (∃ vs, vs.length = n ∧
        DecodeInt8Array buf n = (.returned (some vs) none, buf.drop (n * 1))) ∧
      (∃ vs, vs.length = n ∧
        DecodeUint8Array buf n = (.returned (some vs) none, buf.drop (n * 1)))) ∧
    (n * 2 ≤ buf.length →
      (∃ vs, vs.length = n ∧
        DecodeInt16Array buf n = (.returned (some vs) none, buf.drop (n * 2))) ∧
      (∃ vs, vs.length = n ∧
        DecodeUint16Array buf n = (.returned (some vs) none, buf.drop (n * 2)))) ∧
    (n * 4 ≤ buf.length →
      (∃ vs, vs.length = n ∧
        DecodeInt32Array buf n = (.returned (some vs) none, buf.drop (n * 4))) ∧
      (∃ vs, vs.length = n ∧
        DecodeUint32Array buf n = (.returned (some vs) none, buf.drop (n * 4))) ∧
      (∃ vs, vs.length = n ∧
        DecodeFloat32Array buf n = (.returned (some vs) none, buf.drop (n * 4)))) ∧
    (n * 8 ≤ buf.length →
      (∃ vs, vs.length = n ∧
        DecodeInt64Array buf n = (.returned (some vs) none, buf.drop (n * 8))) ∧
      (∃ vs, vs.length = n ∧
        DecodeUint64Array buf n = (.returned (some vs) none, buf.drop (n * 8))) ∧
      (∃ vs, vs.length = n ∧
        DecodeFloat64Array buf n = (.returned (some vs) none, buf.drop (n * 8))) ∧
      (∃ vs, vs.length = n ∧
        DecodeTimeArray buf n = (.returned (some vs) none, buf.drop (n * 8))) ∧
      (∃ vs, vs.length = n ∧
        DecodeDurationArray buf n = (.returned (some vs) none, buf.drop (n * 8)))) := by
  have hc1 : n * 1 ≤ buf.length → CheckSize buf (n : Int) = none :=
    fun h => CheckSize_ok _ _ (by omega) (by omega)
  have hc2 : n * 2 ≤ buf.length → CheckSize buf (wrap64 ((n : Int) * 2)) = none :=
    fun h => CheckSize_wrap_ok buf n 2 hmem h
  have hc4 : n * 4 ≤ buf.length → CheckSize buf (wrap64 ((n : Int) * 4)) = none :=
    fun h => CheckSize_wrap_ok buf n 4 hmem h
  have hc8 : n * 8 ≤ buf.length → CheckSize buf (wrap64 ((n : Int) * 8)) = none :=
    fun h => CheckSize_wrap_ok buf n 8 hmem h
  have ha : ∀ w : Nat, n * w ≤ buf.length → n * w ≤ maxAlloc := fun w h => by omega
  refine ⟨fun h => ⟨?_, ?_, ?_⟩, fun h => ⟨?_, ?_⟩, fun h => ⟨?_, ?_, ?_⟩,
    fun h => ⟨?_, ?_, ?_, ?_, ?_⟩⟩
  · exact decodeArray_sufficient _ _ _ _ _ _ 1 DecodeBool_agrees.1 DecodeBool_agrees.2 buf n
      hc1 (ha 1) h
  · exact decodeArray_sufficient _ _ _ _ _ _ 1 DecodeInt8_agrees.1 DecodeInt8_agrees.2 buf n
      hc1 (ha 1) h
  · refine ⟨buf.take n, by rw [List.length_take]; omega, ?_⟩
    rw [DecodeUint8Array_iff buf n hmem]
    exact ⟨by omega, rfl, by rw [Nat.mul_one]⟩
  · exact decodeArray_sufficient _ _ _ _ _ _ 2 DecodeInt16_agrees.1 DecodeInt16_agrees.2 buf n
      hc2 (ha 2) h
  · exact decodeArray_sufficient _ _ _ _ _ _ 2 DecodeUint16_agrees.1 DecodeUint16_agrees.2 buf n
      hc2 (ha 2) h
  · exact decodeArray_sufficient _ _ _ _ _ _ 4 DecodeInt32_agrees.1 DecodeInt32_agrees.2 buf n
      hc4 (ha 4) h
  · exact decodeArray_sufficient _ _ _ _ _ _ 4 DecodeUint32_agrees.1 DecodeUint32_agrees.2 buf n
      hc4 (ha 4) h
  · exact decodeArray_sufficient _ _ _ _ _ _ 4 DecodeFloat32_agrees.1 DecodeFloat32_agrees.2
      buf n hc4 (ha 4) h
  · exact decodeArray_sufficient _ _ _ _ _ _ 8 DecodeInt64_agrees.1 DecodeInt64_agrees.2 buf n
      hc8 (ha 8) h
  · exact decodeArray_sufficient _ _ _ _ _ _ 8 DecodeUint64_agrees.1 DecodeUint64_agrees.2 buf n
      hc8 (ha 8) h
  · exact decodeArray_sufficient _ _ _ _ _ _ 8 DecodeFloat64_agrees.1 DecodeFloat64_agrees.2
      buf n hc8 (ha 8) h
  · exact decodeArray_sufficient _ _ _ _ _ _ 8 DecodeTime_agrees.1 DecodeTime_agrees.2 buf n
      hc8 (ha 8) h
  · exact decodeArray_sufficient _ _ _ _ _ _ 8 DecodeDuration_agrees.1 DecodeDuration_agrees.2
      buf n hc8 (ha 8) h

/-- Witness for C28: two `uint32` elements on a nine-byte buffer, and size 0
on the empty buffer. -/
theorem precheck_sufficient_for_fixed_width_witness :
    (∃ vs, vs.length = 2 ∧
      DecodeUint32Array [1, 0, 0, 0, 2, 0, 0, 0, 9] 2
        = (.returned (some vs) none, List.drop (2 * 4) [1, 0, 0, 0, 2, 0, 0, 0, 9])) ∧
    (∃ vs, vs.length = 0 ∧
      DecodeTimeArray [] 0 = (.returned (some vs) none, List.drop (0 * 8) [])) :=
  ⟨((precheck_sufficient_for_fixed_width [1, 0, 0, 0, 2, 0, 0, 0, 9] 2
      (by with_unfolding_all decide)).2.2.1 (by decide)).2.1,
   ((precheck_sufficient_for_fixed_width [] 0
      (by with_unfolding_all decide)).2.2.2 (by decide)).2.2.2.1⟩

/-! ## C25: the inner re-check of string lengths -/

/-- The loop body of `DecodeStringArray` on a string whose length prefix
declares more bytes than remain: the inner `CheckSize` of `DecodeUint8Array`
fails and the error comes back wrapped, with nothing assigned. -/
theorem stringElem_short (m : Nat) (tail : Reader) (hm : m < 2 ^ 32) (ht : tail.length < m) :
    stringElem (leBytes 4 m ++ tail) =
      (.returned none
        (some (.wrap (.wrap (.new "buffer size too small") "decoding u8 array")
          "decoding string array")), tail) := by
  have h1 := DecodeUint32_leBytes m hm tail
  have h2 : DecodeUint8Array tail (m : Int)
      = (.returned none (some (.wrap (.new "buffer size too small") "decoding u8 array")),
          tail) := by
    simp only [DecodeUint8Array, CheckSize_short tail (m : Int) (by omega) (by omega)]
  simp only [stringElem, h1, h2]

theorem stringElem_ok (s rest : List Byte) (hs : s.length < 2 ^ 32) :
    stringElem (leBytes 4 s.length ++ s ++ rest) = (.returned (some s) none, rest) := by
  have h2 : s.length ≤ maxAlloc := by unfold maxAlloc; omega
  have hd : DecodeString (leBytes 4 s.length ++ s ++ rest) = (.returned s none, rest) := by
    refine DecodeString_of _ (s ++ rest) rest s.length (some s) ?_ ?_
    · rw [List.append_assoc]
      exact DecodeUint32_leBytes _ hs _
    · exact DecodeUint8Array_exact s rest h2
  exact (DecodeString_agrees.1 _ (some s) rest).2 ⟨s, rfl, hd⟩

/-- The element loop of `DecodeStringArray` on a buffer that holds the strings
`ss` and then a string whose length prefix declares more bytes than remain,
when more than `ss.length` elements are asked for: it returns an error. -/
theorem decodeLoop_stringElem_short (m : Nat) (tail : Reader) (hm : m < 2 ^ 32)
    (ht : tail.length < m) :
    ∀ (ss : List (List Byte)), (∀ s ∈ ss, s.length < 2 ^ 32) →
    ∀ (n i : Nat) (slice : List (List Byte)), ss.length < n →
      ∃ s1 err, decodeLoop stringElem n i slice
        ((ss.map (fun s => leBytes 4 s.length ++ s)).flatten ++ (leBytes 4 m ++ tail))
          = (.returned s1 (some err), tail)
  | [], _, 0, _, _, h => absurd h (Nat.lt_irrefl 0)
  | [], _, n + 1, i, slice, _ => by
    simp only [List.map_nil, List.flatten_nil, List.nil_append, decodeLoop,
      stringElem_short m tail hm ht]
    exact ⟨_, _, rfl⟩
  | s :: ss, _, 0, _, _, h => absurd h (Nat.not_lt_zero _)
  | s :: ss, hss, n + 1, i, slice, h => by
    have hs := hss s (List.mem_cons_self _ _)
    have hok := stringElem_ok s
      ((ss.map (fun s => leBytes 4 s.length ++ s)).flatten ++ (leBytes 4 m ++ tail)) hs
    have hbuf : ((s :: ss).map (fun s => leBytes 4 s.length ++ s)).flatten
        ++ (leBytes 4 m ++ tail)
        = leBytes 4 s.length ++ s
          ++ ((ss.map (fun s => leBytes 4 s.length ++ s)).flatten ++ (leBytes 4 m ++ tail)) := by
      simp only [List.map_cons, List.flatten_cons, List.append_assoc]
    rw [hbuf]
    simp only [decodeLoop, hok]
    exact decodeLoop_stringElem_short m tail hm ht ss
      (fun s1 h1 => hss s1 (List.mem_cons_of_mem _ h1)) n (i + 1) _
      (by simp only [List.length_cons] at h; omega)

theorem scalarCalls_empty_strings : ∀ n : Nat,
    scalarCalls DecodeString n (List.replicate (4 * n) (0 : Byte))
      = some (List.replicate n [], [])
  | 0 => rfl
  | n + 1 => by
    have hrep : List.replicate (4 * (n + 1)) (0 : Byte)
        = leBytes 4 ([] : List Byte).length ++ [] ++ List.replicate (4 * n) (0 : Byte) := by
      have : 4 * (n + 1) = 4 + 4 * n := by ring
      rw [this, List.replicate_add]
      rfl
    have hd : DecodeString (leBytes 4 ([] : List Byte).length ++ []
        ++ List.replicate (4 * n) (0 : Byte)) = (.returned [] none, List.replicate (4 * n) 0) := by
      refine DecodeString_of _ ([] ++ List.replicate (4 * n) 0) _ 0 (some []) ?_ ?_
      · rw [List.append_assoc]
        exact DecodeUint32_leBytes 0 (by decide) _
      · exact DecodeUint8Array_exact [] _ (by simp)
    rw [scalarCalls_succ]
    exact ⟨[], List.replicate (4 * n) 0, List.replicate n [], by rw [hrep]; exact hd,
      scalarCalls_empty_strings n, rfl⟩

/-- C25. Inner re-check of string lengths.  (1) On a buffer whose `u32`
length prefix declares more bytes than remain after it, `DecodeString`
returns the empty string and an error.  (2) On a buffer that holds the strings
`ss` and then such a prefix, `DecodeStringArray` asked for more than
`ss.length` strings returns an error, and returns it together with the
allocated slice when its `size * 4` pre-check passed, the slice of `n` strings
being one the runtime can allocate.  (3) A buffer of exactly `n` empty
strings, `4 * n` zero bytes, decodes with `DecodeStringArray` and size `n` to
`n` empty strings with a nil error. -/
theorem string_lengths_rechecked :
    (∀ (m : Nat) (tail : Reader), m < 2 ^ 32 → tail.length < m →
      DecodeString (leBytes 4 m ++ tail) =
        (.returned []
          (some (.wrap (.wrap (.new "buffer size too small") "decoding u8 array")
            "decoding string")), tail)) ∧
    (∀ (ss : List (List Byte)) (m : Nat) (tail : Reader) (n : Nat),
      (∀ s ∈ ss, s.length < 2 ^ 32) → m < 2 ^ 32 → tail.length < m →
      ss.length < n → n * 16 ≤ maxAlloc →
      (∃ s1 err r, DecodeStringArray
          ((ss.map (fun s => leBytes 4 s.length ++ s)).flatten ++ (leBytes 4 m ++ tail)) n
            = (.returned s1 (some err), r)) ∧
      (n * 4 ≤ ((ss.map (fun s => leBytes 4 s.length ++ s)).flatten
          ++ (leBytes 4 m ++ tail)).length →
        ∃ s1 err, DecodeStringArray
          ((ss.map (fun s => leBytes 4 s.length ++ s)).flatten ++ (leBytes 4 m ++ tail)) n
            = (.returned (some s1) (some err), tail))) ∧
    (∀ n : Nat, n * 16 ≤ maxAlloc →
      DecodeStringArray (List.replicate (4 * n) 0) n
        = (.returned (some (List.replicate n [])) none, [])) := by
  have h48 : maxAlloc = 2 ^ 48 := by unfold maxAlloc; rfl
  refine ⟨fun m tail hm ht => ?_, fun ss m tail n hss hm ht hn halloc => ?_, fun n halloc => ?_⟩
  · have h1 := DecodeUint32_leBytes m hm tail
    have h2 : DecodeUint8Array tail (m : Int)
        = (.returned none (some (.wrap (.new "buffer size too small") "decoding u8 array")),
            tail) := by
      simp only [DecodeUint8Array, CheckSize_short tail (m : Int) (by omega) (by omega)]
    simp only [DecodeString, h1, h2]
  · have hpass : n * 4 ≤ ((ss.map (fun s => leBytes 4 s.length ++ s)).flatten
          ++ (leBytes 4 m ++ tail)).length →
        ∃ s1 err, DecodeStringArray
          ((ss.map (fun s => leBytes 4 s.length ++ s)).flatten ++ (leBytes 4 m ++ tail)) n
            = (.returned (some s1) (some err), tail) := by
      intro hlen
      obtain ⟨s1, err, hloop⟩ := decodeLoop_stringElem_short m tail hm ht ss hss n 0
        (List.replicate n []) hn
      have hcast : ((n : Int) * 4) = ((n * 4 : Nat) : Int) := by push_cast; rfl
      have hcheck : CheckSize
          ((ss.map (fun s => leBytes 4 s.length ++ s)).flatten ++ (leBytes 4 m ++ tail))
          (wrap64 ((n : Int) * 4)) = none := by
        rw [hcast, wrap64_of_range _ (by omega) (by omega)]
        exact CheckSize_ok _ _ (by omega) (by omega)
      exact ⟨s1, err, decodeArray_of_ok "decoding string array" 16 [] _ stringElem _ tail
        (n : Int) (List.replicate n []) s1 (some err) hcheck (makeSlice_ok 16 [] n halloc)
        (by rw [Int.toNat_ofNat]; exact hloop)⟩
    refine ⟨?_, hpass⟩
    by_cases hlen : n * 4 ≤ ((ss.map (fun s => leBytes 4 s.length ++ s)).flatten
          ++ (leBytes 4 m ++ tail)).length
    · obtain ⟨s1, err, h⟩ := hpass hlen
      exact ⟨some s1, err, tail, h⟩
    · have hcast : ((n : Int) * 4) = ((n * 4 : Nat) : Int) := by push_cast; rfl
      have hcheck : CheckSize
          ((ss.map (fun s => leBytes 4 s.length ++ s)).flatten ++ (leBytes 4 m ++ tail))
          (wrap64 ((n : Int) * 4)) = some (.new "buffer size too small") := by
        rw [hcast, wrap64_of_range _ (by omega) (by omega)]
        exact CheckSize_short _ _ (by omega) (by omega)
      exact ⟨none, _, _, decodeArray_rejects "decoding string array" 16 [] _ stringElem _
        (n : Int) _ hcheck⟩
  · have hlen : (List.replicate (4 * n) (0 : Byte)).length = 4 * n := List.length_replicate _ _
    exact (decodeArray_success_iff "decoding string array" 16 [] _ stringElem DecodeString 4
      DecodeString_agrees (List.replicate (4 * n) 0) n
      (fun _ => CheckSize_wrap_ok _ n 4 (by rw [hlen]; omega) (by rw [hlen]; omega))
      (fun _ => halloc) (List.replicate n []) []).2 (scalarCalls_empty_strings n)

/-- Witness for C25: the prefix 5 followed by two bytes; the same buffer as an
array of one string, which passes the pre-check (6 bytes for `1 * 4`); and two
empty strings. -/
theorem string_lengths_rechecked_witness :
    DecodeString (leBytes 4 5 ++ [1, 2]) =
      (.returned []
        (some (.wrap (.wrap (.new "buffer size too small") "decoding u8 array")
          "decoding string")), [1, 2]) ∧
    (∃ s1 err, DecodeStringArray
        (((([] : List (List Byte)).map (fun s => leBytes 4 s.length ++ s)).flatten)
          ++ (leBytes 4 5 ++ [1, 2])) (1 : Nat)
        = (.returned (some s1) (some err), [1, 2])) ∧
    DecodeStringArray (List.replicate (4 * 2) 0) (2 : Nat)
      = (.returned (some (List.replicate 2 [])) none, []) :=
  ⟨string_lengths_rechecked.1 5 [1, 2] (by decide) (by decide),
   (string_lengths_rechecked.2.1 [] 5 [1, 2] 1 (by simp) (by decide) (by decide) (by decide)
      (by with_unfolding_all decide)).2 (by decide),
   string_lengths_rechecked.2.2 2 (by with_unfolding_all decide)⟩

/-! ## The inclusion that does hold between the two tables -/

theorem tearDown_keys : ∀ (dead : List String) (sub : defaultSubscriber) (k : String),
    k ∈ mapKeys (tearDown sub dead).sub.connections → k ∈ mapKeys sub.connections
  | [], sub, k, h => by simpa [tearDown] using h
  | p :: rest, sub, k, h => by
    rw [tearDown] at h
    split at h
    · exact h
    · have h1 := tearDown_keys rest _ k h
      simp only [mapKeys_mapDelete, List.mem_filter] at h1
      exact h1.1

theorem tearDown_keys_completed : ∀ (dead : List String) (sub : defaultSubscriber) (k : String),
    (tearDown sub dead).ending = .completed →
    k ∈ mapKeys (tearDown sub dead).sub.connections → k ∉ dead
  | [], sub, k, _, _ => by simp
  | p :: rest, sub, k, he, h => by
    rw [tearDown] at h he
    split at h
    · rename_i hnone
      rw [hnone] at he
      simp at he
    · rename_i c hsome
      rw [hsome] at he
      simp only [] at he
      have h1 := tearDown_keys rest _ k h
      simp only [mapKeys_mapDelete, List.mem_filter, ne_eq, decide_not, Bool.not_eq_eq_eq_not,
        Bool.not_true, decide_eq_false_iff_not] at h1
      have h2 := tearDown_keys_completed rest _ k he h
      intro hk
      rcases List.mem_cons.1 hk with hk | hk
      · exact h1.2 hk
      · exact h2 hk

theorem connect_keys (client : XMLClient) (nodeID : String) :
    ∀ (new : List String) (sub : defaultSubscriber) (k : String),
      k ∈ mapKeys (connect client nodeID sub new).sub.connections →
        k ∈ mapKeys sub.connections ∨ k ∈ new
  | [], sub, k, h => by
    left; simpa [connect] using h
  | q :: rest, sub, k, h => by
    rw [connect] at h
    split at h
    · exact Or.inl h
    · rcases connect_keys client nodeID rest _ k h with h1 | h1
      · simp only [mapKeys_mapSet] at h1
        split at h1
        · exact Or.inl h1
        · rcases List.mem_append.1 h1 with h2 | h2
          · exact Or.inl h2
          · rw [List.mem_singleton] at h2
            exact Or.inr (h2 ▸ List.mem_cons_self _ _)
      · exact Or.inr (List.mem_cons_of_mem _ h1)
    · rcases connect_keys client nodeID rest _ k h with h1 | h1
      · exact Or.inl h1
      · exact Or.inr (List.mem_cons_of_mem _ h1)

theorem connect_pubList (client : XMLClient) (nodeID : String) :
    ∀ (new : List String) (s : defaultSubscriber),
      (connect client nodeID s new).sub.pubList = s.pubList := by
  intro new
  induction new with
  | nil => intro s; simp [connect]
  | cons q rest ih =>
    intro s
    rw [connect]
    split
    · rfl
    · exact ih _
    · exact ih _

theorem tearDown_pubList : ∀ (dead : List String) (s : defaultSubscriber),
    (tearDown s dead).sub.pubList = s.pubList := by
  intro dead
  induction dead with
  | nil => intro s; simp [tearDown]
  | cons q rest ih =>
    intro s
    rw [tearDown]
    split
    · rfl
    · exact ih _

/-- One half of the table invariant holds: when every key of `connections` is
a publisher in `pubList`, it is still so after an update step that runs to its
end, and after a disconnect notification. -/
theorem connections_keys_stay_listed (order : List String → List String)
    (horder : ∀ l, (order l).Perm l) (client : XMLClient) (nodeID : String)
    (sub : defaultSubscriber)
    (hinv : ∀ k, k ∈ mapKeys sub.connections → k ∈ sub.pubList) :
    (∀ list, (onPubList order client nodeID sub list).ending = .completed →
      ∀ k, k ∈ mapKeys (onPubList order client nodeID sub list).sub.connections →
        k ∈ (onPubList order client nodeID sub list).sub.pubList) ∧
    (∀ pubURI k, k ∈ mapKeys (onDisconnected sub pubURI).connections →
      k ∈ (onDisconnected sub pubURI).pubList) := by
  constructor
  · intro list hend k hk
    have hdead := (setDifference_spec order horder sub.pubList list).2
    have hnew := (setDifference_spec order horder list sub.pubList).2
    by_cases ht : (tearDown { sub with pubList := list }
        (setDifference order sub.pubList list)).ending = .completed
    · have hstep : onPubList order client nodeID sub list =
          ⟨(connect client nodeID
              (tearDown { sub with pubList := list } (setDifference order sub.pubList list)).sub
              (setDifference order list sub.pubList)).sub,
            (tearDown { sub with pubList := list }
                (setDifference order sub.pubList list)).actions
              ++ (connect client nodeID
              (tearDown { sub with pubList := list } (setDifference order sub.pubList list)).sub
              (setDifference order list sub.pubList)).actions,
            (connect client nodeID
              (tearDown { sub with pubList := list } (setDifference order sub.pubList list)).sub
              (setDifference order list sub.pubList)).ending⟩ := by
        simp only [onPubList, ht]
      rw [hstep] at hk ⊢
      simp only [] at hk ⊢
      rw [connect_pubList, tearDown_pubList]
      rcases connect_keys client nodeID _ _ k hk with h1 | h1
      · have h2 := tearDown_keys _ _ k h1
        have h3 := tearDown_keys_completed _ _ k ht h1
        have h4 := hinv k h2
        by_contra hkl
        exact h3 ((hdead k).2 ⟨h4, hkl⟩)
      · exact ((hnew k).1 h1).1
    · have hstep : (onPubList order client nodeID sub list).ending =
          (tearDown { sub with pubList := list }
            (setDifference order sub.pubList list)).ending := by
        cases hte : (tearDown { sub with pubList := list }
            (setDifference order sub.pubList list)).ending with
        | completed => exact absurd hte ht
        | blocked => simp only [onPubList, hte]
        | panicked => simp only [onPubList, hte]
      rw [hstep] at hend
      exact absurd hend ht
  · intro pubURI k hk
    simp only [onDisconnected, mapKeys_mapDelete, List.mem_filter] at hk ⊢
    exact hinv k hk.1

end Ros
